import Mathlib

/-!
# Bus reservation system: a shallow embedding of `bus_reservation_system.cpp`

The class `BusReservationSystem` keeps a vector of buses, each with a grid of
seat cells, and a separately maintained counter `busCount`.  Every member
function reads its arguments from standard input and prints messages; here the
values read become function arguments and the message printed becomes an
`Outcome`.

Modelling conventions.

* `std::string` is `String`.  The source only compares strings, tests them for
  emptiness, lowercases them characterwise and (for the bus number) checks that
  there are exactly four characters, all decimal digits; on each of these the
  byte view of C++ and the character view used here agree.
* `std::vector` is `List`.  An out-of-range `operator[]` is undefined behaviour
  in C++; every function that indexes a vector returns `Option`, and `none`
  stands for such an access.
* `int busCount` is an `Int`; it is only incremented below 25 and only
  decremented after a bus was found.  Vector indices are `Nat`, and the seat
  number `row * NUM_COLS + col + 1` computed from them is not reduced modulo
  2^32: that would take a grid of 2^29 rows.
* The random draws of `generateTicketID` are an argument (the stream of indices
  produced by `index_dist(gen)`).
-/

/-! ## Data model -/

/-- Seat cell: `struct SeatInfo`. -/
structure BusReservationSystem.SeatInfo where
  passengerName : String
  ticketID : String
  deriving DecidableEq, Repr, Inhabited

/-- Bus: `struct Bus`.  The members `from` and `to` are written `from_` and `to_`. -/
structure BusReservationSystem.Bus where
  busn : String
  driver : String
  arrival : String
  depart : String
  from_ : String
  to_ : String
  seat : List (List BusReservationSystem.SeatInfo)
  deriving DecidableEq, Repr

/-- State of the class: the vector `bus` and the counter `busCount`. -/
structure BusReservationSystem where
  bus : List BusReservationSystem.Bus
  busCount : Int
  deriving DecidableEq, Repr

namespace BusReservationSystem

def NUM_ROWS : Nat := 8
def NUM_COLS : Nat := 4
def MAX_SEATS : Nat := NUM_ROWS * NUM_COLS

/-- State of a freshly constructed object: no bus, `busCount = 0`. -/
def initial : BusReservationSystem := { bus := [], busCount := 0 }

/-- The six lines `addNewBus` reads, in the order it reads them. -/
structure BusRecord where
  busn : String
  driver : String
  arrival : String
  depart : String
  from_ : String
  to_ : String
  deriving DecidableEq, Repr

/-- The field an `addNewBus` format message complains about. -/
inductive Field where
  | busNumber | driver | arrival | departure | source | destination
  deriving DecidableEq, Repr

/-- The two seat-number messages of `allotmentOfSeatToPassenger`. -/
inductive SeatProblem where
  | notAnInteger | outOfRange
  deriving DecidableEq, Repr

/-- Error kinds; each stands for one family of messages printed by the source. -/
inductive Error where
  | CapacityExceeded
  | InvalidFormat (field : Field)
  | DuplicateKey
  | NotFound
  | InvalidInput (problem : SeatProblem)
  | SeatTaken
  | EmptyCollection
  deriving DecidableEq, Repr

/-- What an operation reports: it completed (`ok`), the user declined the
confirmation prompt (`declined`, nothing is changed), or it printed an error. -/
inductive Outcome (α : Type) where
  | ok (value : α)
  | declined (value : α)
  | error (e : Error)
  deriving DecidableEq, Repr

/-- The four lines of a "Ticket Info" printout. -/
structure TicketInfo where
  passengerName : String
  ticketID : String
  busNumber : String
  seatNumber : Int
  deriving DecidableEq, Repr

/-! ## Helpers shared by the operations -/

/-- Lowercasing `transform(s.begin(), s.end(), s.begin(), ::tolower)`. -/
def tolower (s : String) : String := ⟨s.data.map Char.toLower⟩

/-- Answer test `toupper(confirmation) == 'Y'` of the two confirmation prompts. -/
def confirmed (confirmation : Char) : Bool := confirmation.toUpper == 'Y'

/-- Bus-number format check of `addNewBus`: length 4 and four `isdigit` characters. -/
def validBusNumber (busn : String) : Bool :=
  match busn.data with
  | [a, b, c, d] => a.isDigit && b.isDigit && c.isDigit && d.isDigit
  | _ => false

/-- Character class `[lo-hi]` of the time pattern. -/
def inRange (lo hi c : Char) : Bool := decide (lo.val ≤ c.val) && decide (c.val ≤ hi.val)

/-- Minute and meridiem part `[0-5][0-9] (AM|PM|am|pm)` of the time pattern. -/
def validMinuteMeridiem (m1 m2 sp x y : Char) : Bool :=
  inRange '0' '5' m1 && inRange '0' '9' m2 && sp == ' ' &&
    ((x == 'A' && y == 'M') || (x == 'P' && y == 'M') ||
     (x == 'a' && y == 'm') || (x == 'p' && y == 'm'))

/-- Whole-string match `regex_match` against
`^(0?[1-9]|1[0-2]):[0-5][0-9] (AM|PM|am|pm)$`. -/
def validateTimeFormat (time : String) : Bool :=
  match time.data with
  | [h, c, m1, m2, sp, x, y] =>
      inRange '1' '9' h && c == ':' && validMinuteMeridiem m1 m2 sp x y
  | [h1, h2, c, m1, m2, sp, x, y] =>
      ((h1 == '0' && inRange '1' '9' h2) || (h1 == '1' && inRange '0' '2' h2)) &&
        c == ':' && validMinuteMeridiem m1 m2 sp x y
  | _ => false

/-- Alphabet `charset` of `generateTicketID`. -/
def charset : List Char :=
  "0123456789ABCDEFGHIJKLMNOPQRSTUVWXYZabcdefghijklmnopqrstuvwxyz".data

def id_length : Nat := 8

/-- Ticket generator `generateTicketID`: eight characters `charset[index_dist(gen)]`,
lowercased; `draws i` is the i-th value returned by `index_dist(gen)`. -/
def generateTicketID (draws : Nat → Fin 62) : String :=
  tolower ⟨(List.range id_length).map fun i => charset.getD (draws i).val '0'⟩

/-- Loop `for (i = 0; i < bus.size(); ++i) if (bus[i].busn == busNumber) { busIndex = i; break; }`
of `allotmentOfSeatToPassenger` and `deleteBus`; `none` is `busIndex == -1`. -/
def findBus (busNumber : String) : List Bus → Nat → Option Nat
  | [], _ => none
  | b :: rest, i => if b.busn = busNumber then some i else findBus busNumber rest (i + 1)

/-- Loop `for (i = 0; i < busCount; ++i)` comparing `bus[i].busn` with `number`,
run for `k` more iterations from index `i`: `some (some i)` when it stops at a
match, `some none` when it runs to the end, `none` when `bus[i]` is out of range. -/
def findBusCounted (bus : List Bus) (number : String) : Nat → Nat → Option (Option Nat)
  | 0, _ => some none
  | k + 1, i =>
    match bus[i]? with
    | none => none
    | some b => if b.busn = number then some (some i) else findBusCounted bus number k (i + 1)

/-- Read of `bus[i].seat[row][col]`; `none` when an index is out of range. -/
def seatAt (bus : List Bus) (i row col : Nat) : Option SeatInfo :=
  match bus[i]? with
  | none => none
  | some b =>
    match b.seat[row]? with
    | none => none
    | some r => r[col]?

/-- Write of `b.seat[row][col]` in one bus (both fields of the cell). -/
def Bus.setSeat (b : Bus) (row col : Nat) (cell : SeatInfo) : Bus :=
  { b with seat := b.seat.set row ((b.seat.getD row []).set col cell) }

/-- Write of `bus[i].seat[row][col]` (both fields of the cell). -/
def setSeat (bus : List Bus) (i row col : Nat) (cell : SeatInfo) : List Bus :=
  match bus[i]? with
  | none => bus
  | some b => bus.set i (b.setSeat row col cell)

/-- Fresh grid `seat.resize(NUM_ROWS, vector<SeatInfo>(NUM_COLS))`. -/
def emptyGrid : List (List SeatInfo) :=
  List.replicate NUM_ROWS (List.replicate NUM_COLS { passengerName := "", ticketID := "" })

/-! ## Operations -/

/-- Member function `addNewBus`. -/
def addNewBus (sys : BusReservationSystem) (newBus : BusRecord) :
    Option (Outcome Unit × BusReservationSystem) :=
  if sys.busCount ≥ 25 then some (.error .CapacityExceeded, sys)
  else if validBusNumber newBus.busn = false then
    some (.error (.InvalidFormat .busNumber), sys)
  else
    match findBusCounted sys.bus newBus.busn sys.busCount.toNat 0 with
    | none => none
    | some (some _) => some (.error .DuplicateKey, sys)
    | some none =>
      if newBus.driver = "" then some (.error (.InvalidFormat .driver), sys)
      else if validateTimeFormat newBus.arrival = false then
        some (.error (.InvalidFormat .arrival), sys)
      else if validateTimeFormat newBus.depart = false then
        some (.error (.InvalidFormat .departure), sys)
      else if newBus.from_ = "" then some (.error (.InvalidFormat .source), sys)
      else if newBus.to_ = "" then some (.error (.InvalidFormat .destination), sys)
      else
        some (.ok (),
          { bus := sys.bus ++ [{ busn := newBus.busn, driver := newBus.driver,
                                 arrival := newBus.arrival, depart := newBus.depart,
                                 from_ := newBus.from_, to_ := newBus.to_,
                                 seat := emptyGrid }],
            busCount := sys.busCount + 1 })

/-- Member function `allotmentOfSeatToPassenger`.  `seatInput` is the result of
`cin >> seatNumber` (`none` when the extraction fails), `name` the line read for
the passenger name, `draws` the random indices of `generateTicketID`. -/
def allotmentOfSeatToPassenger (sys : BusReservationSystem) (busNumber : String)
    (seatInput : Option Int) (name : String) (draws : Nat → Fin 62) :
    Option (Outcome TicketInfo × BusReservationSystem) :=
  match findBus busNumber sys.bus 0 with
  | none => some (.error .NotFound, sys)
  | some busIndex =>
    match seatInput with
    | none => some (.error (.InvalidInput .notAnInteger), sys)
    | some seatNumber =>
      if seatNumber < 1 ∨ seatNumber > (MAX_SEATS : Int) then
        some (.error (.InvalidInput .outOfRange), sys)
      else
        let row := ((seatNumber - 1).tdiv (NUM_COLS : Int)).toNat
        let col := ((seatNumber - 1).tmod (NUM_COLS : Int)).toNat
        match seatAt sys.bus busIndex row col, sys.bus[busIndex]? with
        | some cell, some b =>
          if cell.passengerName = "" then
            let ticketID := generateTicketID draws
            some (.ok { passengerName := name, ticketID := ticketID,
                        busNumber := b.busn, seatNumber := seatNumber },
                  { sys with bus := setSeat sys.bus busIndex row col
                                      { passengerName := name, ticketID := ticketID } })
          else some (.error .SeatTaken, sys)
        | _, _ => none

/-- Member function `deleteBus`. -/
def deleteBus (sys : BusReservationSystem) (busNumber : String) (confirmation : Char) :
    Option (Outcome Unit × BusReservationSystem) :=
  match findBus busNumber sys.bus 0 with
  | none => some (.error .NotFound, sys)
  | some busIndex =>
    if confirmed confirmation = false then some (.declined (), sys)
    else some (.ok (), { bus := sys.bus.eraseIdx busIndex, busCount := sys.busCount - 1 })

/-- Innermost loop of `showTicketInfo` over `busEntry.seat[i]`, from column `j`. -/
def showScanCols (ticketID : String) : List SeatInfo → Nat → Option Nat
  | [], _ => none
  | cell :: rest, j =>
    if tolower cell.ticketID = ticketID then some j else showScanCols ticketID rest (j + 1)

/-- Middle loop of `showTicketInfo` over `busEntry.seat`, from row `i`. -/
def showScanRows (ticketID : String) : List (List SeatInfo) → Nat → Option (Nat × Nat)
  | [], _ => none
  | r :: rest, i =>
    match showScanCols ticketID r 0 with
    | some j => some (i, j)
    | none => showScanRows ticketID rest (i + 1)

/-- Outer loop of `showTicketInfo` over `bus`, from bus index `n`. -/
def showScanBuses (ticketID : String) : List Bus → Nat → Option (Nat × Nat × Nat)
  | [], _ => none
  | b :: rest, n =>
    match showScanRows ticketID b.seat 0 with
    | some (i, j) => some (n, i, j)
    | none => showScanBuses ticketID rest (n + 1)

/-- Printout of the matched cell: name, lowercased stored ID, bus number and
seat number `row * NUM_COLS + col + 1`. -/
def ticketInfoAt (b : Bus) (cell : SeatInfo) (row col : Nat) : TicketInfo :=
  { passengerName := cell.passengerName, ticketID := tolower cell.ticketID,
    busNumber := b.busn, seatNumber := ((row * NUM_COLS + col + 1 : Nat) : Int) }

/-- Member function `showTicketInfo`; it does not change the state. -/
def showTicketInfo (sys : BusReservationSystem) (ticketID : String) :
    Option (Outcome TicketInfo) :=
  match showScanBuses (tolower ticketID) sys.bus 0 with
  | none => some (.error .NotFound)
  | some (n, i, j) =>
    match sys.bus[n]?, seatAt sys.bus n i j with
    | some b, some cell => some (.ok (ticketInfoAt b cell i j))
    | _, _ => none

/-- Innermost loop of `cancelTicket`: `col` runs over `cols`, reading
`b.seat[row][col]`.  `none` is an out-of-range read, `some none` no match. -/
def cancelScanCols (ticketID : String) (b : Bus) (row : Nat) : List Nat → Option (Option Nat)
  | [] => some none
  | col :: cols =>
    match b.seat[row]? with
    | none => none
    | some r =>
      match r[col]? with
      | none => none
      | some cell =>
        if tolower cell.ticketID = ticketID then some (some col)
        else cancelScanCols ticketID b row cols

/-- Middle loop of `cancelTicket`: `row` runs over `rows`. -/
def cancelScanRows (ticketID : String) (b : Bus) : List Nat → Option (Option (Nat × Nat))
  | [] => some none
  | row :: rows =>
    match cancelScanCols ticketID b row (List.range NUM_COLS) with
    | none => none
    | some (some col) => some (some (row, col))
    | some none => cancelScanRows ticketID b rows

/-- Outer loop of `cancelTicket` over `bus`, from bus index `i`. -/
def cancelScanBuses (ticketID : String) : List Bus → Nat → Option (Option (Nat × Nat × Nat))
  | [], _ => some none
  | b :: rest, i =>
    match cancelScanRows ticketID b (List.range NUM_ROWS) with
    | none => none
    | some (some (row, col)) => some (some (i, row, col))
    | some none => cancelScanBuses ticketID rest (i + 1)

/-- Member function `cancelTicket`. -/
def cancelTicket (sys : BusReservationSystem) (ticketID : String) (confirmation : Char) :
    Option (Outcome TicketInfo × BusReservationSystem) :=
  match cancelScanBuses (tolower ticketID) sys.bus 0 with
  | none => none
  | some none => some (.error .NotFound, sys)
  | some (some (i, row, col)) =>
    match sys.bus[i]?, seatAt sys.bus i row col with
    | some b, some cell =>
      if confirmed confirmation = false then
        some (.declined (ticketInfoAt b cell row col), sys)
      else
        some (.ok (ticketInfoAt b cell row col),
              { sys with bus := setSeat sys.bus i row col
                                  { passengerName := "", ticketID := "" } })
    | _, _ => none

/-- Cells read by the fixed loops `i < NUM_ROWS`, `j < NUM_COLS`, in loop order. -/
def gridPositions : List (Nat × Nat) :=
  (List.range NUM_ROWS).flatMap fun i => (List.range NUM_COLS).map fun j => (i, j)

/-- Reads `b.seat[i][j]` for the listed positions; `none` when one is out of range. -/
def readCells (b : Bus) : List (Nat × Nat) → Option (List SeatInfo)
  | [] => some []
  | (i, j) :: rest =>
    match b.seat[i]? with
    | none => none
    | some r =>
      match r[j]?, readCells b rest with
      | some cell, some cells => some (cell :: cells)
      | _, _ => none

/-- Counter `emptySeats`: cells whose `passengerName.empty()` holds. -/
def countEmpty (cells : List SeatInfo) : Nat :=
  (cells.filter fun cell => decide (cell.passengerName = "")).length

/-- The descriptive members of a bus. -/
def Bus.record (b : Bus) : BusRecord :=
  { busn := b.busn, driver := b.driver, arrival := b.arrival, depart := b.depart,
    from_ := b.from_, to_ := b.to_ }

/-- What `showAvailableBusSeats` prints for a bus: its details, the 32 names in
seat order (an empty name is shown as "Empty") and the count of empty seats. -/
structure SeatReport where
  details : BusRecord
  names : List String
  emptySeats : Nat
  deriving DecidableEq, Repr

/-- Member function `showAvailableBusSeats`; it does not change the state. -/
def showAvailableBusSeats (sys : BusReservationSystem) (number : String) :
    Option (Outcome SeatReport) :=
  match findBusCounted sys.bus number sys.busCount.toNat 0 with
  | none => none
  | some found =>
    let n : Nat := found.getD sys.busCount.toNat
    if (n : Int) = sys.busCount then some (.error .NotFound)
    else
      match sys.bus[n]? with
      | none => none
      | some b =>
        match readCells b gridPositions with
        | none => none
        | some cells =>
          some (.ok { details := b.record, names := cells.map (·.passengerName),
                      emptySeats := countEmpty cells })

/-- One entry of the listing of `showAvailableBuses`: details and `emptySeats`. -/
structure BusSummary where
  details : BusRecord
  emptySeats : Nat
  deriving DecidableEq, Repr

/-- Second loop `for (n = 0; n < busCount; n++)` of `showAvailableBuses`, run for
`k` more iterations from index `n`. -/
def listBusesFrom (bus : List Bus) : Nat → Nat → Option (List BusSummary)
  | 0, _ => some []
  | k + 1, n =>
    match bus[n]? with
    | none => none
    | some b =>
      match readCells b gridPositions, listBusesFrom bus k (n + 1) with
      | some cells, some rest =>
        some ({ details := b.record, emptySeats := countEmpty cells } :: rest)
      | _, _ => none

/-- Member function `showAvailableBuses`; it does not change the state. -/
def showAvailableBuses (sys : BusReservationSystem) : Option (Outcome (List BusSummary)) :=
  if sys.busCount = 0 then some (.error .EmptyCollection)
  else (listBusesFrom sys.bus sys.busCount.toNat 0).map .ok

/-! ## Notions used in the statements -/

/-- Row lengths of the seat grid of a bus. -/
def Bus.shape (b : Bus) : List Nat := b.seat.map List.length

/-- The grid of the bus has `NUM_ROWS` rows of `NUM_COLS` cells. -/
def Bus.gridOK (b : Bus) : Prop := b.shape = List.replicate NUM_ROWS NUM_COLS

instance (b : Bus) : Decidable b.gridOK := by unfold Bus.gridOK; infer_instance

/-- Both fields of the cell are empty. -/
def SeatInfo.vacant (cell : SeatInfo) : Prop := cell.passengerName = "" ∧ cell.ticketID = ""

instance (cell : SeatInfo) : Decidable cell.vacant := by unfold SeatInfo.vacant; infer_instance

/-- Both fields of the cell are non-empty. -/
def SeatInfo.occupied (cell : SeatInfo) : Prop := cell.passengerName ≠ "" ∧ cell.ticketID ≠ ""

instance (cell : SeatInfo) : Decidable cell.occupied := by
  unfold SeatInfo.occupied; infer_instance

/-- The stored ticket ID of the cell equals the query once both are lowercased. -/
def SeatInfo.matchesTicket (cell : SeatInfo) (ticketID : String) : Prop :=
  tolower cell.ticketID = tolower ticketID

instance (cell : SeatInfo) (q : String) : Decidable (cell.matchesTicket q) := by
  unfold SeatInfo.matchesTicket; infer_instance

/-- Scan order on cell positions (bus index, row, column): bus first, then row,
then column. -/
def scansBefore (p q : Nat × Nat × Nat) : Prop :=
  p.1 < q.1 ∨ (p.1 = q.1 ∧ (p.2.1 < q.2.1 ∨ (p.2.1 = q.2.1 ∧ p.2.2 < q.2.2)))

instance (p q : Nat × Nat × Nat) : Decidable (scansBefore p q) := by
  unfold scansBefore; infer_instance

/-- Position `p` holds the first cell, in scan order, whose stored ticket ID
matches the query. -/
def firstMatchAt (bus : List Bus) (ticketID : String) (p : Nat × Nat × Nat) : Prop :=
  (∃ cell, seatAt bus p.1 p.2.1 p.2.2 = some cell ∧ cell.matchesTicket ticketID) ∧
  ∀ q cell, scansBefore q p → seatAt bus q.1 q.2.1 q.2.2 = some cell →
    ¬ cell.matchesTicket ticketID

/-- Structural invariant of the reachable states: the counter is the size of
the vector, at most 25 buses, pairwise distinct bus numbers, 8 by 4 grids. -/
def Inv (sys : BusReservationSystem) : Prop :=
  sys.busCount = (sys.bus.length : Int) ∧ sys.bus.length ≤ 25 ∧
    (sys.bus.map fun b => b.busn).Nodup ∧ ∀ b ∈ sys.bus, b.gridOK

/-- Consecutive `addNewBus` calls that all succeed; `none` as soon as one does not. -/
def addAll (sys : BusReservationSystem) : List BusRecord → Option BusReservationSystem
  | [] => some sys
  | r :: rest =>
    match addNewBus sys r with
    | some (.ok (), sys') => addAll sys' rest
    | _ => none

/-! ## Reachable states -/

/-- States the object can be in after any sequence of calls of the four
state-changing member functions, with arbitrary arguments. -/
inductive Reachable : BusReservationSystem → Prop where
  | init : Reachable initial
  | addNewBus {sys sys' : BusReservationSystem} {r : Outcome Unit} (newBus : BusRecord) :
      Reachable sys → addNewBus sys newBus = some (r, sys') → Reachable sys'
  | allotmentOfSeatToPassenger {sys sys' : BusReservationSystem} {r : Outcome TicketInfo}
      (busNumber : String) (seatInput : Option Int) (name : String) (draws : Nat → Fin 62) :
      Reachable sys →
      allotmentOfSeatToPassenger sys busNumber seatInput name draws = some (r, sys') →
      Reachable sys'
  | deleteBus {sys sys' : BusReservationSystem} {r : Outcome Unit}
      (busNumber : String) (confirmation : Char) :
      Reachable sys → deleteBus sys busNumber confirmation = some (r, sys') → Reachable sys'
  | cancelTicket {sys sys' : BusReservationSystem} {r : Outcome TicketInfo}
      (ticketID : String) (confirmation : Char) :
      Reachable sys → cancelTicket sys ticketID confirmation = some (r, sys') → Reachable sys'

/-! ## Sample data -/

/-- A valid record (bus "1234"). -/
def sampleRecord : BusRecord :=
  { busn := "1234", driver := "Jane", arrival := "09:00 AM", depart := "05:30 PM",
    from_ := "Springfield", to_ := "Shelbyville" }

/-- The bus `addNewBus` builds from `sampleRecord`. -/
def sampleBus : Bus :=
  { busn := "1234", driver := "Jane", arrival := "09:00 AM", depart := "05:30 PM",
    from_ := "Springfield", to_ := "Shelbyville", seat := emptyGrid }

/-- The state after adding `sampleRecord` to the initial state. -/
def oneBus : BusReservationSystem := { bus := [sampleBus], busCount := 1 }

/-- The state `oneBus` with the given name and ticket ID stored in seat 1
(row 0, column 0) and every other cell empty. -/
def oneBusWith (name ticketID : String) : BusReservationSystem :=
  { bus := [{ sampleBus with
              seat := ({ passengerName := name, ticketID := ticketID } ::
                        List.replicate 3 { passengerName := "", ticketID := "" }) ::
                      List.replicate 7
                        (List.replicate 4 { passengerName := "", ticketID := "" }) }],
    busCount := 1 }

/-- A second valid record (bus "5678"). -/
def secondRecord : BusRecord :=
  { busn := "5678", driver := "Joe", arrival := "1:15 pm", depart := "11:45 pm",
    from_ := "Shelbyville", to_ := "Springfield" }

/-- The state after adding `sampleRecord` and then `secondRecord`. -/
def twoBuses : BusReservationSystem :=
  { bus := [sampleBus,
            { busn := "5678", driver := "Joe", arrival := "1:15 pm", depart := "11:45 pm",
              from_ := "Shelbyville", to_ := "Springfield", seat := emptyGrid }],
    busCount := 2 }

/-- A record that only shares its bus number with `sampleRecord`. -/
def clashingRecord : BusRecord :=
  { busn := "1234", driver := "", arrival := "", depart := "", from_ := "", to_ := "" }

/-- A valid record whose free-text fields are a single blank. -/
def blankRecord : BusRecord :=
  { busn := "0042", driver := " ", arrival := "9:05 am", depart := "12:00 PM",
    from_ := " ", to_ := " " }

/-- Twenty-five pairwise distinct bus numbers. -/
def fleetNumbers : List String :=
  ["1000", "1001", "1002", "1003", "1004", "1005", "1006", "1007", "1008",
   "1009", "1010", "1011", "1012", "1013", "1014", "1015", "1016", "1017",
   "1018", "1019", "1020", "1021", "1022", "1023", "1024"]

/-- Twenty-five valid records with pairwise distinct bus numbers. -/
def fleet : List BusRecord := fleetNumbers.map fun n => { sampleRecord with busn := n }

/-- The state after adding the records of `fleet` to the initial state. -/
def fleetState : BusReservationSystem :=
  { bus := fleetNumbers.map fun n => { sampleBus with busn := n }, busCount := 25 }

/-- Constant stream of draws: every draw is index 10, the character `A`. -/
def drawsA : Nat → Fin 62 := fun _ => 10

/-- Constant stream of draws: every draw is index 37, the character `b`. -/
def drawsB : Nat → Fin 62 := fun _ => 37


/-! ## Seat numbering -/

/-- Row index `(seatNumber - 1) / NUM_COLS` computed by `allotmentOfSeatToPassenger`. -/
def seatRow (seatNumber : Int) : Int := (seatNumber - 1).tdiv (NUM_COLS : Int)

/-- Column index `(seatNumber - 1) % NUM_COLS` computed by `allotmentOfSeatToPassenger`. -/
def seatCol (seatNumber : Int) : Int := (seatNumber - 1).tmod (NUM_COLS : Int)

/-- Seat number `row * NUM_COLS + col + 1` computed by `showReservedBusSeats`,
`showTicketInfo` and `cancelTicket`. -/
def seatNumberAt (row col : Nat) : Int := ((row * NUM_COLS + col + 1 : Nat) : Int)

/-! ## Time texts, as the specification words them -/

/-- Value of a decimal digit character. -/
def digitValue (c : Char) : Nat := c.toNat - 48

/-- Number written by a list of decimal digits. -/
def digitsValue (ds : List Char) : Nat := ds.foldl (fun n c => 10 * n + digitValue c) 0

/-- Hour text: an hour 1 to 12 written with one or two decimal digits (a
leading zero is allowed). -/
def isHourText (hd : List Char) : Prop :=
  (hd.length = 1 ∨ hd.length = 2) ∧ (∀ c ∈ hd, c.isDigit = true) ∧
    1 ≤ digitsValue hd ∧ digitsValue hd ≤ 12

/-- Minute text: a minute 00 to 59 written with two decimal digits. -/
def isMinuteText (m1 m2 : Char) : Prop :=
  m1.isDigit = true ∧ m2.isDigit = true ∧ digitsValue [m1, m2] ≤ 59

/-- Meridiem marker in one of the four spellings `AM`, `PM`, `am`, `pm`. -/
def isPlainMarker (mer : List Char) : Prop :=
  mer = ['A', 'M'] ∨ mer = ['P', 'M'] ∨ mer = ['a', 'm'] ∨ mer = ['p', 'm']

/-- Meridiem marker `AM` or `PM` in any casing. -/
def isAnyCaseMarker (mer : List Char) : Prop :=
  mer.map Char.toLower = ['a', 'm'] ∨ mer.map Char.toLower = ['p', 'm']

/-- Time text: hour text, a colon, minute text, one space and a meridiem marker
accepted by `marker`, with nothing before or after. -/
def isTimeText (marker : List Char → Prop) (s : String) : Prop :=
  ∃ hd m1 m2 mer, s.data = hd ++ [':', m1, m2, ' '] ++ mer ∧
    isHourText hd ∧ isMinuteText m1 m2 ∧ marker mer

/-! ## Further notions used in the statements -/

/-- Character of a stored ticket ID: a lowercase letter or a decimal digit. -/
def isTicketChar (c : Char) : Bool := inRange 'a' 'z' c || inRange '0' '9' c

/-- Ticket ID of the generated form: eight characters, each a lowercase letter
or a decimal digit. -/
def isTicketID (t : String) : Prop :=
  t.data.length = 8 ∧ ∀ c ∈ t.data, isTicketChar c = true

/-- Record that passes every format check of `addNewBus`. -/
def validRecord (r : BusRecord) : Prop :=
  validBusNumber r.busn = true ∧ r.driver ≠ "" ∧ validateTimeFormat r.arrival = true ∧
    validateTimeFormat r.depart = true ∧ r.from_ ≠ "" ∧ r.to_ ≠ ""

instance (r : BusRecord) : Decidable (validRecord r) := by
  unfold validRecord; infer_instance

/-- The bus `addNewBus` appends for a record: its fields and a fresh grid. -/
def freshBus (r : BusRecord) : Bus :=
  { busn := r.busn, driver := r.driver, arrival := r.arrival, depart := r.depart,
    from_ := r.from_, to_ := r.to_, seat := emptyGrid }

/-- No cell of the state stores the ticket ID `t`. -/
def idUnused (sys : BusReservationSystem) (t : String) : Prop :=
  ∀ i row col cell, seatAt sys.bus i row col = some cell → cell.ticketID ≠ t

/-- No two different cells store the same non-empty ticket ID. -/
def ticketIDsDistinct (sys : BusReservationSystem) : Prop :=
  ∀ (p p' : Nat × Nat × Nat) (cell cell' : SeatInfo),
    seatAt sys.bus p.1 p.2.1 p.2.2 = some cell →
    seatAt sys.bus p'.1 p'.2.1 p'.2.2 = some cell' →
    cell.ticketID ≠ "" → cell.ticketID = cell'.ticketID → p = p'

/-- States reachable by calls of the four state-changing member functions in
which every allotment that issues a ticket draws an ID that no cell stores at
that moment. -/
inductive ReachableFresh : BusReservationSystem → Prop where
  | init : ReachableFresh initial
  | addNewBus {sys sys' : BusReservationSystem} {r : Outcome Unit} (newBus : BusRecord) :
      ReachableFresh sys → addNewBus sys newBus = some (r, sys') → ReachableFresh sys'
  | allotmentOfSeatToPassenger {sys sys' : BusReservationSystem} {r : Outcome TicketInfo}
      (busNumber : String) (seatInput : Option Int) (name : String) (draws : Nat → Fin 62) :
      ReachableFresh sys →
      allotmentOfSeatToPassenger sys busNumber seatInput name draws = some (r, sys') →
      ((∃ info, r = .ok info) → idUnused sys (generateTicketID draws)) →
      ReachableFresh sys'
  | deleteBus {sys sys' : BusReservationSystem} {r : Outcome Unit}
      (busNumber : String) (confirmation : Char) :
      ReachableFresh sys → deleteBus sys busNumber confirmation = some (r, sys') →
      ReachableFresh sys'
  | cancelTicket {sys sys' : BusReservationSystem} {r : Outcome TicketInfo}
      (ticketID : String) (confirmation : Char) :
      ReachableFresh sys → cancelTicket sys ticketID confirmation = some (r, sys') →
      ReachableFresh sys'

/-- The state `oneBus` with the given two cells in seats 1 and 2 (row 0,
columns 0 and 1) and every other cell empty. -/
def oneBusWithTwo (first second : SeatInfo) : BusReservationSystem :=
  { bus := [{ sampleBus with
              seat := (first :: second ::
                        List.replicate 2 { passengerName := "", ticketID := "" }) ::
                      List.replicate 7
                        (List.replicate 4 { passengerName := "", ticketID := "" }) }],
    busCount := 1 }

/-- Every stored ticket ID is its own lowercase form. -/
def storedIDsLowercase (sys : BusReservationSystem) : Prop :=
  ∀ i row col cell, seatAt sys.bus i row col = some cell →
    tolower cell.ticketID = cell.ticketID

/-- Every cell that stores a ticket ID also stores a passenger name: the half of
the seat-cell invariant (both fields empty together) that a lookup relies on. -/
def ticketsNamed (sys : BusReservationSystem) : Prop :=
  ∀ i row col cell, seatAt sys.bus i row col = some cell →
    cell.ticketID ≠ "" → cell.passengerName ≠ ""

/-- Position `p` holds the first cell, in scan order, that is occupied and whose
stored ticket ID matches the query. -/
def firstOccupiedMatchAt (bus : List Bus) (ticketID : String) (p : Nat × Nat × Nat) : Prop :=
  (∃ cell, seatAt bus p.1 p.2.1 p.2.2 = some cell ∧ cell.occupied ∧
    cell.matchesTicket ticketID) ∧
  ∀ q cell, scansBefore q p → seatAt bus q.1 q.2.1 q.2.2 = some cell →
    ¬ (cell.occupied ∧ cell.matchesTicket ticketID)

/-! ## Basic facts -/

theorem tolower_eq_empty (s : String) : tolower s = "" ↔ s = "" := by
  constructor
  · intro h
    have h1 : (tolower s).data = [] := by rw [h]
    have h2 : s.data = [] := by simpa [tolower] using h1
    exact String.ext h2
  · rintro rfl
    rfl

theorem findBusCounted_append (number : String) (l pre : List Bus) :
    findBusCounted (pre ++ l) number l.length pre.length = some (findBus number l pre.length) := by
  induction l generalizing pre with
  | nil => simp [findBusCounted, findBus]
  | cons b rest ih =>
    have hget : (pre ++ b :: rest)[pre.length]? = some b := by
      rw [List.getElem?_append_right (Nat.le_refl _)]; simp
    simp only [List.length_cons, findBusCounted, hget, findBus]
    by_cases hb : b.busn = number
    · simp [hb]
    · simp only [hb, if_false]
      have := ih (pre ++ [b])
      simpa using this

theorem findBusCounted_length (number : String) (bus : List Bus) :
    findBusCounted bus number bus.length 0 = some (findBus number bus 0) := by
  simpa using findBusCounted_append number bus []

theorem findBus_eq_none (number : String) (l : List Bus) (i : Nat) :
    findBus number l i = none ↔ ∀ b ∈ l, b.busn ≠ number := by
  induction l generalizing i with
  | nil => simp [findBus]
  | cons b rest ih =>
    by_cases hb : b.busn = number
    · simp [findBus, hb]
    · simp [findBus, hb, ih]

theorem findBus_some (number : String) (l : List Bus) (i k : Nat)
    (h : findBus number l i = some k) :
    i ≤ k ∧ (∃ b, l[k - i]? = some b ∧ b.busn = number) ∧
      ∀ j b, j < k - i → l[j]? = some b → b.busn ≠ number := by
  induction l generalizing i with
  | nil => simp [findBus] at h
  | cons b rest ih =>
    by_cases hb : b.busn = number
    · simp only [findBus, hb, if_true, Option.some.injEq] at h
      subst h
      simp [hb]
    · simp only [findBus, hb, if_false] at h
      obtain ⟨h1, ⟨b', hb', hn⟩, h3⟩ := ih (i + 1) h
      have hk : k - i = (k - (i + 1)) + 1 := by omega
      refine ⟨by omega, ⟨b', ?_, hn⟩, ?_⟩
      · rw [hk]; simpa using hb'
      · intro j c hj hc
        cases j with
        | zero => simp at hc; subst hc; exact hb
        | succ j => exact h3 j c (by omega) (by simpa using hc)


/-! ## Adding a bus -/

theorem emptyGrid_length : emptyGrid.length = 8 := by decide

theorem emptyGrid_rows (row : List SeatInfo) (h : row ∈ emptyGrid) :
    row.length = 4 ∧ ∀ cell ∈ row, cell.vacant := by
  have hrow : row = List.replicate NUM_COLS { passengerName := "", ticketID := "" } :=
    List.eq_of_mem_replicate h
  subst hrow
  refine ⟨by decide, ?_⟩
  intro cell hcell
  have hc : cell = { passengerName := "", ticketID := "" } := List.eq_of_mem_replicate hcell
  subst hc
  exact ⟨rfl, rfl⟩

/-- With the counter equal to the size of the vector, `addNewBus` is the
cascade of its checks, the duplicate check being a search of the whole vector. -/
theorem addNewBus_eq (sys : BusReservationSystem) (r : BusRecord)
    (hc : sys.busCount = (sys.bus.length : Int)) :
    addNewBus sys r = some (
      if 25 ≤ sys.bus.length then (.error .CapacityExceeded, sys)
      else if validBusNumber r.busn = false then (.error (.InvalidFormat .busNumber), sys)
      else if (findBus r.busn sys.bus 0).isSome then (.error .DuplicateKey, sys)
      else if r.driver = "" then (.error (.InvalidFormat .driver), sys)
      else if validateTimeFormat r.arrival = false then (.error (.InvalidFormat .arrival), sys)
      else if validateTimeFormat r.depart = false then (.error (.InvalidFormat .departure), sys)
      else if r.from_ = "" then (.error (.InvalidFormat .source), sys)
      else if r.to_ = "" then (.error (.InvalidFormat .destination), sys)
      else (.ok (),
        { bus := sys.bus ++ [{ busn := r.busn, driver := r.driver, arrival := r.arrival,
                               depart := r.depart, from_ := r.from_, to_ := r.to_,
                               seat := emptyGrid }],
          busCount := sys.busCount + 1 })) := by
  unfold addNewBus
  have hcount : sys.busCount.toNat = sys.bus.length := by rw [hc]; simp
  have hge : (sys.busCount ≥ 25) ↔ 25 ≤ sys.bus.length := by rw [hc]; omega
  rw [hcount, findBusCounted_length]
  by_cases h1 : 25 ≤ sys.bus.length
  · simp [hge, h1]
  · simp only [hge, h1, if_false]
    by_cases h2 : validBusNumber r.busn = false
    · simp [h2]
    · simp only [h2, if_false]
      cases hf : findBus r.busn sys.bus 0 with
      | some k => simp
      | none =>
        simp only [Option.isSome_none, Bool.false_eq_true, if_false]
        split_ifs <;> rfl


/-- C9: with the counter equal to the size of the collection, `addNewBus`
always returns; it succeeds exactly when the collection has fewer than 25
buses, the bus number is four decimal digits, no bus has that number, the driver
is not the empty string, both times pass `validateTimeFormat`, and source and
destination are not the empty string.  On success one bus carrying the given
fields and an all-vacant 8 by 4 grid is appended; otherwise the state is
unchanged and the error is that of the first check that fails, in the order
capacity, bus-number format, duplicate, driver, arrival, departure, source,
destination. -/
theorem addNewBus_ordered_checks (sys : BusReservationSystem) (r : BusRecord)
    (hc : sys.busCount = (sys.bus.length : Int)) :
    ∃ out sys', addNewBus sys r = some (out, sys') ∧
      (out = .ok () ↔
        (sys.bus.length < 25 ∧ validBusNumber r.busn = true ∧
          (∀ b ∈ sys.bus, b.busn ≠ r.busn) ∧ r.driver ≠ "" ∧
          validateTimeFormat r.arrival = true ∧ validateTimeFormat r.depart = true ∧
          r.from_ ≠ "" ∧ r.to_ ≠ "")) ∧
      (out = .ok () →
        ∃ b, sys'.bus = sys.bus ++ [b] ∧ b.record = r ∧ b.seat.length = 8 ∧
          (∀ row ∈ b.seat, row.length = 4 ∧ ∀ cell ∈ row, cell.vacant) ∧
          sys'.busCount = sys.busCount + 1) ∧
      (out ≠ .ok () → sys' = sys) ∧
      (¬ sys.bus.length < 25 → out = .error .CapacityExceeded) ∧
      (sys.bus.length < 25 → validBusNumber r.busn = false →
        out = .error (.InvalidFormat .busNumber)) ∧
      (sys.bus.length < 25 → validBusNumber r.busn = true →
        (∃ b ∈ sys.bus, b.busn = r.busn) → out = .error .DuplicateKey) ∧
      (sys.bus.length < 25 → validBusNumber r.busn = true →
        (∀ b ∈ sys.bus, b.busn ≠ r.busn) → r.driver = "" →
        out = .error (.InvalidFormat .driver)) ∧
      (sys.bus.length < 25 → validBusNumber r.busn = true →
        (∀ b ∈ sys.bus, b.busn ≠ r.busn) → r.driver ≠ "" →
        validateTimeFormat r.arrival = false → out = .error (.InvalidFormat .arrival)) ∧
      (sys.bus.length < 25 → validBusNumber r.busn = true →
        (∀ b ∈ sys.bus, b.busn ≠ r.busn) → r.driver ≠ "" →
        validateTimeFormat r.arrival = true → validateTimeFormat r.depart = false →
        out = .error (.InvalidFormat .departure)) ∧
      (sys.bus.length < 25 → validBusNumber r.busn = true →
        (∀ b ∈ sys.bus, b.busn ≠ r.busn) → r.driver ≠ "" →
        validateTimeFormat r.arrival = true → validateTimeFormat r.depart = true →
        r.from_ = "" → out = .error (.InvalidFormat .source)) ∧
      (sys.bus.length < 25 → validBusNumber r.busn = true →
        (∀ b ∈ sys.bus, b.busn ≠ r.busn) → r.driver ≠ "" →
        validateTimeFormat r.arrival = true → validateTimeFormat r.depart = true →
        r.from_ ≠ "" → r.to_ = "" → out = .error (.InvalidFormat .destination)) := by
  rw [addNewBus_eq sys r hc]
  have hdup : (findBus r.busn sys.bus 0).isSome = true ↔ ∃ b ∈ sys.bus, b.busn = r.busn := by
    have hnone := findBus_eq_none r.busn sys.bus 0
    cases hf : findBus r.busn sys.bus 0 with
    | none =>
      have := hnone.mp hf
      simp only [Option.isSome_none, Bool.false_eq_true, false_iff]
      rintro ⟨b, hb, hbn⟩
      exact this b hb hbn
    | some k =>
      simp only [Option.isSome_some, true_iff]
      by_contra hcon
      push_neg at hcon
      rw [hnone.mpr hcon] at hf
      cases hf
  by_cases h1 : 25 ≤ sys.bus.length
  · refine ⟨_, _, by rw [if_pos h1], ?_⟩
    simp
    omega
  rw [if_neg h1]
  have h1' : sys.bus.length < 25 := by omega
  by_cases h2 : validBusNumber r.busn = false
  · refine ⟨_, _, by rw [if_pos h2], ?_⟩
    simp [h1', h2]
  rw [if_neg h2]
  have h2' : validBusNumber r.busn = true := by simpa using h2
  by_cases h3 : (findBus r.busn sys.bus 0).isSome = true
  · refine ⟨_, _, by rw [if_pos h3], ?_⟩
    have h3' := hdup.mp h3
    have h3n : ¬ ∀ b ∈ sys.bus, b.busn ≠ r.busn := by push_neg; exact h3'
    simp [h1', h2', h3n]
  rw [if_neg h3]
  have h3' : ∀ b ∈ sys.bus, b.busn ≠ r.busn := by
    have := hdup.not.mp h3
    push_neg at this
    exact this
  have h3n : ¬ ∃ b ∈ sys.bus, b.busn = r.busn := hdup.not.mp h3
  by_cases h4 : r.driver = ""
  · refine ⟨_, _, by rw [if_pos h4], ?_⟩
    simp [h1', h2', h3n, h4]
  rw [if_neg h4]
  by_cases h5 : validateTimeFormat r.arrival = false
  · refine ⟨_, _, by rw [if_pos h5], ?_⟩
    simp [h1', h2', h3n, h4, h5]
  rw [if_neg h5]
  have h5' : validateTimeFormat r.arrival = true := by simpa using h5
  by_cases h6 : validateTimeFormat r.depart = false
  · refine ⟨_, _, by rw [if_pos h6], ?_⟩
    simp [h1', h2', h3n, h4, h5', h6]
  rw [if_neg h6]
  have h6' : validateTimeFormat r.depart = true := by simpa using h6
  by_cases h7 : r.from_ = ""
  · refine ⟨_, _, by rw [if_pos h7], ?_⟩
    simp [h1', h2', h3n, h4, h5', h6', h7]
  rw [if_neg h7]
  by_cases h8 : r.to_ = ""
  · refine ⟨_, _, by rw [if_pos h8], ?_⟩
    simp [h1', h2', h3n, h4, h5', h6', h7, h8]
  rw [if_neg h8]
  refine ⟨_, _, rfl, ?_⟩
  refine ⟨?_, ?_, ?_⟩
  · simp only [true_iff]
    exact ⟨h1', h2', h3', h4, h5', h6', h7, h8⟩
  · intro _
    exact ⟨_, rfl, rfl, emptyGrid_length, emptyGrid_rows, rfl⟩
  · simp [h1', h2', h3n, h4, h5', h6', h7, h8]


/-! ## Reading and writing seat cells -/

theorem map_set_same {α β : Type} (f : α → β) (l : List α) (i : Nat) (a b : α)
    (ha : l[i]? = some a) (hf : f b = f a) : (l.set i b).map f = l.map f := by
  apply List.ext_getElem?
  intro n
  rw [List.map_set, List.getElem?_set]
  by_cases h : i = n
  · subst h
    have hlt : i < l.length := by
      by_contra hcon
      rw [List.getElem?_eq_none (by omega)] at ha
      cases ha
    have hget : l[i] = a := by
      rw [List.getElem?_eq_getElem hlt] at ha
      exact Option.some.inj ha
    simp [hlt, hf, hget]
  · simp [h]

theorem seatAt_eq (bus : List Bus) (i row col : Nat) :
    seatAt bus i row col = (bus[i]?).bind fun b => (b.seat[row]?).bind fun r => r[col]? := by
  unfold seatAt
  cases bus[i]? with
  | none => rfl
  | some b =>
    simp only [Option.some_bind]
    cases b.seat[row]? with
    | none => rfl
    | some r => rfl

theorem Bus.setSeat_keeps_shape (b : Bus) (row col : Nat) (cell : SeatInfo) :
    (b.setSeat row col cell).shape = b.shape := by
  unfold Bus.setSeat Bus.shape
  simp only
  cases hr : b.seat[row]? with
  | none =>
    have hle : b.seat.length ≤ row := by
      by_contra hcon
      have := List.getElem?_eq_getElem (l := b.seat) (n := row) (by omega)
      rw [this] at hr
      cases hr
    rw [List.set_eq_of_length_le hle]
  | some r =>
    exact map_set_same List.length b.seat row r _ hr (by
      simp [List.getD_eq_getElem?_getD, hr])

theorem Bus.setSeat_read (b : Bus) (row col : Nat) (cell : SeatInfo) (row' col' : Nat) :
    ((b.setSeat row col cell).seat[row']?).bind (fun r => r[col']?) =
      if row' = row ∧ col' = col ∧ ((b.seat[row]?).bind fun r => r[col]?).isSome = true
      then some cell else (b.seat[row']?).bind fun r => r[col']? := by
  unfold Bus.setSeat
  simp only [List.getElem?_set]
  by_cases hrow : row = row'
  · subst hrow
    cases hr : b.seat[row]? with
    | none =>
      have hle : ¬ row < b.seat.length := by
        intro hcon
        have := List.getElem?_eq_getElem (l := b.seat) (n := row) hcon
        rw [this] at hr
        cases hr
      simp [hle]
    | some r =>
      have hlt : row < b.seat.length := by
        by_contra hcon
        rw [List.getElem?_eq_none (by omega)] at hr
        cases hr
      simp only [hlt, if_true, List.getD_eq_getElem?_getD, hr, Option.getD_some,
        Option.some_bind, List.getElem?_set, true_and]
      by_cases hcol : col = col'
      · subst hcol
        by_cases hc : col < r.length
        · simp [hc, List.getElem?_eq_getElem hc]
        · simp [hc, List.getElem?_eq_none (Nat.le_of_not_lt hc)]
      · have hcol' : ¬ col' = col := fun h => hcol h.symm
        simp [hcol, hcol']
  · have hrow' : ¬ row' = row := fun h => hrow h.symm
    simp [hrow, hrow']

theorem setSeat_length (bus : List Bus) (i row col : Nat) (cell : SeatInfo) :
    (setSeat bus i row col cell).length = bus.length := by
  unfold setSeat
  cases bus[i]? with
  | none => rfl
  | some b => simp

theorem setSeat_map (β : Type) (f : Bus → β)
    (hf : ∀ (b : Bus) (row col : Nat) (cell : SeatInfo), f (b.setSeat row col cell) = f b)
    (bus : List Bus) (i row col : Nat) (cell : SeatInfo) :
    (setSeat bus i row col cell).map f = bus.map f := by
  unfold setSeat
  cases hb : bus[i]? with
  | none => rfl
  | some b => exact map_set_same f bus i b _ hb (hf b row col cell)

theorem setSeat_busn (bus : List Bus) (i row col : Nat) (cell : SeatInfo) :
    (setSeat bus i row col cell).map (fun b => b.busn) = bus.map (fun b => b.busn) :=
  setSeat_map _ (fun b => b.busn) (fun _ _ _ _ => rfl) bus i row col cell

theorem setSeat_record (bus : List Bus) (i row col : Nat) (cell : SeatInfo) :
    (setSeat bus i row col cell).map Bus.record = bus.map Bus.record :=
  setSeat_map _ Bus.record (fun _ _ _ _ => rfl) bus i row col cell

theorem setSeat_shape (bus : List Bus) (i row col : Nat) (cell : SeatInfo) :
    (setSeat bus i row col cell).map Bus.shape = bus.map Bus.shape :=
  setSeat_map _ _ Bus.setSeat_keeps_shape bus i row col cell

theorem seatAt_setSeat (bus : List Bus) (i row col : Nat) (cell : SeatInfo)
    (i' row' col' : Nat) :
    seatAt (setSeat bus i row col cell) i' row' col' =
      if i' = i ∧ row' = row ∧ col' = col ∧ (seatAt bus i row col).isSome = true
      then some cell else seatAt bus i' row' col' := by
  rw [seatAt_eq, seatAt_eq, seatAt_eq]
  unfold setSeat
  cases hb : bus[i]? with
  | none =>
    simp
  | some b =>
    have hlt : i < bus.length := by
      by_contra hcon
      rw [List.getElem?_eq_none (by omega)] at hb
      cases hb
    simp only [List.getElem?_set, Option.some_bind]
    by_cases hi : i = i'
    · subst hi
      simp only [hlt, if_true, Option.some_bind, hb, true_and]
      exact Bus.setSeat_read b row col cell row' col'
    · have hi' : ¬ i' = i := fun h => hi h.symm
      simp [hi, hi']


/-! ## The scan of `showTicketInfo` -/

theorem showScanCols_none (q : String) (r : List SeatInfo) (j : Nat) :
    showScanCols q r j = none ↔ ∀ cell ∈ r, tolower cell.ticketID ≠ q := by
  induction r generalizing j with
  | nil => simp [showScanCols]
  | cons c rest ih =>
    by_cases hc : tolower c.ticketID = q
    · simp [showScanCols, hc]
    · simp [showScanCols, hc, ih]

theorem showScanCols_some (q : String) (r : List SeatInfo) (j k : Nat)
    (h : showScanCols q r j = some k) :
    j ≤ k ∧ (∃ cell, r[k - j]? = some cell ∧ tolower cell.ticketID = q) ∧
      ∀ (c : Nat) (cell : SeatInfo), c < k - j → r[c]? = some cell →
        tolower cell.ticketID ≠ q := by
  induction r generalizing j with
  | nil => simp [showScanCols] at h
  | cons c rest ih =>
    by_cases hc : tolower c.ticketID = q
    · simp only [showScanCols, hc, if_true, Option.some.injEq] at h
      subst h
      simp [hc]
    · simp only [showScanCols, hc, if_false] at h
      obtain ⟨h1, ⟨cell, hcell, hq⟩, h3⟩ := ih (j + 1) h
      have hk : k - j = (k - (j + 1)) + 1 := by omega
      refine ⟨by omega, ⟨cell, ?_, hq⟩, ?_⟩
      · rw [hk]; simpa using hcell
      · intro n x hn hx
        cases n with
        | zero => simp at hx; subst hx; exact hc
        | succ n => exact h3 n x (by omega) (by simpa using hx)

theorem showScanRows_none (q : String) (rows : List (List SeatInfo)) (i : Nat) :
    showScanRows q rows i = none ↔ ∀ r ∈ rows, ∀ cell ∈ r, tolower cell.ticketID ≠ q := by
  induction rows generalizing i with
  | nil => simp [showScanRows]
  | cons r rest ih =>
    cases hr : showScanCols q r 0 with
    | none =>
      have := (showScanCols_none q r 0).mp hr
      simp only [showScanRows, hr, ih, List.mem_cons, forall_eq_or_imp]
      exact ⟨fun h => ⟨this, h⟩, fun h => h.2⟩
    | some j =>
      simp only [showScanRows, hr, List.mem_cons, forall_eq_or_imp]
      refine ⟨fun h => (by cases h), fun hcon => ?_⟩
      rw [(showScanCols_none q r 0).mpr hcon.1] at hr
      cases hr

theorem showScanRows_some (q : String) (rows : List (List SeatInfo)) (i k j : Nat)
    (h : showScanRows q rows i = some (k, j)) :
    i ≤ k ∧
      (∃ r cell, rows[k - i]? = some r ∧ r[j]? = some cell ∧ tolower cell.ticketID = q) ∧
      (∀ (r : List SeatInfo) (c : Nat) (cell : SeatInfo), rows[k - i]? = some r → c < j →
        r[c]? = some cell → tolower cell.ticketID ≠ q) ∧
      (∀ (n : Nat) (r : List SeatInfo) (c : Nat) (cell : SeatInfo), n < k - i →
        rows[n]? = some r → r[c]? = some cell → tolower cell.ticketID ≠ q) := by
  induction rows generalizing i with
  | nil => simp [showScanRows] at h
  | cons r rest ih =>
    cases hr : showScanCols q r 0 with
    | some j' =>
      simp only [showScanRows, hr, Option.some.injEq, Prod.mk.injEq] at h
      obtain ⟨rfl, rfl⟩ := h
      obtain ⟨_, ⟨cell, hcell, hq⟩, h3⟩ := showScanCols_some q r 0 j' hr
      refine ⟨Nat.le_refl _, ⟨r, cell, by simp, by simpa using hcell, hq⟩, ?_, ?_⟩
      · intro r' c cell' hr' hc hcell'
        simp at hr'
        subst hr'
        exact h3 c cell' (by omega) hcell'
      · intro n r' c cell' hn
        omega
    | none =>
      simp only [showScanRows, hr] at h
      obtain ⟨h1, ⟨r', cell, hr', hcell, hq⟩, h3, h4⟩ := ih (i + 1) h
      have hk : k - i = (k - (i + 1)) + 1 := by omega
      have hnone := (showScanCols_none q r 0).mp hr
      refine ⟨by omega, ⟨r', cell, ?_, hcell, hq⟩, ?_, ?_⟩
      · rw [hk]; simpa using hr'
      · intro r'' c cell' hr'' hc hcell'
        rw [hk] at hr''
        exact h3 r'' c cell' (by simpa using hr'') hc hcell'
      · intro n r'' c cell' hn hr'' hcell'
        cases n with
        | zero =>
          simp at hr''
          subst hr''
          exact hnone cell' (List.mem_iff_getElem?.mpr ⟨c, hcell'⟩)
        | succ n => exact h4 n r'' c cell' (by omega) (by simpa using hr'') hcell'

theorem showScanBuses_none (q : String) (bus : List Bus) (n : Nat) :
    showScanBuses q bus n = none ↔
      ∀ b ∈ bus, ∀ r ∈ b.seat, ∀ cell ∈ r, tolower cell.ticketID ≠ q := by
  induction bus generalizing n with
  | nil => simp [showScanBuses]
  | cons b rest ih =>
    cases hb : showScanRows q b.seat 0 with
    | none =>
      have := (showScanRows_none q b.seat 0).mp hb
      simp only [showScanBuses, hb, ih, List.mem_cons, forall_eq_or_imp]
      exact ⟨fun h => ⟨this, h⟩, fun h => h.2⟩
    | some p =>
      obtain ⟨i, j⟩ := p
      simp only [showScanBuses, hb, List.mem_cons, forall_eq_or_imp]
      refine ⟨fun h => (by cases h), fun hcon => ?_⟩
      rw [(showScanRows_none q b.seat 0).mpr hcon.1] at hb
      cases hb

theorem showScanBuses_some (q : String) (bus : List Bus) (n k i j : Nat)
    (h : showScanBuses q bus n = some (k, i, j)) :
    n ≤ k ∧
      (∃ cell, seatAt bus (k - n) i j = some cell ∧ tolower cell.ticketID = q) ∧
      (∀ (p : Nat × Nat × Nat) (cell : SeatInfo), scansBefore p (k - n, i, j) →
        seatAt bus p.1 p.2.1 p.2.2 = some cell → tolower cell.ticketID ≠ q) := by
  induction bus generalizing n with
  | nil => simp [showScanBuses] at h
  | cons b rest ih =>
    cases hb : showScanRows q b.seat 0 with
    | some p =>
      obtain ⟨i', j'⟩ := p
      simp only [showScanBuses, hb, Option.some.injEq, Prod.mk.injEq] at h
      obtain ⟨rfl, rfl, rfl⟩ := h
      obtain ⟨_, ⟨r, cell, hr, hcell, hq⟩, h3, h4⟩ := showScanRows_some q b.seat 0 i' j' hb
      simp only [Nat.sub_zero] at hr h3 h4
      refine ⟨Nat.le_refl _, ⟨cell, ?_, hq⟩, ?_⟩
      · simp [seatAt_eq, hr, hcell]
      · rintro ⟨pi, pr, pc⟩ cell' hlt hcell'
        simp only [scansBefore, Nat.sub_self] at hlt
        rcases hlt with hlt | ⟨hpi, hlt⟩
        · omega
        · subst hpi
          simp only [seatAt_eq, List.getElem?_cons_zero, Option.some_bind] at hcell'
          cases hrow : b.seat[pr]? with
          | none => simp [hrow] at hcell'
          | some r' =>
            simp only [hrow, Option.some_bind] at hcell'
            rcases hlt with hlt | ⟨hpr, hlt⟩
            · exact h4 pr r' pc cell' hlt hrow hcell'
            · subst hpr
              exact h3 r' pc cell' hrow hlt hcell'
    | none =>
      simp only [showScanBuses, hb] at h
      obtain ⟨h1, ⟨cell, hcell, hq⟩, h3⟩ := ih (n + 1) h
      have hk : k - n = (k - (n + 1)) + 1 := by omega
      have hnone := (showScanRows_none q b.seat 0).mp hb
      refine ⟨by omega, ⟨cell, ?_, hq⟩, ?_⟩
      · rw [hk]
        simpa [seatAt_eq] using hcell
      · rintro ⟨pi, pr, pc⟩ cell' hlt hcell'
        cases pi with
        | zero =>
          simp only [seatAt_eq, List.getElem?_cons_zero, Option.some_bind] at hcell'
          cases hrow : b.seat[pr]? with
          | none => simp [hrow] at hcell'
          | some r' =>
            simp only [hrow, Option.some_bind] at hcell'
            exact hnone r' (List.mem_iff_getElem?.mpr ⟨pr, hrow⟩) cell'
              (List.mem_iff_getElem?.mpr ⟨pc, hcell'⟩)
        | succ pi =>
          refine h3 (pi, pr, pc) cell' ?_ (by simpa [seatAt_eq] using hcell')
          simp only [scansBefore] at hlt ⊢
          rw [hk] at hlt
          omega


theorem scansBefore_trichotomy (p q : Nat × Nat × Nat) :
    scansBefore p q ∨ p = q ∨ scansBefore q p := by
  obtain ⟨a, b, c⟩ := p
  obtain ⟨a', b', c'⟩ := q
  simp only [scansBefore, Prod.mk.injEq]
  omega

theorem firstMatchAt_unique (bus : List Bus) (t : String) (p q : Nat × Nat × Nat)
    (hp : firstMatchAt bus t p) (hq : firstMatchAt bus t q) : p = q := by
  obtain ⟨⟨cp, hcp, hmp⟩, hp2⟩ := hp
  obtain ⟨⟨cq, hcq, hmq⟩, hq2⟩ := hq
  rcases scansBefore_trichotomy p q with h | h | h
  · exact absurd hmp (hq2 p cp h hcp)
  · exact h
  · exact absurd hmq (hp2 q cq h hcq)

theorem mem_of_seatAt (bus : List Bus) (i row col : Nat) (cell : SeatInfo)
    (h : seatAt bus i row col = some cell) : ∃ b ∈ bus, ∃ r ∈ b.seat, cell ∈ r := by
  rw [seatAt_eq] at h
  cases hb : bus[i]? with
  | none => simp [hb] at h
  | some b =>
    simp only [hb, Option.some_bind] at h
    cases hr : b.seat[row]? with
    | none => simp [hr] at h
    | some r =>
      simp only [hr, Option.some_bind] at h
      exact ⟨b, List.mem_iff_getElem?.mpr ⟨i, hb⟩, r, List.mem_iff_getElem?.mpr ⟨row, hr⟩,
        List.mem_iff_getElem?.mpr ⟨col, h⟩⟩

theorem seatAt_of_mem (bus : List Bus) (b : Bus) (r : List SeatInfo) (cell : SeatInfo)
    (hb : b ∈ bus) (hr : r ∈ b.seat) (hc : cell ∈ r) :
    ∃ i row col, seatAt bus i row col = some cell := by
  obtain ⟨i, hi⟩ := List.mem_iff_getElem?.mp hb
  obtain ⟨row, hrow⟩ := List.mem_iff_getElem?.mp hr
  obtain ⟨col, hcol⟩ := List.mem_iff_getElem?.mp hc
  exact ⟨i, row, col, by simp [seatAt_eq, hi, hrow, hcol]⟩

/-- The scan of `showTicketInfo` stops exactly at the first matching cell. -/
theorem showScanBuses_first (bus : List Bus) (t : String) (p : Nat × Nat × Nat) :
    showScanBuses (tolower t) bus 0 = some p ↔ firstMatchAt bus t p := by
  have hforward : ∀ p', showScanBuses (tolower t) bus 0 = some p' → firstMatchAt bus t p' := by
    rintro ⟨k, i, j⟩ h
    obtain ⟨_, ⟨cell, hcell, hq⟩, h3⟩ := showScanBuses_some (tolower t) bus 0 k i j h
    exact ⟨⟨cell, hcell, hq⟩, fun q cell' hlt hcell' => h3 q cell' hlt hcell'⟩
  refine ⟨hforward p, fun hp => ?_⟩
  cases hs : showScanBuses (tolower t) bus 0 with
  | none =>
    obtain ⟨⟨cell, hcell, hm⟩, _⟩ := hp
    obtain ⟨b, hb, r, hr, hc⟩ := mem_of_seatAt bus _ _ _ cell hcell
    exact absurd hm ((showScanBuses_none (tolower t) bus 0).mp hs b hb r hr cell hc)
  | some p' =>
    rw [firstMatchAt_unique bus t p p' hp (hforward p' hs)]

/-- The scan of `showTicketInfo` finds nothing exactly when no cell matches. -/
theorem showScanBuses_no_match (bus : List Bus) (t : String) :
    showScanBuses (tolower t) bus 0 = none ↔
      ∀ i row col cell, seatAt bus i row col = some cell → ¬ cell.matchesTicket t := by
  rw [showScanBuses_none]
  constructor
  · intro h i row col cell hcell
    obtain ⟨b, hb, r, hr, hc⟩ := mem_of_seatAt bus i row col cell hcell
    exact h b hb r hr cell hc
  · intro h b hb r hr cell hc
    obtain ⟨i, row, col, hcell⟩ := seatAt_of_mem bus b r cell hb hr hc
    exact h i row col cell hcell

/-! ## The scan of `cancelTicket` -/

theorem Bus.gridOK_rows (b : Bus) (h : b.gridOK) :
    b.seat.length = NUM_ROWS ∧ ∀ r ∈ b.seat, r.length = NUM_COLS := by
  unfold Bus.gridOK Bus.shape at h
  constructor
  · have := congrArg List.length h
    simpa using this
  · intro r hr
    have hmem : r.length ∈ b.seat.map List.length := List.mem_map_of_mem _ hr
    rw [h] at hmem
    exact List.eq_of_mem_replicate hmem

theorem cancelScanCols_eq (q : String) (b : Bus) (row : Nat) (r : List SeatInfo)
    (hr : b.seat[row]? = some r) (rest : List SeatInfo) (j : Nat)
    (hrest : ∀ k, k < rest.length → r[j + k]? = rest[k]?) :
    cancelScanCols q b row (List.range' j rest.length) = some (showScanCols q rest j) := by
  induction rest generalizing j with
  | nil => simp [cancelScanCols, showScanCols]
  | cons c rest ih =>
    have h0 : r[j]? = some c := by simpa using hrest 0 (by simp)
    simp only [List.length_cons, List.range'_succ, cancelScanCols, hr, h0, showScanCols]
    by_cases hc : tolower c.ticketID = q
    · simp [hc]
    · simp only [hc, if_false]
      apply ih
      intro k hk
      have := hrest (k + 1) (by simp; omega)
      simpa [Nat.add_assoc, Nat.add_comm 1 k] using this

theorem cancelScanRows_eq (q : String) (b : Bus) (hcols : ∀ r ∈ b.seat, r.length = NUM_COLS)
    (rows : List (List SeatInfo)) (i : Nat)
    (hrows : ∀ k, k < rows.length → b.seat[i + k]? = rows[k]?) :
    cancelScanRows q b (List.range' i rows.length) = some (showScanRows q rows i) := by
  induction rows generalizing i with
  | nil => simp [cancelScanRows, showScanRows]
  | cons r rest ih =>
    have h0 : b.seat[i]? = some r := by simpa using hrows 0 (by simp)
    have hlen : r.length = NUM_COLS := hcols r (List.mem_iff_getElem?.mpr ⟨i, h0⟩)
    have hcolscan : cancelScanCols q b i (List.range NUM_COLS) = some (showScanCols q r 0) := by
      rw [List.range_eq_range', ← hlen]
      exact cancelScanCols_eq q b i r h0 r 0 (fun k _ => by simp)
    simp only [List.length_cons, List.range'_succ, cancelScanRows, hcolscan, showScanRows]
    cases showScanCols q r 0 with
    | some j => rfl
    | none =>
      simp only
      apply ih
      intro k hk
      have := hrows (k + 1) (by simp; omega)
      simpa [Nat.add_assoc, Nat.add_comm 1 k] using this

/-- On 8 by 4 grids the fixed-bound loops of `cancelTicket` never read out of
range and stop where the size-bound loops of `showTicketInfo` stop. -/
theorem cancelScanBuses_eq (q : String) (bus : List Bus) (n : Nat)
    (h : ∀ b ∈ bus, b.gridOK) :
    cancelScanBuses q bus n = some (showScanBuses q bus n) := by
  induction bus generalizing n with
  | nil => simp [cancelScanBuses, showScanBuses]
  | cons b rest ih =>
    obtain ⟨hlen, hcols⟩ := Bus.gridOK_rows b (h b (List.mem_cons_self _ _))
    have hrowscan : cancelScanRows q b (List.range NUM_ROWS) = some (showScanRows q b.seat 0) := by
      rw [List.range_eq_range', ← hlen]
      exact cancelScanRows_eq q b hcols b.seat 0 (fun k _ => by simp)
    simp only [cancelScanBuses, hrowscan, showScanBuses]
    cases showScanRows q b.seat 0 with
    | some p => rfl
    | none =>
      simp only
      exact ih (n + 1) (fun b' hb' => h b' (List.mem_cons_of_mem _ hb'))


/-! ## Looking a ticket up -/

theorem bus_of_seatAt (bus : List Bus) (i row col : Nat) (cell : SeatInfo)
    (h : seatAt bus i row col = some cell) : ∃ b, bus[i]? = some b := by
  rw [seatAt_eq] at h
  cases hb : bus[i]? with
  | none => simp [hb] at h
  | some b => exact ⟨b, rfl⟩

theorem matchesTicket_nonempty (cell : SeatInfo) (q : String) (hq : q ≠ "")
    (h : cell.matchesTicket q) : cell.ticketID ≠ "" := by
  intro hcon
  unfold SeatInfo.matchesTicket at h
  rw [hcon] at h
  have h1 : tolower q = "" := by rw [← h]; rfl
  exact hq ((tolower_eq_empty q).mp h1)

/-- What `showTicketInfo` does, in terms of the first matching cell. -/
theorem showTicketInfo_cases (sys : BusReservationSystem) (q : String) :
    (∃ p b cell, firstMatchAt sys.bus q p ∧ sys.bus[p.1]? = some b ∧
        seatAt sys.bus p.1 p.2.1 p.2.2 = some cell ∧ cell.matchesTicket q ∧
        showTicketInfo sys q = some (.ok (ticketInfoAt b cell p.2.1 p.2.2))) ∨
    ((∀ i row col cell, seatAt sys.bus i row col = some cell → ¬ cell.matchesTicket q) ∧
        showTicketInfo sys q = some (.error .NotFound)) := by
  unfold showTicketInfo
  cases hs : showScanBuses (tolower q) sys.bus 0 with
  | none =>
    right
    exact ⟨(showScanBuses_no_match sys.bus q).mp hs, rfl⟩
  | some p =>
    left
    have hfirst := (showScanBuses_first sys.bus q p).mp hs
    obtain ⟨n, i, j⟩ := p
    obtain ⟨cell, hcell, hm⟩ := hfirst.1
    obtain ⟨b, hb⟩ := bus_of_seatAt sys.bus n i j cell hcell
    refine ⟨(n, i, j), b, cell, hfirst, hb, hcell, hm, ?_⟩
    simp only at hb hcell
    simp only [hb, hcell]

theorem ticketsNamed_of_mem (sys : BusReservationSystem)
    (h : ∀ b ∈ sys.bus, ∀ r ∈ b.seat, ∀ cell ∈ r,
      cell.ticketID ≠ "" → cell.passengerName ≠ "") : ticketsNamed sys := by
  intro i row col cell hcell
  obtain ⟨b, hb, r, hr, hc⟩ := mem_of_seatAt sys.bus i row col cell hcell
  exact h b hb r hr cell hc

/-- C3 (amended): on a ledger in which every cell that stores a ticket ID also
stores a passenger name (as the seat-cell invariant demands; ledgers with a
nameless ticket are left out), and for a non-empty query, `showTicketInfo`
reports the first cell, in bus-then-row-then-column order, that is occupied and
whose stored ticket ID lowercased equals the query lowercased: its passenger
name, bus number and seat number `row * 4 + col + 1`.  It reports `NotFound`
exactly when no occupied cell matches, and never reports a vacant cell. -/
theorem showTicketInfo_first_occupied_match (sys : BusReservationSystem) (q : String)
    (hq : q ≠ "") (hnamed : ticketsNamed sys) :
    (∃ p b cell, firstOccupiedMatchAt sys.bus q p ∧ sys.bus[p.1]? = some b ∧
        seatAt sys.bus p.1 p.2.1 p.2.2 = some cell ∧
        cell.occupied ∧ cell.matchesTicket q ∧ ¬ cell.vacant ∧
        showTicketInfo sys q = some (.ok
          { passengerName := cell.passengerName, ticketID := tolower cell.ticketID,
            busNumber := b.busn, seatNumber := ((p.2.1 * 4 + p.2.2 + 1 : Nat) : Int) })) ∨
    ((∀ i row col cell, seatAt sys.bus i row col = some cell → cell.occupied →
        ¬ cell.matchesTicket q) ∧
      showTicketInfo sys q = some (.error .NotFound)) := by
  rcases showTicketInfo_cases sys q with ⟨p, b, cell, hfirst, hb, hcell, hm, hres⟩ | h
  · left
    have hid : cell.ticketID ≠ "" := matchesTicket_nonempty cell q hq hm
    have hocc : cell.occupied := ⟨hnamed _ _ _ cell hcell hid, hid⟩
    refine ⟨p, b, cell, ⟨⟨cell, hcell, hocc, hm⟩, ?_⟩, hb, hcell, hocc, hm,
      fun hv => hid hv.2, hres⟩
    intro p' cell' hbefore hcell' hboth
    exact hfirst.2 p' cell' hbefore hcell' hboth.2
  · right
    exact ⟨fun i row col cell hcell _ => h.1 i row col cell hcell, h.2⟩

/-- C3 (as stated, refuted): in the state with one bus and no booking every
cell is vacant, yet `showTicketInfo` with the empty query does not report
`NotFound`: it reports seat 1 of bus "1234", a vacant cell. -/
theorem showTicketInfo_empty_query_reports_vacant :
    (∀ i row col cell, seatAt oneBus.bus i row col = some cell → cell.vacant) ∧
    showTicketInfo oneBus "" =
      some (.ok { passengerName := "", ticketID := "", busNumber := "1234",
                  seatNumber := 1 }) := by
  refine ⟨?_, by decide⟩
  intro i row col cell h
  obtain ⟨b, hb, r, hr, hc⟩ := mem_of_seatAt _ _ _ _ _ h
  have hb' : b = sampleBus := by simpa [oneBus] using hb
  subst hb'
  exact (emptyGrid_rows r hr).2 cell hc

theorem showTicketInfo_first_occupied_match_witness :
    "AAAAAAAA" ≠ "" ∧ ticketsNamed (oneBusWith "Alice" "aaaaaaaa") ∧
    showTicketInfo (oneBusWith "Alice" "aaaaaaaa") "AAAAAAAA" =
      some (.ok { passengerName := "Alice", ticketID := "aaaaaaaa", busNumber := "1234",
                  seatNumber := 1 }) ∧
    ∃ out, showTicketInfo (oneBusWith "Alice" "aaaaaaaa") "AAAAAAAA" = some out :=
  have hnamed : ticketsNamed (oneBusWith "Alice" "aaaaaaaa") :=
    ticketsNamed_of_mem _ (by decide)
  ⟨by decide, hnamed, by decide,
    (showTicketInfo_first_occupied_match (oneBusWith "Alice" "aaaaaaaa") "AAAAAAAA"
      (by decide) hnamed).elim
      (fun ⟨_, _, _, h⟩ => ⟨_, h.2.2.2.2.2.2⟩) (fun h => ⟨_, h.2⟩)⟩

/-! ## Cancelling a ticket -/

/-- What `cancelTicket` does on 8 by 4 grids, in terms of the first matching cell. -/
theorem cancelTicket_cases (sys : BusReservationSystem) (q : String) (confirmation : Char)
    (hgrid : ∀ b ∈ sys.bus, b.gridOK) :
    (∃ p b cell, firstMatchAt sys.bus q p ∧ sys.bus[p.1]? = some b ∧
        seatAt sys.bus p.1 p.2.1 p.2.2 = some cell ∧ cell.matchesTicket q ∧
        cancelTicket sys q confirmation = some (
          if confirmed confirmation = false then
            (.declined (ticketInfoAt b cell p.2.1 p.2.2), sys)
          else
            (.ok (ticketInfoAt b cell p.2.1 p.2.2),
              { sys with bus := setSeat sys.bus p.1 p.2.1 p.2.2
                                  { passengerName := "", ticketID := "" } }))) ∨
    ((∀ i row col cell, seatAt sys.bus i row col = some cell → ¬ cell.matchesTicket q) ∧
        cancelTicket sys q confirmation = some (.error .NotFound, sys)) := by
  unfold cancelTicket
  rw [cancelScanBuses_eq (tolower q) sys.bus 0 hgrid]
  cases hs : showScanBuses (tolower q) sys.bus 0 with
  | none =>
    right
    exact ⟨(showScanBuses_no_match sys.bus q).mp hs, rfl⟩
  | some p =>
    left
    have hfirst := (showScanBuses_first sys.bus q p).mp hs
    obtain ⟨n, i, j⟩ := p
    obtain ⟨cell, hcell, hm⟩ := hfirst.1
    obtain ⟨b, hb⟩ := bus_of_seatAt sys.bus n i j cell hcell
    refine ⟨(n, i, j), b, cell, hfirst, hb, hcell, hm, ?_⟩
    simp only at hb hcell
    simp only [hb, hcell]
    split_ifs <;> rfl

/-- C5: on a ledger with 8 by 4 grids, when the query matches some occupied
cell and the answer to the prompt is yes, `cancelTicket` clears both fields of
the first matching cell in bus-then-row-then-column order and returns that
cell's passenger name, ticket ID (printed in lowercase), bus number and seat
number as they were before.  Every other cell, the descriptive fields and order
of the buses, the grid shapes and the counter are unchanged. -/
theorem cancelTicket_confirmed (sys : BusReservationSystem) (q : String) (confirmation : Char)
    (hgrid : ∀ b ∈ sys.bus, b.gridOK) (hyes : confirmed confirmation = true)
    (hmatch : ∃ i row col cell, seatAt sys.bus i row col = some cell ∧ cell.occupied ∧
      cell.matchesTicket q) :
    ∃ p b cell sys', firstMatchAt sys.bus q p ∧ sys.bus[p.1]? = some b ∧
      seatAt sys.bus p.1 p.2.1 p.2.2 = some cell ∧
      cancelTicket sys q confirmation = some (.ok
        { passengerName := cell.passengerName, ticketID := tolower cell.ticketID,
          busNumber := b.busn, seatNumber := ((p.2.1 * 4 + p.2.2 + 1 : Nat) : Int) }, sys') ∧
      seatAt sys'.bus p.1 p.2.1 p.2.2 = some { passengerName := "", ticketID := "" } ∧
      (∀ i row col, (i, row, col) ≠ p →
        seatAt sys'.bus i row col = seatAt sys.bus i row col) ∧
      sys'.bus.map Bus.record = sys.bus.map Bus.record ∧
      sys'.bus.map Bus.shape = sys.bus.map Bus.shape ∧
      sys'.busCount = sys.busCount := by
  rcases cancelTicket_cases sys q confirmation hgrid with
    ⟨p, b, cell, hfirst, hb, hcell, _, hres⟩ | ⟨hnone, _⟩
  · rw [hyes] at hres
    simp only [Bool.true_eq_false, if_false] at hres
    refine ⟨p, b, cell, _, hfirst, hb, hcell, hres, ?_, ?_, ?_, ?_, rfl⟩
    · simp [seatAt_setSeat, hcell]
    · intro i row col hne
      rw [seatAt_setSeat]
      have : ¬ (i = p.1 ∧ row = p.2.1 ∧ col = p.2.2 ∧
          (seatAt sys.bus p.1 p.2.1 p.2.2).isSome = true) := by
        rintro ⟨h1, h2, h3, _⟩
        exact hne (by rw [h1, h2, h3])
      rw [if_neg this]
    · exact setSeat_record _ _ _ _ _
    · exact setSeat_shape _ _ _ _ _
  · obtain ⟨i, row, col, cell, hcell, _, hm⟩ := hmatch
    exact absurd hm (hnone i row col cell hcell)

theorem cancelTicket_confirmed_witness :
    (∀ b ∈ (oneBusWith "Alice" "aaaaaaaa").bus, b.gridOK) ∧ confirmed 'y' = true ∧
    ∃ out sys', cancelTicket (oneBusWith "Alice" "aaaaaaaa") "AAAAAAAA" 'y' =
      some (out, sys') :=
  have hgrid : ∀ b ∈ (oneBusWith "Alice" "aaaaaaaa").bus, b.gridOK := by decide
  ⟨hgrid, by decide,
    match cancelTicket_confirmed (oneBusWith "Alice" "aaaaaaaa") "AAAAAAAA" 'y' hgrid
        (by decide) ⟨0, 0, 0, ⟨"Alice", "aaaaaaaa"⟩, by decide, by decide, by decide⟩ with
    | ⟨_, _, _, sys', h⟩ => ⟨_, sys', h.2.2.2.1⟩⟩

/-- C6: when the answer to the prompt is not yes, `cancelTicket` never returns
a state other than the one it was given, whether or not the query matches.  On a
ledger with 8 by 4 grids it does return: when the query matches, the info of the
first matching cell is still reported (as a declined cancellation) and the state
is the one given; when nothing matches the report is `NotFound`. -/
theorem cancelTicket_declined (sys : BusReservationSystem) (q : String) (confirmation : Char)
    (hno : confirmed confirmation = false) :
    (∀ out sys', cancelTicket sys q confirmation = some (out, sys') → sys' = sys) ∧
    ((∀ b ∈ sys.bus, b.gridOK) →
      (∃ out, cancelTicket sys q confirmation = some (out, sys)) ∧
      (∀ p, firstMatchAt sys.bus q p →
        ∃ b cell, sys.bus[p.1]? = some b ∧ seatAt sys.bus p.1 p.2.1 p.2.2 = some cell ∧
          cancelTicket sys q confirmation = some (.declined
            { passengerName := cell.passengerName, ticketID := tolower cell.ticketID,
              busNumber := b.busn, seatNumber := ((p.2.1 * 4 + p.2.2 + 1 : Nat) : Int) },
            sys)) ∧
      ((∀ i row col cell, seatAt sys.bus i row col = some cell → ¬ cell.matchesTicket q) →
        cancelTicket sys q confirmation = some (.error .NotFound, sys))) := by
  constructor
  · intro out sys' h
    unfold cancelTicket at h
    split at h
    · cases h
    · simp only [Option.some.injEq, Prod.mk.injEq] at h; exact h.2.symm
    · split at h
      · rw [if_pos hno] at h
        simp only [Option.some.injEq, Prod.mk.injEq] at h; exact h.2.symm
      · cases h
  intro hgrid
  rcases cancelTicket_cases sys q confirmation hgrid with
    ⟨p, b, cell, hfirst, hb, hcell, hm, hres⟩ | ⟨hnone, hres⟩
  · rw [hno] at hres
    simp only [if_true] at hres
    refine ⟨⟨_, hres⟩, ?_, ?_⟩
    · intro p' hp'
      have hpp : p' = p := firstMatchAt_unique sys.bus q p' p hp' hfirst
      subst hpp
      exact ⟨b, cell, hb, hcell, hres⟩
    · intro hcon
      exact absurd hm (hcon _ _ _ cell hcell)
  · refine ⟨⟨_, hres⟩, ?_, fun _ => hres⟩
    intro p hp
    obtain ⟨⟨cell, hcell, hm⟩, _⟩ := hp
    exact absurd hm (hnone _ _ _ cell hcell)

theorem cancelTicket_declined_witness :
    confirmed 'n' = false ∧
    ∃ out, cancelTicket (oneBusWith "Alice" "aaaaaaaa") "AAAAAAAA" 'n' =
      some (out, oneBusWith "Alice" "aaaaaaaa") :=
  ⟨by decide,
    ((cancelTicket_declined (oneBusWith "Alice" "aaaaaaaa") "AAAAAAAA" 'n' (by decide)).2
      (by decide)).1⟩


/-! ## Allotting a seat -/

theorem findBus_first (number : String) (bus : List Bus) (k : Nat) (b : Bus)
    (hb : bus[k]? = some b) (hbn : b.busn = number)
    (hfirst : ∀ (j : Nat) (b' : Bus), j < k → bus[j]? = some b' → b'.busn ≠ number) :
    findBus number bus 0 = some k := by
  cases hf : findBus number bus 0 with
  | none =>
    exact absurd hbn ((findBus_eq_none number bus 0).mp hf b (List.mem_iff_getElem?.mpr ⟨k, hb⟩))
  | some k' =>
    obtain ⟨_, ⟨b', hb', hbn'⟩, hmin⟩ := findBus_some number bus 0 k' hf
    simp only [Nat.sub_zero] at hb' hmin
    rcases Nat.lt_trichotomy k k' with h | h | h
    · exact absurd hbn (hmin k b h hb)
    · rw [h]
    · exact absurd hbn' (hfirst k' b' h hb')

theorem generateTicketID_length (draws : Nat → Fin 62) :
    (generateTicketID draws).data.length = 8 := by
  simp [generateTicketID, tolower, id_length]

theorem generateTicketID_ne_empty (draws : Nat → Fin 62) : generateTicketID draws ≠ "" := by
  intro h
  have := generateTicketID_length draws
  rw [h] at this
  simp at this

theorem seat_row_col (s : Int) (hs : 1 ≤ s ∧ s ≤ 32) :
    ((s - 1).tdiv (NUM_COLS : Int)).toNat = ((s - 1) / 4).toNat ∧
    ((s - 1).tmod (NUM_COLS : Int)).toNat = ((s - 1) % 4).toNat := by
  have h4 : ((NUM_COLS : Nat) : Int) = 4 := rfl
  rw [h4, Int.tdiv_eq_ediv (by omega) (by omega), Int.tmod_eq_emod (by omega) (by omega)]
  exact ⟨rfl, rfl⟩

/-- The successful path of `allotmentOfSeatToPassenger`: the bus is found at
index `k`, the seat number is in range and the name stored in the cell is empty. -/
theorem allotment_success (sys : BusReservationSystem) (busNumber : String) (s : Int)
    (name : String) (draws : Nat → Fin 62) (k : Nat) (b : Bus) (cell : SeatInfo)
    (hfind : findBus busNumber sys.bus 0 = some k) (hb : sys.bus[k]? = some b)
    (hs : 1 ≤ s ∧ s ≤ 32)
    (hcell : seatAt sys.bus k ((s - 1) / 4).toNat ((s - 1) % 4).toNat = some cell)
    (hname : cell.passengerName = "") :
    allotmentOfSeatToPassenger sys busNumber (some s) name draws =
      some (.ok { passengerName := name, ticketID := generateTicketID draws,
                  busNumber := b.busn, seatNumber := s },
            { sys with bus := setSeat sys.bus k ((s - 1) / 4).toNat ((s - 1) % 4).toNat
                                { passengerName := name,
                                  ticketID := generateTicketID draws } }) := by
  unfold allotmentOfSeatToPassenger
  obtain ⟨hrow, hcol⟩ := seat_row_col s hs
  have hrange : ¬ (s < 1 ∨ s > ((MAX_SEATS : Nat) : Int)) := by
    have : ((MAX_SEATS : Nat) : Int) = 32 := rfl
    rw [this]; omega
  simp only [hfind, hrange, if_false, hrow, hcol, hcell, hb, hname, if_true]

/-- The occupied path of `allotmentOfSeatToPassenger`: the name stored in the
cell is not empty. -/
theorem allotment_taken (sys : BusReservationSystem) (busNumber : String) (s : Int)
    (name : String) (draws : Nat → Fin 62) (k : Nat) (b : Bus) (cell : SeatInfo)
    (hfind : findBus busNumber sys.bus 0 = some k) (hb : sys.bus[k]? = some b)
    (hs : 1 ≤ s ∧ s ≤ 32)
    (hcell : seatAt sys.bus k ((s - 1) / 4).toNat ((s - 1) % 4).toNat = some cell)
    (hname : cell.passengerName ≠ "") :
    allotmentOfSeatToPassenger sys busNumber (some s) name draws =
      some (.error .SeatTaken, sys) := by
  unfold allotmentOfSeatToPassenger
  obtain ⟨hrow, hcol⟩ := seat_row_col s hs
  have hrange : ¬ (s < 1 ∨ s > ((MAX_SEATS : Nat) : Int)) := by
    have : ((MAX_SEATS : Nat) : Int) = 32 := rfl
    rw [this]; omega
  simp only [hfind, hrange, if_false, hrow, hcol, hcell, hb, hname]

/-- C4: when the first bus with the given number is at index `k`, the seat
number `s` is in [1,32] and the cell `((s-1)/4, (s-1)%4)` of that bus is
vacant, `allotmentOfSeatToPassenger` succeeds and returns the ticket info
`{name, generated ID, bus number, s}`.  In the new state that cell holds the name
and the generated ID and so differs from before; every other cell, the
descriptive fields and order of the buses, the grid shapes and the counter are
unchanged. -/
theorem allotment_frame (sys : BusReservationSystem) (busNumber : String) (s : Int)
    (name : String) (draws : Nat → Fin 62) (k : Nat) (b : Bus) (cell : SeatInfo)
    (hb : sys.bus[k]? = some b) (hbn : b.busn = busNumber)
    (hfirst : ∀ (j : Nat) (b' : Bus), j < k → sys.bus[j]? = some b' → b'.busn ≠ busNumber)
    (hs : 1 ≤ s ∧ s ≤ 32)
    (hcell : seatAt sys.bus k ((s - 1) / 4).toNat ((s - 1) % 4).toNat = some cell)
    (hvac : cell.vacant) :
    ∃ sys', allotmentOfSeatToPassenger sys busNumber (some s) name draws =
        some (.ok { passengerName := name, ticketID := generateTicketID draws,
                    busNumber := busNumber, seatNumber := s }, sys') ∧
      seatAt sys'.bus k ((s - 1) / 4).toNat ((s - 1) % 4).toNat =
        some { passengerName := name, ticketID := generateTicketID draws } ∧
      seatAt sys'.bus k ((s - 1) / 4).toNat ((s - 1) % 4).toNat ≠
        seatAt sys.bus k ((s - 1) / 4).toNat ((s - 1) % 4).toNat ∧
      (∀ i row col, (i, row, col) ≠ (k, ((s - 1) / 4).toNat, ((s - 1) % 4).toNat) →
        seatAt sys'.bus i row col = seatAt sys.bus i row col) ∧
      sys'.bus.map Bus.record = sys.bus.map Bus.record ∧
      sys'.bus.map Bus.shape = sys.bus.map Bus.shape ∧
      sys'.busCount = sys.busCount := by
  have hfind := findBus_first busNumber sys.bus k b hb hbn hfirst
  have hres := allotment_success sys busNumber s name draws k b cell hfind hb hs hcell hvac.1
  rw [hbn] at hres
  have hnew : seatAt (setSeat sys.bus k ((s - 1) / 4).toNat ((s - 1) % 4).toNat
      { passengerName := name, ticketID := generateTicketID draws })
      k ((s - 1) / 4).toNat ((s - 1) % 4).toNat =
      some { passengerName := name, ticketID := generateTicketID draws } := by
    simp [seatAt_setSeat, hcell]
  refine ⟨_, hres, hnew, ?_, ?_, ?_, ?_, rfl⟩
  · simp only
    rw [hnew, hcell]
    intro hcon
    have hid : generateTicketID draws = cell.ticketID := by
      have := Option.some.inj hcon
      rw [← this]
    rw [hvac.2] at hid
    exact generateTicketID_ne_empty draws hid
  · intro i row col hne
    simp only
    rw [seatAt_setSeat]
    have : ¬ (i = k ∧ row = ((s - 1) / 4).toNat ∧ col = ((s - 1) % 4).toNat ∧
        (seatAt sys.bus k ((s - 1) / 4).toNat ((s - 1) % 4).toNat).isSome = true) := by
      rintro ⟨h1, h2, h3, _⟩
      exact hne (by rw [h1, h2, h3])
    rw [if_neg this]
  · exact setSeat_record _ _ _ _ _
  · exact setSeat_shape _ _ _ _ _

theorem allotment_frame_witness :
    oneBus.bus[0]? = some sampleBus ∧ sampleBus.busn = "1234" ∧
    ((1 : Int) ≤ 6 ∧ (6 : Int) ≤ 32) ∧
    seatAt oneBus.bus 0 (((6 : Int) - 1) / 4).toNat (((6 : Int) - 1) % 4).toNat =
      some { passengerName := "", ticketID := "" } ∧
    ∃ sys', allotmentOfSeatToPassenger oneBus "1234" (some 6) "Alice" drawsA =
      some (.ok { passengerName := "Alice", ticketID := generateTicketID drawsA,
                  busNumber := "1234", seatNumber := 6 }, sys') :=
  ⟨by decide, by decide, by decide, by decide,
    match allotment_frame oneBus "1234" 6 "Alice" drawsA 0 sampleBus
        { passengerName := "", ticketID := "" } (by decide) (by decide)
        (fun j _ hj => absurd hj (Nat.not_lt_zero j)) (by decide) (by decide)
        (by decide) with
    | ⟨sys', h⟩ => ⟨sys', h.1⟩⟩


/-! ## Invariants of the reachable states -/

theorem inv_initial : Inv initial := by
  refine ⟨rfl, by decide, List.nodup_nil, ?_⟩
  intro b hb
  cases hb

theorem inv_addNewBus (sys sys' : BusReservationSystem) (r : BusRecord) (out : Outcome Unit)
    (hinv : Inv sys) (h : addNewBus sys r = some (out, sys')) : Inv sys' := by
  obtain ⟨hc, hlen, hnd, hgrid⟩ := hinv
  rw [addNewBus_eq sys r hc] at h
  have h' := Option.some.inj h
  split_ifs at h' with h1 h2 h3 h4 h5 h6 h7 h8
  all_goals try (cases h'; exact ⟨hc, hlen, hnd, hgrid⟩)
  cases h'
  have hfresh : ∀ b ∈ sys.bus, b.busn ≠ r.busn := by
    apply (findBus_eq_none r.busn sys.bus 0).mp
    cases hf : findBus r.busn sys.bus 0 with
    | none => rfl
    | some k => simp [hf] at h3
  refine ⟨?_, ?_, ?_, ?_⟩
  · simp only [List.length_append, List.length_singleton]
    rw [hc]; push_cast; rfl
  · simp only [List.length_append, List.length_singleton]
    omega
  · simp only [List.map_append, List.map_cons, List.map_nil]
    apply List.Nodup.append hnd (List.nodup_singleton _)
    intro x hx hx'
    simp only [List.mem_singleton] at hx'
    subst hx'
    obtain ⟨b, hb, hbn⟩ := List.mem_map.mp hx
    exact hfresh b hb hbn
  · intro b hb
    rcases List.mem_append.mp hb with hb | hb
    · exact hgrid b hb
    · simp only [List.mem_singleton] at hb
      subst hb
      rfl

theorem inv_setSeat (sys : BusReservationSystem) (k row col : Nat) (cell : SeatInfo)
    (hinv : Inv sys) : Inv { sys with bus := setSeat sys.bus k row col cell } := by
  obtain ⟨hc, hlen, hnd, hgrid⟩ := hinv
  refine ⟨?_, ?_, ?_, ?_⟩
  · simp only [setSeat_length]; exact hc
  · simp only [setSeat_length]; exact hlen
  · simp only [setSeat_busn]; exact hnd
  · intro b hb
    have hmem : b.shape ∈ (setSeat sys.bus k row col cell).map Bus.shape :=
      List.mem_map_of_mem _ hb
    rw [setSeat_shape] at hmem
    obtain ⟨b0, hb0, hshape⟩ := List.mem_map.mp hmem
    have := hgrid b0 hb0
    unfold Bus.gridOK at this ⊢
    rw [← hshape]; exact this

theorem allotment_state (sys sys' : BusReservationSystem) (busNumber : String)
    (seatInput : Option Int) (name : String) (draws : Nat → Fin 62) (out : Outcome TicketInfo)
    (h : allotmentOfSeatToPassenger sys busNumber seatInput name draws = some (out, sys')) :
    sys' = sys ∨ ∃ k row col,
      sys' = { sys with
        bus := setSeat sys.bus k row col ⟨name, generateTicketID draws⟩ } := by
  unfold allotmentOfSeatToPassenger at h
  split at h
  · left; simp only [Option.some.injEq, Prod.mk.injEq] at h; exact h.2.symm
  · split at h
    · left; simp only [Option.some.injEq, Prod.mk.injEq] at h; exact h.2.symm
    · split at h
      · left; simp only [Option.some.injEq, Prod.mk.injEq] at h; exact h.2.symm
      · simp only at h
        split at h
        · split at h
          · right
            simp only [Option.some.injEq, Prod.mk.injEq] at h
            exact ⟨_, _, _, h.2.symm⟩
          · left; simp only [Option.some.injEq, Prod.mk.injEq] at h; exact h.2.symm
        · cases h

theorem inv_allotment (sys sys' : BusReservationSystem) (busNumber : String)
    (seatInput : Option Int) (name : String) (draws : Nat → Fin 62) (out : Outcome TicketInfo)
    (hinv : Inv sys)
    (h : allotmentOfSeatToPassenger sys busNumber seatInput name draws = some (out, sys')) :
    Inv sys' := by
  rcases allotment_state sys sys' busNumber seatInput name draws out h with h | ⟨k, row, col, h⟩
  · rw [h]; exact hinv
  · rw [h]; exact inv_setSeat sys k row col _ hinv

theorem cancelTicket_state (sys sys' : BusReservationSystem) (q : String) (confirmation : Char)
    (out : Outcome TicketInfo) (h : cancelTicket sys q confirmation = some (out, sys')) :
    sys' = sys ∨ ∃ k row col,
      sys' = { sys with bus := setSeat sys.bus k row col ⟨"", ""⟩ } := by
  unfold cancelTicket at h
  split at h
  · cases h
  · left; simp only [Option.some.injEq, Prod.mk.injEq] at h; exact h.2.symm
  · split at h
    · split at h
      · left; simp only [Option.some.injEq, Prod.mk.injEq] at h; exact h.2.symm
      · right
        simp only [Option.some.injEq, Prod.mk.injEq] at h
        exact ⟨_, _, _, h.2.symm⟩
    · cases h

theorem inv_cancelTicket (sys sys' : BusReservationSystem) (q : String) (confirmation : Char)
    (out : Outcome TicketInfo) (hinv : Inv sys)
    (h : cancelTicket sys q confirmation = some (out, sys')) : Inv sys' := by
  rcases cancelTicket_state sys sys' q confirmation out h with h | ⟨k, row, col, h⟩
  · rw [h]; exact hinv
  · rw [h]; exact inv_setSeat sys k row col _ hinv

theorem inv_deleteBus (sys sys' : BusReservationSystem) (busNumber : String)
    (confirmation : Char) (out : Outcome Unit) (hinv : Inv sys)
    (h : deleteBus sys busNumber confirmation = some (out, sys')) : Inv sys' := by
  obtain ⟨hc, hlen, hnd, hgrid⟩ := hinv
  unfold deleteBus at h
  split at h
  · simp only [Option.some.injEq, Prod.mk.injEq] at h
    rw [← h.2]; exact ⟨hc, hlen, hnd, hgrid⟩
  · rename_i k hfind
    split at h
    · simp only [Option.some.injEq, Prod.mk.injEq] at h
      rw [← h.2]; exact ⟨hc, hlen, hnd, hgrid⟩
    · simp only [Option.some.injEq, Prod.mk.injEq] at h
      rw [← h.2]
      obtain ⟨_, ⟨b, hb, _⟩, _⟩ := findBus_some busNumber sys.bus 0 k hfind
      have hk : k < sys.bus.length := by
        by_contra hcon
        rw [Nat.sub_zero, List.getElem?_eq_none (by omega)] at hb
        cases hb
      have hsub : List.Sublist (sys.bus.eraseIdx k) sys.bus := List.eraseIdx_sublist _ _
      refine ⟨?_, ?_, ?_, ?_⟩
      · simp only [List.length_eraseIdx, hk, if_true]
        rw [hc]; omega
      · simp only [List.length_eraseIdx, hk, if_true]
        omega
      · exact List.Nodup.sublist (hsub.map _) hnd
      · intro b' hb'
        exact hgrid b' (hsub.subset hb')

theorem reachable_inv (sys : BusReservationSystem) (h : Reachable sys) : Inv sys := by
  induction h with
  | init => exact inv_initial
  | addNewBus newBus _ hstep ih => exact inv_addNewBus _ _ newBus _ ih hstep
  | allotmentOfSeatToPassenger busNumber seatInput name draws _ hstep ih =>
    exact inv_allotment _ _ busNumber seatInput name draws _ ih hstep
  | deleteBus busNumber confirmation _ hstep ih =>
    exact inv_deleteBus _ _ busNumber confirmation _ ih hstep
  | cancelTicket ticketID confirmation _ hstep ih =>
    exact inv_cancelTicket _ _ ticketID confirmation _ ih hstep


/-- C7: in every state reachable from the initial one by `addNewBus`,
`allotmentOfSeatToPassenger`, `cancelTicket` and `deleteBus` calls, no two
buses of the collection carry the same bus number. -/
theorem reachable_bus_numbers_unique (sys : BusReservationSystem) (h : Reachable sys) :
    (sys.bus.map fun b => b.busn).Nodup ∧
    ∀ (i j : Nat) (b b' : Bus), sys.bus[i]? = some b → sys.bus[j]? = some b' → i ≠ j →
      b.busn ≠ b'.busn := by
  have hnd := (reachable_inv sys h).2.2.1
  refine ⟨hnd, ?_⟩
  intro i j b b' hb hb' hij hbn
  have hkey : ∀ (i j : Nat) (b b' : Bus), sys.bus[i]? = some b → sys.bus[j]? = some b' →
      i < j → b.busn ≠ b'.busn := by
    intro i j b b' hb hb' hlt hbn
    have hj : j < (sys.bus.map fun b => b.busn).length := by
      rw [List.length_map]
      by_contra hcon
      rw [List.getElem?_eq_none (by omega)] at hb'
      cases hb'
    apply List.nodup_iff_getElem?_ne_getElem?.mp hnd i j hlt hj
    simp [List.getElem?_map, hb, hb', hbn]
  rcases Nat.lt_or_gt_of_ne hij with hlt | hgt
  · exact hkey i j b b' hb hb' hlt hbn
  · exact hkey j i b' b hb' hb hgt hbn.symm

theorem reachable_twoBuses : Reachable twoBuses :=
  Reachable.addNewBus secondRecord
    (Reachable.addNewBus sampleRecord Reachable.init
      (by decide : addNewBus initial sampleRecord = some (.ok (), oneBus)))
    (by decide : addNewBus oneBus secondRecord = some (.ok (), twoBuses))

theorem reachable_bus_numbers_unique_witness :
    Reachable twoBuses ∧ (twoBuses.bus.map fun b => b.busn).Nodup :=
  ⟨reachable_twoBuses, (reachable_bus_numbers_unique twoBuses reachable_twoBuses).1⟩

/-- C8: when the counter equals the size of the collection, the collection
holds fewer than 25 buses and the record's bus number is four digits and equal
to the number of a bus already present, `addNewBus` reports `DuplicateKey`
whatever the other fields are, and returns the state unchanged. -/
theorem addNewBus_duplicate (sys : BusReservationSystem) (r : BusRecord)
    (hc : sys.busCount = (sys.bus.length : Int)) (hlt : sys.bus.length < 25)
    (hvalid : validBusNumber r.busn = true) (hdup : ∃ b ∈ sys.bus, b.busn = r.busn) :
    addNewBus sys r = some (.error .DuplicateKey, sys) := by
  rw [addNewBus_eq sys r hc]
  have h1 : ¬ 25 ≤ sys.bus.length := by omega
  have h2 : ¬ validBusNumber r.busn = false := by simp [hvalid]
  have h3 : (findBus r.busn sys.bus 0).isSome = true := by
    cases hf : findBus r.busn sys.bus 0 with
    | some k => rfl
    | none =>
      obtain ⟨b, hb, hbn⟩ := hdup
      exact absurd hbn ((findBus_eq_none r.busn sys.bus 0).mp hf b hb)
  rw [if_neg h1, if_neg h2, if_pos h3]

theorem addNewBus_duplicate_witness :
    oneBus.busCount = (oneBus.bus.length : Int) ∧ oneBus.bus.length < 25 ∧
    validBusNumber clashingRecord.busn = true ∧
    (∃ b ∈ oneBus.bus, b.busn = clashingRecord.busn) ∧
    addNewBus oneBus clashingRecord = some (.error .DuplicateKey, oneBus) :=
  ⟨by decide, by decide, by decide, by decide,
    addNewBus_duplicate oneBus clashingRecord (by decide) (by decide) (by decide)
      (by decide)⟩

theorem addNewBus_ordered_checks_witness :
    initial.busCount = (initial.bus.length : Int) ∧
    ∃ out sys', addNewBus initial blankRecord = some (out, sys') ∧ out = .ok () :=
  ⟨by decide,
    match addNewBus_ordered_checks initial blankRecord (by decide) with
    | ⟨out, sys', h⟩ => ⟨out, sys', h.1, h.2.1.mpr (by decide)⟩⟩

/-! ## Capacity -/

theorem addAll_spec (rs : List BusRecord) (sys0 sys : BusReservationSystem)
    (hc : sys0.busCount = (sys0.bus.length : Int)) (h : addAll sys0 rs = some sys) :
    sys.busCount = (sys.bus.length : Int) ∧
      sys.bus.map Bus.record = sys0.bus.map Bus.record ++ rs := by
  induction rs generalizing sys0 with
  | nil =>
    simp only [addAll, Option.some.injEq] at h
    subst h
    simp [hc]
  | cons r rest ih =>
    simp only [addAll] at h
    rw [addNewBus_eq sys0 r hc] at h
    split_ifs at h with h1 h2 h3 h4 h5 h6 h7 h8
    simp only at h
    have hstep := ih _ (by simp [hc]) h
    refine ⟨hstep.1, ?_⟩
    rw [hstep.2]
    simp [Bus.record]

/-- C10: after 25 consecutive successful `addNewBus` calls from the initial
state the collection holds exactly the 25 records added, and every further
`addNewBus`, with any record, reports `CapacityExceeded` and returns the state
unchanged; and no reachable state holds more than 25 buses. -/
theorem capacity_boundary (rs : List BusRecord) (sys : BusReservationSystem)
    (hadd : addAll initial rs = some sys) (hlen : rs.length = 25) :
    sys.bus.map Bus.record = rs ∧ sys.bus.length = 25 ∧
    (∀ r, addNewBus sys r = some (.error .CapacityExceeded, sys)) ∧
    (∀ s, Reachable s → s.bus.length ≤ 25) := by
  obtain ⟨hc, hrec⟩ := addAll_spec rs initial sys rfl hadd
  have hrec' : sys.bus.map Bus.record = rs := by simpa [initial] using hrec
  have hsize : sys.bus.length = 25 := by
    have := congrArg List.length hrec'
    rw [List.length_map, hlen] at this
    exact this
  refine ⟨hrec', hsize, ?_, fun s hs => (reachable_inv s hs).2.1⟩
  intro r
  unfold addNewBus
  have : sys.busCount ≥ 25 := by rw [hc, hsize]; decide
  rw [if_pos this]

set_option maxRecDepth 100000 in
theorem capacity_boundary_witness :
    addAll initial fleet = some fleetState ∧ fleet.length = 25 ∧
    addNewBus fleetState sampleRecord = some (.error .CapacityExceeded, fleetState) :=
  have hadd : addAll initial fleet = some fleetState := by decide
  ⟨hadd, by decide, (capacity_boundary fleet fleetState hadd (by decide)).2.2.1 sampleRecord⟩


/-! ## First booking and the empty passenger name -/

theorem findBus_congr (number : String) (l l' : List Bus) (i : Nat)
    (h : l.map (fun b => b.busn) = l'.map (fun b => b.busn)) :
    findBus number l i = findBus number l' i := by
  induction l generalizing l' i with
  | nil =>
    cases l' with
    | nil => rfl
    | cons b' rest' => simp at h
  | cons b rest ih =>
    cases l' with
    | nil => simp at h
    | cons b' rest' =>
      simp only [List.map_cons, List.cons.injEq] at h
      simp only [findBus, h.1, ih rest' (i + 1) h.2]

theorem allotment_ok_inv (sys sys' : BusReservationSystem) (busNumber : String) (s : Int)
    (name : String) (draws : Nat → Fin 62) (info : TicketInfo)
    (h : allotmentOfSeatToPassenger sys busNumber (some s) name draws = some (.ok info, sys')) :
    ∃ k b cell, findBus busNumber sys.bus 0 = some k ∧ sys.bus[k]? = some b ∧
      (1 ≤ s ∧ s ≤ 32) ∧
      seatAt sys.bus k ((s - 1) / 4).toNat ((s - 1) % 4).toNat = some cell ∧
      cell.passengerName = "" ∧
      sys' = { sys with
        bus := setSeat sys.bus k ((s - 1) / 4).toNat ((s - 1) % 4).toNat
          ⟨name, generateTicketID draws⟩ } := by
  unfold allotmentOfSeatToPassenger at h
  split at h
  · simp at h
  · rename_i k hfind
    simp only at h
    split at h
    · simp at h
    · rename_i hrange
      have hs : 1 ≤ s ∧ s ≤ 32 := by
        have : ((MAX_SEATS : Nat) : Int) = 32 := rfl
        rw [this] at hrange
        omega
      obtain ⟨hrow, hcol⟩ := seat_row_col s hs
      rw [hrow, hcol] at h
      split at h
      · rename_i cell b hcell hb
        split at h
        · rename_i hname
          simp only [Option.some.injEq, Prod.mk.injEq] at h
          exact ⟨k, b, cell, hfind, hb, hs, hcell, hname, h.2.symm⟩
        · simp at h
      · cases h

/-- When the first booking carries a non-empty passenger name, a second booking
of the same seat is refused and changes nothing. -/
theorem allotment_named_booking_wins (sys sys' : BusReservationSystem) (busNumber : String)
    (s : Int) (n1 n2 : String) (d1 d2 : Nat → Fin 62) (info : TicketInfo) (hn1 : n1 ≠ "")
    (h : allotmentOfSeatToPassenger sys busNumber (some s) n1 d1 = some (.ok info, sys')) :
    allotmentOfSeatToPassenger sys' busNumber (some s) n2 d2 =
      some (.error .SeatTaken, sys') := by
  obtain ⟨k, b, cell, hfind, hb, hs, hcell, _, hsys'⟩ :=
    allotment_ok_inv sys sys' busNumber s n1 d1 info h
  have hfind' : findBus busNumber sys'.bus 0 = some k := by
    rw [← hfind, hsys']
    exact findBus_congr busNumber _ _ 0 (setSeat_busn _ _ _ _ _)
  have hcell' : seatAt sys'.bus k ((s - 1) / 4).toNat ((s - 1) % 4).toNat =
      some ⟨n1, generateTicketID d1⟩ := by
    rw [hsys']
    simp [seatAt_setSeat, hcell]
  obtain ⟨b', hb'⟩ := bus_of_seatAt _ _ _ _ _ hcell'
  exact allotment_taken sys' busNumber s n2 d2 k b' _ hfind' hb' hs hcell' hn1

/-- C1 (failing input): in the state with the single bus "1234", booking seat 1
with the empty passenger name succeeds and issues ticket "aaaaaaaa"; a second
booking of seat 1 for "Bob" is then not refused with `SeatTaken`: it succeeds
and replaces the first booking by ("Bob", "bbbbbbbb"). -/
theorem allotment_empty_name_overwritten :
    allotmentOfSeatToPassenger oneBus "1234" (some 1) "" drawsA =
      some (.ok { passengerName := "", ticketID := "aaaaaaaa", busNumber := "1234",
                  seatNumber := 1 }, oneBusWith "" "aaaaaaaa") ∧
    allotmentOfSeatToPassenger (oneBusWith "" "aaaaaaaa") "1234" (some 1) "Bob" drawsB =
      some (.ok { passengerName := "Bob", ticketID := "bbbbbbbb", busNumber := "1234",
                  seatNumber := 1 }, oneBusWith "Bob" "bbbbbbbb") ∧
    seatAt (oneBusWith "Bob" "bbbbbbbb").bus 0 0 0 =
      some { passengerName := "Bob", ticketID := "bbbbbbbb" } := by
  decide

/-! ## Cells of the reachable states -/

theorem mem_setSeat_cells (P : SeatInfo → Prop) (bus : List Bus) (k row col : Nat)
    (new : SeatInfo) (hnew : P new)
    (hold : ∀ b ∈ bus, ∀ r ∈ b.seat, ∀ cell ∈ r, P cell) :
    ∀ b ∈ setSeat bus k row col new, ∀ r ∈ b.seat, ∀ cell ∈ r, P cell := by
  intro b hb r hr cell hc
  obtain ⟨i, row', col', hcell⟩ := seatAt_of_mem _ b r cell hb hr hc
  rw [seatAt_setSeat] at hcell
  split_ifs at hcell
  · cases hcell; exact hnew
  · obtain ⟨b0, hb0, r0, hr0, hc0⟩ := mem_of_seatAt bus i row' col' cell hcell
    exact hold b0 hb0 r0 hr0 cell hc0

/-- A property of cells that holds of the empty cell and of every cell written
by an allotment holds of every cell of every reachable state. -/
theorem reachable_cells (P : SeatInfo → Prop) (h0 : P { passengerName := "", ticketID := "" })
    (h1 : ∀ (name : String) (draws : Nat → Fin 62),
      P { passengerName := name, ticketID := generateTicketID draws })
    (sys : BusReservationSystem) (h : Reachable sys) :
    ∀ b ∈ sys.bus, ∀ r ∈ b.seat, ∀ cell ∈ r, P cell := by
  induction h with
  | init => intro b hb; cases hb
  | @addNewBus sys sys' out newBus hreach hstep ih =>
    have hc := (reachable_inv sys hreach).1
    rw [addNewBus_eq sys newBus hc] at hstep
    have hstep' := Option.some.inj hstep
    split_ifs at hstep'
    all_goals try (cases hstep'; exact ih)
    cases hstep'
    intro b hb r hr cell hcell
    rcases List.mem_append.mp hb with hb | hb
    · exact ih b hb r hr cell hcell
    · simp only [List.mem_singleton] at hb
      subst hb
      have hv := (emptyGrid_rows r hr).2 cell hcell
      have : cell = { passengerName := "", ticketID := "" } := by
        cases cell
        simp only [SeatInfo.vacant] at hv
        simp [hv.1, hv.2]
      rw [this]; exact h0
  | @allotmentOfSeatToPassenger sys sys' out busNumber seatInput name draws hreach hstep ih =>
    rcases allotment_state sys sys' busNumber seatInput name draws out hstep with
      h | ⟨k, row, col, h⟩
    · rw [h]; exact ih
    · rw [h]; exact mem_setSeat_cells P sys.bus k row col _ (h1 name draws) ih
  | @deleteBus sys sys' out busNumber confirmation hreach hstep ih =>
    unfold deleteBus at hstep
    split at hstep
    · simp only [Option.some.injEq, Prod.mk.injEq] at hstep
      rw [← hstep.2]; exact ih
    · split at hstep
      · simp only [Option.some.injEq, Prod.mk.injEq] at hstep
        rw [← hstep.2]; exact ih
      · simp only [Option.some.injEq, Prod.mk.injEq] at hstep
        rw [← hstep.2]
        intro b hb
        exact ih b ((List.eraseIdx_sublist _ _).subset hb)
  | @cancelTicket sys sys' out ticketID confirmation hreach hstep ih =>
    rcases cancelTicket_state sys sys' ticketID confirmation out hstep with
      h | ⟨k, row, col, h⟩
    · rw [h]; exact ih
    · rw [h]; exact mem_setSeat_cells P sys.bus k row col _ h0 ih

/-- In every reachable state a cell without ticket ID has no passenger name. -/
theorem reachable_no_ticket_no_name (sys : BusReservationSystem) (h : Reachable sys) :
    ∀ b ∈ sys.bus, ∀ r ∈ b.seat, ∀ cell ∈ r,
      cell.ticketID = "" → cell.passengerName = "" :=
  reachable_cells (fun cell => cell.ticketID = "" → cell.passengerName = "")
    (fun _ => rfl) (fun _ draws hcon => absurd hcon (generateTicketID_ne_empty draws)) sys h

/-- C2 (failing input): the state reached from the initial one by adding bus
"1234" and booking its seat 1 with the empty passenger name has a cell whose
passenger name is empty while its ticket ID is "aaaaaaaa", so the two fields are
not empty together. -/
theorem reachable_cell_without_name :
    Reachable (oneBusWith "" "aaaaaaaa") ∧
    ∃ cell, seatAt (oneBusWith "" "aaaaaaaa").bus 0 0 0 = some cell ∧
      cell.passengerName = "" ∧ cell.ticketID = "aaaaaaaa" ∧
      ¬ (cell.passengerName = "" ↔ cell.ticketID = "") :=
  ⟨Reachable.allotmentOfSeatToPassenger "1234" (some 1) "" drawsA
      (Reachable.addNewBus sampleRecord Reachable.init
        (by decide : addNewBus initial sampleRecord = some (.ok (), oneBus)))
      (by decide : allotmentOfSeatToPassenger oneBus "1234" (some 1) "" drawsA =
        some (.ok { passengerName := "", ticketID := "aaaaaaaa", busNumber := "1234",
                    seatNumber := 1 }, oneBusWith "" "aaaaaaaa")),
    { passengerName := "", ticketID := "aaaaaaaa" }, by decide, rfl, rfl, by decide⟩

/-! ## Seat numbering -/

theorem seatRow_eq (s : Int) (h1 : 1 ≤ s) : seatRow s = (s - 1) / 4 := by
  unfold seatRow
  have h4 : ((NUM_COLS : Nat) : Int) = 4 := rfl
  rw [h4, Int.tdiv_eq_ediv (by omega) (by omega)]

theorem seatCol_eq (s : Int) (h1 : 1 ≤ s) : seatCol s = (s - 1) % 4 := by
  unfold seatCol
  have h4 : ((NUM_COLS : Nat) : Int) = 4 := rfl
  rw [h4, Int.tmod_eq_emod (by omega) (by omega)]

theorem seatNumberAt_eq (row col : Nat) : seatNumberAt row col = (row : Int) * 4 + col + 1 := by
  unfold seatNumberAt
  have h4 : NUM_COLS = 4 := rfl
  rw [h4]
  push_cast
  rfl

theorem gridPositions_seat (s : Int) (h1 : 1 ≤ s) (h2 : s ≤ 32) :
    gridPositions[(s - 1).toNat]? = some ((seatRow s).toNat, (seatCol s).toNat) := by
  rw [seatRow_eq s h1, seatCol_eq s h1]
  interval_cases s <;> rfl

/-- C11: the seat mapping is a bijection and is used consistently.  For a seat
number `s` in [1,32] the row `(s-1)/4` computed by the allotment lies in [0,7],
the column `(s-1)%4` in [0,3], the seat number `row*4+col+1` computed by lookup
and cancellation gives `s` back, and `s` is the position of that cell in the
display order.  For `(r,c)` in [0,7]x[0,3] the number `r*4+c+1` lies in [1,32]
and maps back to `(r,c)`.  The printed ticket info carries that number, a
successful allotment writes the cell at that row and column, and seats 1, 4, 5
and 32 are the cells (0,0), (0,3), (1,0) and (7,3). -/
theorem seat_mapping_bijection :
    (∀ s : Int, 1 ≤ s → s ≤ 32 →
      seatRow s = (s - 1) / 4 ∧ seatCol s = (s - 1) % 4 ∧
      0 ≤ seatRow s ∧ seatRow s ≤ 7 ∧ 0 ≤ seatCol s ∧ seatCol s ≤ 3 ∧
      seatNumberAt (seatRow s).toNat (seatCol s).toNat = s ∧
      gridPositions[(s - 1).toNat]? = some ((seatRow s).toNat, (seatCol s).toNat)) ∧
    (∀ r c : Nat, r ≤ 7 → c ≤ 3 →
      1 ≤ seatNumberAt r c ∧ seatNumberAt r c ≤ 32 ∧
      seatRow (seatNumberAt r c) = r ∧ seatCol (seatNumberAt r c) = c) ∧
    (∀ (b : Bus) (cell : SeatInfo) (r c : Nat),
      (ticketInfoAt b cell r c).seatNumber = seatNumberAt r c) ∧
    (∀ (sys sys' : BusReservationSystem) (busNumber name : String) (s : Int)
        (draws : Nat → Fin 62) (info : TicketInfo),
      allotmentOfSeatToPassenger sys busNumber (some s) name draws = some (.ok info, sys') →
      ∃ k, sys'.bus = setSeat sys.bus k (seatRow s).toNat (seatCol s).toNat
        { passengerName := name, ticketID := generateTicketID draws }) ∧
    (seatRow 1 = 0 ∧ seatCol 1 = 0) ∧ (seatRow 4 = 0 ∧ seatCol 4 = 3) ∧
    (seatRow 5 = 1 ∧ seatCol 5 = 0) ∧ (seatRow 32 = 7 ∧ seatCol 32 = 3) := by
  refine ⟨?_, ?_, fun _ _ _ _ => rfl, ?_, by decide, by decide, by decide, by decide⟩
  · intro s h1 h2
    have hr := seatRow_eq s h1
    have hc := seatCol_eq s h1
    refine ⟨hr, hc, ?_, ?_, ?_, ?_, ?_, gridPositions_seat s h1 h2⟩
    · rw [hr]; omega
    · rw [hr]; omega
    · rw [hc]; omega
    · rw [hc]; omega
    · rw [seatNumberAt_eq, hr, hc]
      have e1 : (((s - 1) / 4).toNat : Int) = (s - 1) / 4 := Int.toNat_of_nonneg (by omega)
      have e2 : (((s - 1) % 4).toNat : Int) = (s - 1) % 4 := Int.toNat_of_nonneg (by omega)
      rw [e1, e2]
      omega
  · intro r c hr hc
    have hn := seatNumberAt_eq r c
    have h1 : 1 ≤ seatNumberAt r c := by rw [hn]; omega
    refine ⟨h1, by rw [hn]; omega, ?_, ?_⟩
    · rw [seatRow_eq _ h1, hn]; omega
    · rw [seatCol_eq _ h1, hn]; omega
  · intro sys sys' busNumber name s draws info h
    obtain ⟨k, b, cell, _, _, hs, _, _, hsys'⟩ :=
      allotment_ok_inv sys sys' busNumber s name draws info h
    refine ⟨k, ?_⟩
    rw [hsys', seatRow_eq s hs.1, seatCol_eq s hs.1]

/-! ## Seat-number validation and lookup failures -/

theorem findBus_isSome_of_mem (number : String) (bus : List Bus)
    (h : ∃ b ∈ bus, b.busn = number) : ∃ k, findBus number bus 0 = some k := by
  cases hf : findBus number bus 0 with
  | some k => exact ⟨k, rfl⟩
  | none =>
    obtain ⟨b, hb, hbn⟩ := h
    exact absurd hbn ((findBus_eq_none number bus 0).mp hf b hb)

theorem seatAt_of_gridOK (bus : List Bus) (k row col : Nat) (b : Bus)
    (hb : bus[k]? = some b) (hgrid : b.gridOK) (hrow : row < 8) (hcol : col < 4) :
    ∃ cell, seatAt bus k row col = some cell := by
  obtain ⟨hlen, hcols⟩ := Bus.gridOK_rows b hgrid
  have hrow' : row < b.seat.length := by rw [hlen]; exact hrow
  have hr : b.seat[row]? = some b.seat[row] := List.getElem?_eq_getElem hrow'
  have hmem : b.seat[row] ∈ b.seat := List.getElem_mem hrow'
  have hcol' : col < (b.seat[row]).length := by rw [hcols _ hmem]; exact hcol
  refine ⟨(b.seat[row])[col], ?_⟩
  rw [seatAt_eq]
  simp [hb, hr, List.getElem?_eq_getElem hcol']

/-- C12: when a bus with the given number is present,
`allotmentOfSeatToPassenger` with an integer seat number `s` reports
`InvalidInput` exactly when `s < 1` or `s > 32`, and then returns the state
unchanged (so do 0 and 33, while 1 and 32 are not rejected as invalid); a seat
input that is not an integer is `InvalidInput` too; on 8 by 4 grids a seat
number in range always gets an answer, a ticket or `SeatTaken`.
When no bus has the given number the report is `NotFound` and the state is
unchanged, whatever the seat input is. -/
theorem allotment_seat_range (sys : BusReservationSystem) (busNumber name : String)
    (draws : Nat → Fin 62) :
    ((∃ b ∈ sys.bus, b.busn = busNumber) →
      (∀ s : Int, s < 1 ∨ s > 32 →
        allotmentOfSeatToPassenger sys busNumber (some s) name draws =
          some (.error (.InvalidInput .outOfRange), sys)) ∧
      allotmentOfSeatToPassenger sys busNumber none name draws =
        some (.error (.InvalidInput .notAnInteger), sys) ∧
      (∀ (s : Int) (out : Outcome TicketInfo) (sys' : BusReservationSystem) (p : SeatProblem),
        allotmentOfSeatToPassenger sys busNumber (some s) name draws = some (out, sys') →
        out = .error (.InvalidInput p) → s < 1 ∨ s > 32) ∧
      ((∀ b ∈ sys.bus, b.gridOK) → ∀ s : Int, 1 ≤ s → s ≤ 32 →
        ∃ out sys', allotmentOfSeatToPassenger sys busNumber (some s) name draws =
            some (out, sys') ∧
          (out = .error .SeatTaken ∨ ∃ info, out = .ok info))) ∧
    ((∀ b ∈ sys.bus, b.busn ≠ busNumber) →
      ∀ seatInput : Option Int,
        allotmentOfSeatToPassenger sys busNumber seatInput name draws =
          some (.error .NotFound, sys)) := by
  have h32 : ((MAX_SEATS : Nat) : Int) = 32 := rfl
  constructor
  · intro hpresent
    obtain ⟨k, hfind⟩ := findBus_isSome_of_mem busNumber sys.bus hpresent
    refine ⟨?_, ?_, ?_, ?_⟩
    · intro s hs
      unfold allotmentOfSeatToPassenger
      have hrange : s < 1 ∨ s > ((MAX_SEATS : Nat) : Int) := by rw [h32]; exact hs
      simp only [hfind, hrange, if_true]
    · unfold allotmentOfSeatToPassenger
      simp only [hfind]
    · intro s out sys' p h hout
      by_contra hcon
      have hs : 1 ≤ s ∧ s ≤ 32 := by omega
      obtain ⟨_, ⟨b, hb, _⟩, _⟩ := findBus_some busNumber sys.bus 0 k hfind
      rw [Nat.sub_zero] at hb
      unfold allotmentOfSeatToPassenger at h
      have hrange : ¬ (s < 1 ∨ s > ((MAX_SEATS : Nat) : Int)) := by rw [h32]; omega
      simp only [hfind, hrange, if_false] at h
      split at h
      · split at h
        · simp only [Option.some.injEq, Prod.mk.injEq] at h
          rw [← h.1] at hout
          cases hout
        · simp only [Option.some.injEq, Prod.mk.injEq] at h
          rw [← h.1] at hout
          cases hout
      · cases h
    · intro hgrid s h1 h2
      obtain ⟨_, ⟨b, hb, _⟩, _⟩ := findBus_some busNumber sys.bus 0 k hfind
      rw [Nat.sub_zero] at hb
      have hbmem : b ∈ sys.bus := List.mem_iff_getElem?.mpr ⟨k, hb⟩
      obtain ⟨cell, hcell⟩ := seatAt_of_gridOK sys.bus k ((s - 1) / 4).toNat
        ((s - 1) % 4).toNat b hb (hgrid b hbmem) (by omega) (by omega)
      by_cases hname : cell.passengerName = ""
      · exact ⟨_, _, allotment_success sys busNumber s name draws k b cell hfind hb ⟨h1, h2⟩
          hcell hname, Or.inr ⟨_, rfl⟩⟩
      · exact ⟨_, _, allotment_taken sys busNumber s name draws k b cell hfind hb ⟨h1, h2⟩
          hcell hname, Or.inl rfl⟩
  · intro habsent seatInput
    unfold allotmentOfSeatToPassenger
    rw [(findBus_eq_none busNumber sys.bus 0).mpr habsent]

theorem allotment_seat_range_witness :
    (∃ b ∈ oneBus.bus, b.busn = "1234") ∧ (∀ b ∈ oneBus.bus, b.busn ≠ "9999") ∧
    allotmentOfSeatToPassenger oneBus "1234" (some 33) "Bob" drawsA =
      some (.error (.InvalidInput .outOfRange), oneBus) ∧
    allotmentOfSeatToPassenger oneBus "1234" (some 0) "Bob" drawsA =
      some (.error (.InvalidInput .outOfRange), oneBus) ∧
    allotmentOfSeatToPassenger oneBus "9999" (some 1) "Bob" drawsA =
      some (.error .NotFound, oneBus) :=
  have hpresent : ∃ b ∈ oneBus.bus, b.busn = "1234" := by decide
  have habsent : ∀ b ∈ oneBus.bus, b.busn ≠ "9999" := by decide
  ⟨hpresent, habsent,
    ((allotment_seat_range oneBus "1234" "Bob" drawsA).1 hpresent).1 33 (by decide),
    ((allotment_seat_range oneBus "1234" "Bob" drawsA).1 hpresent).1 0 (by decide),
    (allotment_seat_range oneBus "9999" "Bob" drawsA).2 habsent (some 1)⟩

/-! ## Case-insensitive ticket matching -/

theorem firstMatchAt_congr (bus : List Bus) (q1 q2 : String) (h : tolower q1 = tolower q2)
    (p : Nat × Nat × Nat) : firstMatchAt bus q1 p ↔ firstMatchAt bus q2 p := by
  unfold firstMatchAt SeatInfo.matchesTicket
  rw [h]

/-- A cell whose stored ID matches a query is found by `showTicketInfo` with
every query of the same lowercase form: the report is a ticket whose ID is that
lowercase form. -/
theorem showTicketInfo_finds_match (sys : BusReservationSystem) (q : String)
    (i row col : Nat) (cell : SeatInfo) (hcell : seatAt sys.bus i row col = some cell)
    (hm : cell.matchesTicket q) :
    ∃ info, showTicketInfo sys q = some (.ok info) ∧ info.ticketID = tolower q := by
  rcases showTicketInfo_cases sys q with ⟨p, b', cell', _, _, _, hm', hres⟩ | ⟨hnone, _⟩
  · exact ⟨_, hres, hm'⟩
  · exact absurd hm (hnone i row col cell hcell)

/-- A cell whose stored ID matches a query is found by `cancelTicket` on 8 by 4
grids: the report, a cancellation or a declined one, is a ticket whose ID is the
lowercase form of the query. -/
theorem cancelTicket_finds_match (sys : BusReservationSystem) (q : String)
    (confirmation : Char) (hgrid : ∀ b ∈ sys.bus, b.gridOK)
    (i row col : Nat) (cell : SeatInfo) (hcell : seatAt sys.bus i row col = some cell)
    (hm : cell.matchesTicket q) :
    ∃ info sys', cancelTicket sys q confirmation =
        some ((if confirmed confirmation = false then Outcome.declined else Outcome.ok) info,
          sys') ∧
      info.ticketID = tolower q := by
  rcases cancelTicket_cases sys q confirmation hgrid with
    ⟨p, b', cell', _, _, _, hm', hres⟩ | ⟨hnone, _⟩
  · by_cases hconf : confirmed confirmation = false
    · refine ⟨ticketInfoAt b' cell' p.2.1 p.2.2, sys, ?_, hm'⟩
      rw [hres, if_pos hconf, if_pos hconf]
    · refine ⟨ticketInfoAt b' cell' p.2.1 p.2.2,
        { sys with bus := setSeat sys.bus p.1 p.2.1 p.2.2
                            { passengerName := "", ticketID := "" } }, ?_, hm'⟩
      rw [hres, if_neg hconf, if_neg hconf]
  · exact absurd hm (hnone i row col cell hcell)

/-- C13: ticket matching is case-insensitive in `showTicketInfo` and in
`cancelTicket`.  Two queries that are equal after lowercasing get the same answer
from each of them (same report, same resulting state) and have the same first
matching cell; a cell whose stored ID equals one of them after lowercasing is
found with the other, by `showTicketInfo` and, on 8 by 4 grids, by
`cancelTicket`.  A cell whose stored ticket ID is "Ab3dEfGh" is found by the query
"AB3DEFGH": both functions report a ticket with ID "ab3defgh", and when no
earlier cell in scan order matches they report that very cell, which a confirmed
`cancelTicket` then clears. -/
theorem ticket_match_case_insensitive (sys : BusReservationSystem) (q1 q2 : String)
    (h : tolower q1 = tolower q2) :
    showTicketInfo sys q1 = showTicketInfo sys q2 ∧
    (∀ confirmation, cancelTicket sys q1 confirmation = cancelTicket sys q2 confirmation) ∧
    (∀ p, firstMatchAt sys.bus q1 p ↔ firstMatchAt sys.bus q2 p) ∧
    (∀ (i row col : Nat) (cell : SeatInfo), seatAt sys.bus i row col = some cell →
      tolower cell.ticketID = tolower q1 →
      (∃ info, showTicketInfo sys q2 = some (.ok info) ∧ info.ticketID = tolower q1) ∧
      ((∀ b ∈ sys.bus, b.gridOK) → ∀ confirmation,
        ∃ info sys', cancelTicket sys q2 confirmation =
            some ((if confirmed confirmation = false then Outcome.declined
                   else Outcome.ok) info, sys') ∧
          info.ticketID = tolower q1)) ∧
    (∀ (i row col : Nat) (b : Bus) (cell : SeatInfo), sys.bus[i]? = some b →
      seatAt sys.bus i row col = some cell → cell.ticketID = "Ab3dEfGh" →
      (∃ info, showTicketInfo sys "AB3DEFGH" = some (.ok info) ∧
        info.ticketID = "ab3defgh") ∧
      (firstMatchAt sys.bus "AB3DEFGH" (i, row, col) →
        showTicketInfo sys "AB3DEFGH" = some (.ok
          { passengerName := cell.passengerName, ticketID := "ab3defgh",
            busNumber := b.busn, seatNumber := seatNumberAt row col })) ∧
      ((∀ b ∈ sys.bus, b.gridOK) → ∀ confirmation,
        (∃ info sys', cancelTicket sys "AB3DEFGH" confirmation =
            some ((if confirmed confirmation = false then Outcome.declined
                   else Outcome.ok) info, sys') ∧
          info.ticketID = "ab3defgh") ∧
        (firstMatchAt sys.bus "AB3DEFGH" (i, row, col) →
          cancelTicket sys "AB3DEFGH" confirmation = some (
            if confirmed confirmation = false then
              (.declined { passengerName := cell.passengerName, ticketID := "ab3defgh",
                           busNumber := b.busn, seatNumber := seatNumberAt row col }, sys)
            else
              (.ok { passengerName := cell.passengerName, ticketID := "ab3defgh",
                     busNumber := b.busn, seatNumber := seatNumberAt row col },
                { sys with bus := setSeat sys.bus i row col
                                    { passengerName := "", ticketID := "" } }))))) := by
  have hlowq : tolower "AB3DEFGH" = "ab3defgh" := by decide
  refine ⟨?_, ?_, firstMatchAt_congr sys.bus q1 q2 h, ?_, ?_⟩
  · unfold showTicketInfo
    rw [h]
  · intro confirmation
    unfold cancelTicket
    rw [h]
  · intro i row col cell hcell hid
    have hm : cell.matchesTicket q2 := by
      unfold SeatInfo.matchesTicket
      rw [hid, h]
    refine ⟨?_, ?_⟩
    · rw [h]
      exact showTicketInfo_finds_match sys q2 i row col cell hcell hm
    · intro hgrid confirmation
      rw [h]
      exact cancelTicket_finds_match sys q2 confirmation hgrid i row col cell hcell hm
  · intro i row col b cell hb hcell hid
    have hm : cell.matchesTicket "AB3DEFGH" := by
      unfold SeatInfo.matchesTicket
      rw [hid]
      decide
    have hlow : tolower cell.ticketID = "ab3defgh" := by rw [hid]; decide
    have hinfo : ticketInfoAt b cell row col =
        { passengerName := cell.passengerName, ticketID := "ab3defgh",
          busNumber := b.busn, seatNumber := seatNumberAt row col } := by
      simp only [ticketInfoAt, hlow, seatNumberAt]
    refine ⟨?_, ?_, ?_⟩
    · have := showTicketInfo_finds_match sys "AB3DEFGH" i row col cell hcell hm
      rw [hlowq] at this
      exact this
    · intro hfirst'
      rcases showTicketInfo_cases sys "AB3DEFGH" with
        ⟨p, b', cell', hfirst, hb', hcell', _, hres⟩ | ⟨hnone, _⟩
      · have hp : p = (i, row, col) := firstMatchAt_unique sys.bus _ p _ hfirst hfirst'
        subst hp
        simp only at hb' hcell'
        rw [hb] at hb'
        rw [hcell] at hcell'
        cases hb'
        cases hcell'
        rw [hres, hinfo]
      · exact absurd hm (hnone i row col cell hcell)
    · intro hgrid confirmation
      refine ⟨?_, ?_⟩
      · have := cancelTicket_finds_match sys "AB3DEFGH" confirmation hgrid i row col cell
          hcell hm
        rw [hlowq] at this
        exact this
      · intro hfirst'
        rcases cancelTicket_cases sys "AB3DEFGH" confirmation hgrid with
          ⟨p, b', cell', hfirst, hb', hcell', _, hres⟩ | ⟨hnone, _⟩
        · have hp : p = (i, row, col) := firstMatchAt_unique sys.bus _ p _ hfirst hfirst'
          subst hp
          simp only at hb' hcell'
          rw [hb] at hb'
          rw [hcell] at hcell'
          cases hb'
          cases hcell'
          rw [hres, hinfo]
        · exact absurd hm (hnone i row col cell hcell)

theorem ticket_match_case_insensitive_witness :
    tolower "AB3DEFGH" = tolower "ab3DEFgh" ∧
    (∀ b ∈ (oneBusWith "Alice" "Ab3dEfGh").bus, b.gridOK) ∧
    showTicketInfo (oneBusWith "Alice" "Ab3dEfGh") "AB3DEFGH" =
      showTicketInfo (oneBusWith "Alice" "Ab3dEfGh") "ab3DEFgh" ∧
    cancelTicket (oneBusWith "Alice" "Ab3dEfGh") "AB3DEFGH" 'Y' =
      cancelTicket (oneBusWith "Alice" "Ab3dEfGh") "ab3DEFgh" 'Y' ∧
    (∃ info sys', cancelTicket (oneBusWith "Alice" "Ab3dEfGh") "ab3DEFgh" 'Y' =
        some ((if confirmed 'Y' = false then Outcome.declined else Outcome.ok) info, sys') ∧
      info.ticketID = tolower "AB3DEFGH") ∧
    showTicketInfo (oneBusWith "Alice" "Ab3dEfGh") "AB3DEFGH" =
      some (.ok { passengerName := "Alice", ticketID := "ab3defgh", busNumber := "1234",
                  seatNumber := 1 }) ∧
    cancelTicket (oneBusWith "Alice" "Ab3dEfGh") "AB3DEFGH" 'Y' =
      some (.ok { passengerName := "Alice", ticketID := "ab3defgh", busNumber := "1234",
                  seatNumber := 1 }, oneBus) ∧
    cancelTicket (oneBusWith "Alice" "Ab3dEfGh") "ab3defgh" 'n' =
      some (.declined { passengerName := "Alice", ticketID := "ab3defgh",
                        busNumber := "1234", seatNumber := 1 },
            oneBusWith "Alice" "Ab3dEfGh") :=
  have hgrid : ∀ b ∈ (oneBusWith "Alice" "Ab3dEfGh").bus, b.gridOK := by decide
  ⟨by decide, hgrid,
    (ticket_match_case_insensitive (oneBusWith "Alice" "Ab3dEfGh") "AB3DEFGH" "ab3DEFgh"
      (by decide)).1,
    (ticket_match_case_insensitive (oneBusWith "Alice" "Ab3dEfGh") "AB3DEFGH" "ab3DEFgh"
      (by decide)).2.1 'Y',
    ((ticket_match_case_insensitive (oneBusWith "Alice" "Ab3dEfGh") "AB3DEFGH" "ab3DEFgh"
      (by decide)).2.2.2.1 0 0 0 ⟨"Alice", "Ab3dEfGh"⟩ (by decide) (by decide)).2 hgrid 'Y',
    by decide, by decide, by decide⟩

/-! ## Deleting a bus -/

theorem findBus_lt_length (number : String) (bus : List Bus) (k : Nat)
    (h : findBus number bus 0 = some k) : ∃ b, bus[k]? = some b ∧ b.busn = number := by
  obtain ⟨_, ⟨b, hb, hbn⟩, _⟩ := findBus_some number bus 0 k h
  rw [Nat.sub_zero] at hb
  exact ⟨b, hb, hbn⟩

/-- C16: `deleteBus` reports `NotFound` and returns the state unchanged when
no bus has the given number; when such a bus is present and the answer to the
prompt is not yes it reports a declined deletion (not an error) and returns the
state unchanged; so it returns a different state only when the bus is present
and the deletion is confirmed. -/
theorem deleteBus_no_change (sys : BusReservationSystem) (busNumber : String)
    (confirmation : Char) :
    ((∀ b ∈ sys.bus, b.busn ≠ busNumber) →
      deleteBus sys busNumber confirmation = some (.error .NotFound, sys)) ∧
    ((∃ b ∈ sys.bus, b.busn = busNumber) → confirmed confirmation = false →
      deleteBus sys busNumber confirmation = some (.declined (), sys)) ∧
    (∀ out sys', deleteBus sys busNumber confirmation = some (out, sys') → sys' ≠ sys →
      (∃ b ∈ sys.bus, b.busn = busNumber) ∧ confirmed confirmation = true) := by
  refine ⟨?_, ?_, ?_⟩
  · intro habsent
    unfold deleteBus
    rw [(findBus_eq_none busNumber sys.bus 0).mpr habsent]
  · intro hpresent hno
    obtain ⟨k, hfind⟩ := findBus_isSome_of_mem busNumber sys.bus hpresent
    unfold deleteBus
    simp only [hfind, hno, if_true]
  · intro out sys' h hne
    unfold deleteBus at h
    split at h
    · simp only [Option.some.injEq, Prod.mk.injEq] at h
      exact absurd h.2.symm hne
    · rename_i k hfind
      obtain ⟨b, hb, hbn⟩ := findBus_lt_length busNumber sys.bus k hfind
      split at h
      · simp only [Option.some.injEq, Prod.mk.injEq] at h
        exact absurd h.2.symm hne
      · rename_i hyes
        exact ⟨⟨b, List.mem_iff_getElem?.mpr ⟨k, hb⟩, hbn⟩, by simpa using hyes⟩

theorem deleteBus_no_change_witness :
    (∀ b ∈ oneBus.bus, b.busn ≠ "9999") ∧ (∃ b ∈ oneBus.bus, b.busn = "1234") ∧
    confirmed 'n' = false ∧
    deleteBus oneBus "9999" 'Y' = some (.error .NotFound, oneBus) ∧
    deleteBus oneBus "1234" 'n' = some (.declined (), oneBus) :=
  have habsent : ∀ b ∈ oneBus.bus, b.busn ≠ "9999" := by decide
  have hpresent : ∃ b ∈ oneBus.bus, b.busn = "1234" := by decide
  ⟨habsent, hpresent, by decide, (deleteBus_no_change oneBus "9999" 'Y').1 habsent,
    (deleteBus_no_change oneBus "1234" 'n').2.1 hpresent (by decide)⟩

theorem eraseIdx_eq_take_drop {α : Type} (l : List α) (k : Nat) :
    l.eraseIdx k = l.take k ++ l.drop (k + 1) := by
  induction l generalizing k with
  | nil => simp
  | cons a rest ih =>
    cases k with
    | zero => simp
    | succ k => simp [ih k]

theorem busn_ne_of_eraseIdx (bus : List Bus) (k : Nat) (b : Bus) (hb : bus[k]? = some b)
    (hnd : (bus.map fun b => b.busn).Nodup) : ∀ b' ∈ bus.eraseIdx k, b'.busn ≠ b.busn := by
  intro b' hb' hbn
  obtain ⟨j, hj⟩ := List.mem_iff_getElem?.mp hb'
  rw [List.getElem?_eraseIdx] at hj
  have hkey : ∀ (i : Nat), i ≠ k → bus[i]? = some b' → False := by
    intro i hik hi
    have hlen : ∀ (n : Nat) (x : Bus), bus[n]? = some x →
        n < (bus.map fun b => b.busn).length := by
      intro n x hx
      rw [List.length_map]
      by_contra hcon
      rw [List.getElem?_eq_none (by omega)] at hx
      cases hx
    have hne : ∀ (m n : Nat) (x y : Bus), m < n → bus[m]? = some x → bus[n]? = some y →
        x.busn ≠ y.busn := by
      intro m n x y hmn hx hy hxy
      apply List.nodup_iff_getElem?_ne_getElem?.mp hnd m n hmn (hlen n y hy)
      simp [List.getElem?_map, hx, hy, hxy]
    rcases Nat.lt_or_gt_of_ne hik with hlt | hgt
    · exact hne i k b' b hlt hi hb hbn
    · exact hne k i b b' hgt hb hi hbn.symm
  split_ifs at hj with hlt
  · exact hkey j (by omega) hj
  · exact hkey (j + 1) (by omega) hj

theorem showAvailableBusSeats_absent (sys : BusReservationSystem) (number : String)
    (hc : sys.busCount = (sys.bus.length : Int)) (habsent : ∀ b ∈ sys.bus, b.busn ≠ number) :
    showAvailableBusSeats sys number = some (.error .NotFound) := by
  unfold showAvailableBusSeats
  have hcount : sys.busCount.toNat = sys.bus.length := by rw [hc]; simp
  rw [hcount, findBusCounted_length, (findBus_eq_none number sys.bus 0).mpr habsent]
  simp [hc]

/-- C15: when the first bus with the given number is at index `k` and the
answer to the prompt is yes, `deleteBus` succeeds and the new collection is the
old one without its element `k`: one bus fewer, the buses before `k` stay in
place and the buses after `k` move up by one, each with its fields and grid; the
counter decreases by one.  When bus numbers are pairwise distinct, as they are
in every reachable state, no bus with that number remains and a later
`deleteBus`, `allotmentOfSeatToPassenger` or (with the counter equal to the
size) `showAvailableBusSeats` for that number reports `NotFound`. -/
theorem deleteBus_confirmed (sys : BusReservationSystem) (busNumber : String)
    (confirmation : Char) (k : Nat) (b : Bus)
    (hb : sys.bus[k]? = some b) (hbn : b.busn = busNumber)
    (hfirst : ∀ (j : Nat) (b' : Bus), j < k → sys.bus[j]? = some b' → b'.busn ≠ busNumber)
    (hyes : confirmed confirmation = true) :
    ∃ sys', deleteBus sys busNumber confirmation = some (.ok (), sys') ∧
      sys'.bus = sys.bus.take k ++ sys.bus.drop (k + 1) ∧
      sys'.bus.length + 1 = sys.bus.length ∧
      sys'.busCount = sys.busCount - 1 ∧
      (∀ i, i < k → sys'.bus[i]? = sys.bus[i]?) ∧
      (∀ i, k ≤ i → sys'.bus[i]? = sys.bus[i + 1]?) ∧
      ((sys.bus.map fun b => b.busn).Nodup →
        (∀ b' ∈ sys'.bus, b'.busn ≠ busNumber) ∧
        (∀ c, deleteBus sys' busNumber c = some (.error .NotFound, sys')) ∧
        (∀ seatInput name draws,
          allotmentOfSeatToPassenger sys' busNumber seatInput name draws =
            some (.error .NotFound, sys')) ∧
        (sys.busCount = (sys.bus.length : Int) →
          showAvailableBusSeats sys' busNumber = some (.error .NotFound))) := by
  have hfind := findBus_first busNumber sys.bus k b hb hbn hfirst
  have hk : k < sys.bus.length := by
    by_contra hcon
    rw [List.getElem?_eq_none (by omega)] at hb
    cases hb
  have hres : deleteBus sys busNumber confirmation =
      some (.ok (), { bus := sys.bus.eraseIdx k, busCount := sys.busCount - 1 }) := by
    unfold deleteBus
    simp only [hfind, hyes, Bool.true_eq_false, if_false]
  have hlen : (sys.bus.eraseIdx k).length + 1 = sys.bus.length := by
    rw [List.length_eraseIdx, if_pos hk]; omega
  refine ⟨_, hres, eraseIdx_eq_take_drop sys.bus k, hlen, rfl, ?_, ?_, ?_⟩
  · intro i hi
    simp only [List.getElem?_eraseIdx, hi, if_true]
  · intro i hi
    have : ¬ i < k := by omega
    simp only [List.getElem?_eraseIdx, this, if_false]
  · intro hnd
    have habsent : ∀ b' ∈ sys.bus.eraseIdx k, b'.busn ≠ busNumber := by
      rw [← hbn]
      exact busn_ne_of_eraseIdx sys.bus k b hb hnd
    refine ⟨habsent, ?_, ?_, ?_⟩
    · intro c
      unfold deleteBus
      simp only [(findBus_eq_none busNumber _ 0).mpr habsent]
    · intro seatInput name draws
      unfold allotmentOfSeatToPassenger
      simp only [(findBus_eq_none busNumber _ 0).mpr habsent]
    · intro hc
      apply showAvailableBusSeats_absent _ _ _ habsent
      simp only
      rw [hc]
      omega

theorem deleteBus_confirmed_witness :
    twoBuses.bus[0]? = some sampleBus ∧ sampleBus.busn = "1234" ∧ confirmed 'y' = true ∧
    (twoBuses.bus.map fun b => b.busn).Nodup ∧
    ∃ sys', deleteBus twoBuses "1234" 'y' = some (.ok (), sys') ∧
      sys'.bus.length + 1 = twoBuses.bus.length ∧
      deleteBus sys' "1234" 'y' = some (.error .NotFound, sys') :=
  have hnd : (twoBuses.bus.map fun b => b.busn).Nodup := by decide
  ⟨by decide, by decide, by decide, hnd,
    match deleteBus_confirmed twoBuses "1234" 'y' 0 sampleBus (by decide) (by decide)
        (fun j _ hj => absurd hj (Nat.not_lt_zero j)) (by decide) with
    | ⟨sys', h⟩ => ⟨sys', h.1, h.2.2.1, (h.2.2.2.2.2.2 hnd).2.1 'y'⟩⟩

/-! ## The time format -/

theorem inRange_iff (lo hi c : Char) :
    inRange lo hi c = true ↔ lo.toNat ≤ c.toNat ∧ c.toNat ≤ hi.toNat := by
  simp [inRange, Char.toNat, UInt32.le_def, BitVec.le_def, UInt32.toNat]

theorem isDigit_iff (c : Char) : c.isDigit = true ↔ 48 ≤ c.toNat ∧ c.toNat ≤ 57 := by
  simp [Char.isDigit, Char.toNat, UInt32.le_def, BitVec.le_def, UInt32.toNat]

theorem char_eq_of_toNat (c d : Char) (h : c.toNat = d.toNat) : c = d := by
  rw [← Char.ofNat_toNat c, ← Char.ofNat_toNat d, h]

theorem hourText_one (h : Char) : inRange '1' '9' h = true ↔ isHourText [h] := by
  rw [inRange_iff]
  have e1 : '1'.toNat = 49 := rfl
  have e9 : '9'.toNat = 57 := rfl
  simp only [isHourText, digitsValue, digitValue, List.foldl, List.length_singleton,
    List.mem_singleton, forall_eq, isDigit_iff, e1, e9]
  constructor
  · intro hh; exact ⟨Or.inl trivial, by omega, by omega, by omega⟩
  · rintro ⟨_, hd, h1, _⟩; omega

theorem hourText_two (h1 h2 : Char) :
    ((h1 == '0' && inRange '1' '9' h2) || (h1 == '1' && inRange '0' '2' h2)) = true ↔
      isHourText [h1, h2] := by
  have e0 : '0'.toNat = 48 := rfl
  have e1 : '1'.toNat = 49 := rfl
  have e2 : '2'.toNat = 50 := rfl
  have e9 : '9'.toNat = 57 := rfl
  simp only [Bool.or_eq_true, Bool.and_eq_true, beq_iff_eq, inRange_iff, isHourText,
    digitsValue, digitValue, List.foldl, List.length_cons, List.length_nil, List.mem_cons,
    List.mem_singleton, forall_eq_or_imp, forall_eq, isDigit_iff, e0, e1, e2, e9,
    List.not_mem_nil, false_imp_iff, implies_true, and_true]
  constructor
  · rintro (⟨hz, hr⟩ | ⟨ho, hr⟩)
    · subst hz
      exact ⟨Or.inr trivial, ⟨by rw [e0]; omega, by omega⟩, by rw [e0]; omega, by rw [e0]; omega⟩
    · subst ho
      exact ⟨Or.inr trivial, ⟨by rw [e1]; omega, by omega⟩, by rw [e1]; omega, by rw [e1]; omega⟩
  · rintro ⟨_, ⟨hd1, hd2⟩, hlo, hhi⟩
    by_cases hz : h1.toNat = 48
    · left
      exact ⟨char_eq_of_toNat h1 '0' (by rw [hz, e0]), by omega⟩
    · right
      exact ⟨char_eq_of_toNat h1 '1' (by rw [e1]; omega), by omega⟩

theorem minuteMeridiem_iff (m1 m2 sp x y : Char) :
    validMinuteMeridiem m1 m2 sp x y = true ↔
      isMinuteText m1 m2 ∧ sp = ' ' ∧ isPlainMarker [x, y] := by
  have e0 : '0'.toNat = 48 := rfl
  have e5 : '5'.toNat = 53 := rfl
  have e9 : '9'.toNat = 57 := rfl
  simp only [validMinuteMeridiem, Bool.or_eq_true, Bool.and_eq_true, beq_iff_eq, inRange_iff,
    isMinuteText, digitsValue, digitValue, List.foldl, isDigit_iff, isPlainMarker,
    List.cons.injEq, and_true, e0, e5, e9]
  constructor
  · rintro ⟨⟨⟨hm1, hm2⟩, hsp⟩, hmer⟩
    refine ⟨⟨by omega, by omega, by omega⟩, hsp, ?_⟩
    rcases hmer with ((h | h) | h) | h
    · exact Or.inl h
    · exact Or.inr (Or.inl h)
    · exact Or.inr (Or.inr (Or.inl h))
    · exact Or.inr (Or.inr (Or.inr h))
  · rintro ⟨⟨hm1, hm2, hv⟩, hsp, hmer⟩
    refine ⟨⟨⟨by omega, by omega⟩, hsp⟩, ?_⟩
    rcases hmer with h | h | h | h
    · exact Or.inl (Or.inl (Or.inl h))
    · exact Or.inl (Or.inl (Or.inr h))
    · exact Or.inl (Or.inr h)
    · exact Or.inr h

/-- C14 (amended): `validateTimeFormat` accepts exactly the texts made of an
hour 1 to 12 written with one or two digits (a leading zero is allowed), a colon,
a two-digit minute 00 to 59, one space and a meridiem marker spelled `AM`, `PM`,
`am` or `pm`, with nothing before or after. -/
theorem validateTimeFormat_iff (s : String) :
    validateTimeFormat s = true ↔ isTimeText isPlainMarker s := by
  constructor
  · intro h
    unfold validateTimeFormat at h
    split at h
    · rename_i h0 c m1 m2 sp x y hdata
      simp only [Bool.and_eq_true, beq_iff_eq] at h
      obtain ⟨⟨hh, hc⟩, hmm⟩ := h
      obtain ⟨hmin, hsp, hmer⟩ := (minuteMeridiem_iff m1 m2 sp x y).mp hmm
      subst hc hsp
      exact ⟨[h0], m1, m2, [x, y], by rw [hdata]; rfl, (hourText_one h0).mp hh, hmin, hmer⟩
    · rename_i h1 h2 c m1 m2 sp x y hdata
      simp only [Bool.and_eq_true, beq_iff_eq] at h
      obtain ⟨⟨hh, hc⟩, hmm⟩ := h
      obtain ⟨hmin, hsp, hmer⟩ := (minuteMeridiem_iff m1 m2 sp x y).mp hmm
      subst hc hsp
      exact ⟨[h1, h2], m1, m2, [x, y], by rw [hdata]; rfl,
        (hourText_two h1 h2).mp (by simpa using hh), hmin, hmer⟩
    · cases h
  · rintro ⟨hd, m1, m2, mer, hdata, hhour, hmin, hmer⟩
    have hmer2 : ∃ x y, mer = [x, y] := by
      rcases hmer with h | h | h | h <;> exact ⟨_, _, h⟩
    obtain ⟨x, y, rfl⟩ := hmer2
    have hmm := (minuteMeridiem_iff m1 m2 ' ' x y).mpr ⟨hmin, rfl, hmer⟩
    rcases hhour.1 with hlen | hlen
    · obtain ⟨h0, rfl⟩ := List.length_eq_one.mp hlen
      have hh := (hourText_one h0).mpr hhour
      unfold validateTimeFormat
      rw [hdata]
      simp [hh, hmm]
    · obtain ⟨h1, h2, rfl⟩ := List.length_eq_two.mp hlen
      have hh := (hourText_two h1 h2).mpr hhour
      unfold validateTimeFormat
      rw [hdata]
      simp only [Bool.or_eq_true, Bool.and_eq_true, beq_iff_eq] at hh
      simp [hh, hmm]

/-- C14 (as stated, refuted): "09:00 Am" is an hour, a colon, a minute, one
space and the marker `AM` in mixed case, yet `validateTimeFormat` rejects it, as
it rejects "9:30 pM". -/
theorem validateTimeFormat_rejects_mixed_case :
    isTimeText isAnyCaseMarker "09:00 Am" ∧ validateTimeFormat "09:00 Am" = false ∧
    isTimeText isAnyCaseMarker "9:30 pM" ∧ validateTimeFormat "9:30 pM" = false := by
  refine ⟨⟨['0', '9'], '0', '0', ['A', 'm'], rfl, ?_, ?_, ?_⟩, by decide,
    ⟨['9'], '3', '0', ['p', 'M'], rfl, ?_, ?_, ?_⟩, by decide⟩
  · exact ⟨Or.inr rfl, by decide, by decide, by decide⟩
  · exact ⟨by decide, by decide, by decide⟩
  · exact Or.inl (by decide)
  · exact ⟨Or.inl rfl, by decide, by decide, by decide⟩
  · exact ⟨by decide, by decide, by decide⟩
  · exact Or.inr (by decide)

/-! ## Format of the ticket IDs -/

theorem charset_lower (k : Fin 62) :
    isTicketChar (Char.toLower (charset.getD k.val '0')) = true := by
  revert k
  decide

/-- C18: whatever indices in [0,61] the random draws give, `generateTicketID`
returns eight characters, each a lowercase letter or a decimal digit; hence in
every reachable state each stored ticket ID is empty or of that form. -/
theorem generateTicketID_format (draws : Nat → Fin 62) :
    (generateTicketID draws).data.length = 8 ∧
    (∀ c ∈ (generateTicketID draws).data, isTicketChar c = true) ∧
    (∀ sys, Reachable sys → ∀ b ∈ sys.bus, ∀ r ∈ b.seat, ∀ cell ∈ r,
      cell.ticketID = "" ∨ isTicketID cell.ticketID) := by
  have hchars : ∀ (d : Nat → Fin 62), ∀ c ∈ (generateTicketID d).data,
      isTicketChar c = true := by
    intro d c hc
    simp only [generateTicketID, tolower, List.map_map, List.mem_map] at hc
    obtain ⟨i, _, rfl⟩ := hc
    exact charset_lower (d i)
  refine ⟨generateTicketID_length draws, hchars draws, ?_⟩
  intro sys hsys
  exact reachable_cells (fun cell => cell.ticketID = "" ∨ isTicketID cell.ticketID)
    (Or.inl rfl) (fun _ d => Or.inr ⟨generateTicketID_length d, hchars d⟩) sys hsys

/-! ## Listing the buses -/

theorem readCells_congr (b b' : Bus) (h : b.seat = b'.seat) (ps : List (Nat × Nat)) :
    readCells b ps = readCells b' ps := by
  induction ps with
  | nil => rfl
  | cons p rest ih =>
    obtain ⟨i, j⟩ := p
    simp only [readCells, h, ih]

theorem countEmpty_fresh (b : Bus) (h : b.seat = emptyGrid) :
    ∃ cells, readCells b gridPositions = some cells ∧ countEmpty cells = 32 := by
  rw [readCells_congr b sampleBus h gridPositions]
  exact ⟨_, rfl, by decide⟩

theorem listBusesFrom_fresh (l pre : List Bus) (h : ∀ b ∈ l, b.seat = emptyGrid) :
    listBusesFrom (pre ++ l) l.length pre.length =
      some (l.map fun b => { details := b.record, emptySeats := 32 }) := by
  induction l generalizing pre with
  | nil => simp [listBusesFrom]
  | cons b rest ih =>
    have hget : (pre ++ b :: rest)[pre.length]? = some b := by
      rw [List.getElem?_append_right (Nat.le_refl _)]; simp
    obtain ⟨cells, hcells, hcount⟩ := countEmpty_fresh b (h b (List.mem_cons_self _ _))
    have hrest := ih (pre ++ [b]) (fun b' hb' => h b' (List.mem_cons_of_mem _ hb'))
    simp only [List.append_assoc, List.singleton_append, List.length_append,
      List.length_singleton] at hrest
    simp only [List.length_cons, listBusesFrom, hget, hcells, hrest, hcount, List.map_cons]

theorem addAll_valid (rs : List BusRecord) (sys0 : BusReservationSystem)
    (hc : sys0.busCount = (sys0.bus.length : Int)) (hlen : sys0.bus.length + rs.length ≤ 25)
    (hvalid : ∀ r ∈ rs, validRecord r) (hnd : (rs.map fun r => r.busn).Nodup)
    (hnew : ∀ r ∈ rs, ∀ b ∈ sys0.bus, b.busn ≠ r.busn) :
    addAll sys0 rs =
      some { bus := sys0.bus ++ rs.map freshBus, busCount := sys0.busCount + rs.length } := by
  induction rs generalizing sys0 with
  | nil => simp [addAll]
  | cons r rest ih =>
    obtain ⟨hv1, hv2, hv3, hv4, hv5, hv6⟩ := hvalid r (List.mem_cons_self _ _)
    simp only [List.length_cons] at hlen
    simp only [List.map_cons, List.nodup_cons] at hnd
    have h1 : ¬ 25 ≤ sys0.bus.length := by omega
    have h3 : ¬ (findBus r.busn sys0.bus 0).isSome = true := by
      rw [(findBus_eq_none r.busn sys0.bus 0).mpr (hnew r (List.mem_cons_self _ _))]
      simp
    have hstep : addNewBus sys0 r =
        some (.ok (), { bus := sys0.bus ++ [freshBus r], busCount := sys0.busCount + 1 }) := by
      rw [addNewBus_eq sys0 r hc, if_neg h1, if_neg (by simp [hv1]), if_neg h3,
        if_neg hv2, if_neg (by simp [hv3]), if_neg (by simp [hv4]), if_neg hv5, if_neg hv6]
      rfl
    simp only [addAll, hstep]
    rw [ih _ (by simp [hc]) (by simp; omega)
      (fun r' hr' => hvalid r' (List.mem_cons_of_mem _ hr')) hnd.2]
    · simp only [List.append_assoc, List.singleton_append, List.map_cons, List.length_cons,
        Option.some.injEq, BusReservationSystem.mk.injEq, true_and]
      push_cast
      omega
    · intro r' hr' b hb
      rcases List.mem_append.mp hb with hb | hb
      · exact hnew r' (List.mem_cons_of_mem _ hr') b hb
      · simp only [List.mem_singleton] at hb
        subst hb
        intro heq
        exact hnd.1 (List.mem_map.mpr ⟨r', hr', heq.symm⟩)

/-- C17: at most 25 valid records with pairwise distinct bus numbers can be
added one after the other to the initial state; the collection is then exactly
those records in insertion order, and `showAvailableBuses` lists them in that
order, each with 32 empty seats (out of `MAX_SEATS`, which is 32).  With the counter
equal to the size of the collection, `showAvailableBuses` reports
`EmptyCollection` exactly when the collection is empty. -/
theorem showAvailableBuses_after_adds (rs : List BusRecord) (hlen : rs.length ≤ 25)
    (hvalid : ∀ r ∈ rs, validRecord r) (hnd : (rs.map fun r => r.busn).Nodup) :
    (∃ sys, addAll initial rs = some sys ∧ sys.bus.map Bus.record = rs ∧
      (rs ≠ [] → showAvailableBuses sys =
        some (.ok (rs.map fun r => { details := r, emptySeats := 32 }))) ∧
      (rs = [] → showAvailableBuses sys = some (.error .EmptyCollection))) ∧
    MAX_SEATS = 32 ∧
    (∀ s : BusReservationSystem, s.busCount = (s.bus.length : Int) →
      (showAvailableBuses s = some (.error .EmptyCollection) ↔ s.bus = [])) := by
  refine ⟨?_, rfl, ?_⟩
  · have hadd := addAll_valid rs initial rfl (by simpa [initial] using hlen) hvalid hnd
      (fun _ _ b hb => by cases hb)
    refine ⟨_, hadd, ?_, ?_, ?_⟩
    · simp only [initial, List.nil_append, List.map_map]
      conv_rhs => rw [← List.map_id rs]
      rfl
    · intro hne
      have hcount : ((0 : Int) + (rs.length : Int)).toNat = (rs.map freshBus).length := by
        simp
      have hnz : ¬ ((0 : Int) + (rs.length : Int) = 0) := by
        cases rs with
        | nil => exact absurd rfl hne
        | cons r rest => simp only [List.length_cons]; omega
      have hlist := listBusesFrom_fresh (rs.map freshBus) []
        (fun b hb => by
          obtain ⟨r, _, rfl⟩ := List.mem_map.mp hb
          rfl)
      simp only [List.nil_append, List.length_nil] at hlist
      simp only [showAvailableBuses, initial, List.nil_append, hnz, if_false, hcount, hlist,
        Option.map_some', List.map_map]
      rfl
    · intro hnil
      subst hnil
      rfl
  · intro s hc
    unfold showAvailableBuses
    constructor
    · intro h
      by_cases h0 : s.busCount = 0
      · rw [hc] at h0
        exact List.length_eq_zero.mp (by exact_mod_cast h0)
      · rw [if_neg h0] at h
        cases hl : listBusesFrom s.bus s.busCount.toNat 0 with
        | none => rw [hl] at h; cases h
        | some l => rw [hl] at h; simp at h
    · intro hnil
      have h0 : s.busCount = 0 := by rw [hc, hnil]; rfl
      rw [if_pos h0]

theorem showAvailableBuses_after_adds_witness :
    [sampleRecord, secondRecord].length ≤ 25 ∧
    (∀ r ∈ [sampleRecord, secondRecord], validRecord r) ∧
    ([sampleRecord, secondRecord].map fun r => r.busn).Nodup ∧
    ∃ sys, addAll initial [sampleRecord, secondRecord] = some sys ∧
      showAvailableBuses sys =
        some (.ok [{ details := sampleRecord, emptySeats := 32 },
                   { details := secondRecord, emptySeats := 32 }]) :=
  have hvalid : ∀ r ∈ [sampleRecord, secondRecord], validRecord r := by decide
  have hnd : ([sampleRecord, secondRecord].map fun r => r.busn).Nodup := by decide
  ⟨by decide, hvalid, hnd,
    match (showAvailableBuses_after_adds [sampleRecord, secondRecord] (by decide) hvalid
        hnd).1 with
    | ⟨sys, h⟩ => ⟨sys, h.1, h.2.2.1 (by decide)⟩⟩

/-! ## The two scans agree -/

/-- C20: on a ledger whose buses all have 8 by 4 grids the fixed-bound scan of
`cancelTicket` stops where the size-bound scan of `showTicketInfo` stops, for
every query.  When a cell matches, both report the info of the first matching
cell (same bus, row, column, passenger name and seat number), `cancelTicket`
as a cancellation or, when declined, as a no-op; `cancelTicket` reports
`NotFound` exactly when `showTicketInfo` does. -/
theorem cancelTicket_scans_like_showTicketInfo (sys : BusReservationSystem) (q : String)
    (hgrid : ∀ b ∈ sys.bus, b.gridOK) :
    cancelScanBuses (tolower q) sys.bus 0 = some (showScanBuses (tolower q) sys.bus 0) ∧
    (∀ p, firstMatchAt sys.bus q p →
      ∃ b cell, sys.bus[p.1]? = some b ∧ seatAt sys.bus p.1 p.2.1 p.2.2 = some cell ∧
        showTicketInfo sys q = some (.ok
          { passengerName := cell.passengerName, ticketID := tolower cell.ticketID,
            busNumber := b.busn, seatNumber := seatNumberAt p.2.1 p.2.2 }) ∧
        ∀ confirmation, ∃ sys',
          cancelTicket sys q confirmation = some (
            (if confirmed confirmation = false then Outcome.declined else Outcome.ok)
              { passengerName := cell.passengerName, ticketID := tolower cell.ticketID,
                busNumber := b.busn, seatNumber := seatNumberAt p.2.1 p.2.2 }, sys')) ∧
    (∀ confirmation,
      showTicketInfo sys q = some (.error .NotFound) ↔
        cancelTicket sys q confirmation = some (.error .NotFound, sys)) := by
  refine ⟨cancelScanBuses_eq (tolower q) sys.bus 0 hgrid, ?_, ?_⟩
  · intro p hp
    rcases showTicketInfo_cases sys q with ⟨p', b, cell, hfirst, hb, hcell, _, hres⟩ | ⟨hnone, _⟩
    · have hpp : p' = p := firstMatchAt_unique sys.bus q p' p hfirst hp
      subst hpp
      refine ⟨b, cell, hb, hcell, hres, ?_⟩
      intro confirmation
      rcases cancelTicket_cases sys q confirmation hgrid with
        ⟨p2, b2, cell2, hfirst2, hb2, hcell2, _, hres2⟩ | ⟨hnone2, _⟩
      · have hpp2 : p2 = p' := firstMatchAt_unique sys.bus q p2 p' hfirst2 hfirst
        subst hpp2
        rw [hb] at hb2
        rw [hcell] at hcell2
        cases hb2
        cases hcell2
        rw [hres2]
        by_cases hconf : confirmed confirmation = false
        · exact ⟨sys, by simp only [hconf, if_true]; rfl⟩
        · exact ⟨_, by simp only [hconf, if_false]; rfl⟩
      · obtain ⟨⟨c, hc, hm⟩, _⟩ := hp
        exact absurd hm (hnone2 _ _ _ c hc)
    · obtain ⟨⟨c, hc, hm⟩, _⟩ := hp
      exact absurd hm (hnone _ _ _ c hc)
  · intro confirmation
    rcases showTicketInfo_cases sys q with ⟨p, b, cell, hfirst, hb, hcell, hm, hres⟩ | ⟨hnone, hres⟩
    · rcases cancelTicket_cases sys q confirmation hgrid with
        ⟨p2, b2, cell2, _, _, _, _, hres2⟩ | ⟨hnone2, _⟩
      · rw [hres, hres2]
        constructor
        · intro h; cases h
        · intro h
          split_ifs at h <;> cases h
      · exact absurd hm (hnone2 _ _ _ cell hcell)
    · rcases cancelTicket_cases sys q confirmation hgrid with
        ⟨p2, b2, cell2, _, _, hcell2, hm2, _⟩ | ⟨_, hres2⟩
      · exact absurd hm2 (hnone _ _ _ cell2 hcell2)
      · rw [hres, hres2]
        exact ⟨fun _ => rfl, fun _ => rfl⟩

theorem cancelTicket_scans_like_showTicketInfo_witness :
    (∀ b ∈ (oneBusWith "Alice" "aaaaaaaa").bus, b.gridOK) ∧
    cancelScanBuses (tolower "AAAAAAAA") (oneBusWith "Alice" "aaaaaaaa").bus 0 =
      some (showScanBuses (tolower "AAAAAAAA") (oneBusWith "Alice" "aaaaaaaa").bus 0) ∧
    showScanBuses (tolower "AAAAAAAA") (oneBusWith "Alice" "aaaaaaaa").bus 0 =
      some (0, 0, 0) :=
  have hgrid : ∀ b ∈ (oneBusWith "Alice" "aaaaaaaa").bus, b.gridOK := by decide
  ⟨hgrid,
    (cancelTicket_scans_like_showTicketInfo (oneBusWith "Alice" "aaaaaaaa") "AAAAAAAA"
      hgrid).1,
    by decide⟩

/-! ## Uniqueness of ticket IDs -/

theorem allotment_state_ok (sys sys' : BusReservationSystem) (busNumber : String)
    (seatInput : Option Int) (name : String) (draws : Nat → Fin 62) (out : Outcome TicketInfo)
    (h : allotmentOfSeatToPassenger sys busNumber seatInput name draws = some (out, sys')) :
    sys' = sys ∨ ∃ info k row col, out = .ok info ∧
      sys' = { sys with
        bus := setSeat sys.bus k row col ⟨name, generateTicketID draws⟩ } := by
  unfold allotmentOfSeatToPassenger at h
  split at h
  · left; simp only [Option.some.injEq, Prod.mk.injEq] at h; exact h.2.symm
  · split at h
    · left; simp only [Option.some.injEq, Prod.mk.injEq] at h; exact h.2.symm
    · split at h
      · left; simp only [Option.some.injEq, Prod.mk.injEq] at h; exact h.2.symm
      · simp only at h
        split at h
        · split at h
          · right
            simp only [Option.some.injEq, Prod.mk.injEq] at h
            exact ⟨_, _, _, _, h.1.symm, h.2.symm⟩
          · left; simp only [Option.some.injEq, Prod.mk.injEq] at h; exact h.2.symm
        · cases h

theorem deleteBus_state (sys sys' : BusReservationSystem) (busNumber : String)
    (confirmation : Char) (out : Outcome Unit)
    (h : deleteBus sys busNumber confirmation = some (out, sys')) :
    sys' = sys ∨ ∃ k, sys' = { bus := sys.bus.eraseIdx k, busCount := sys.busCount - 1 } := by
  unfold deleteBus at h
  split at h
  · left; simp only [Option.some.injEq, Prod.mk.injEq] at h; exact h.2.symm
  · split at h
    · left; simp only [Option.some.injEq, Prod.mk.injEq] at h; exact h.2.symm
    · right
      simp only [Option.some.injEq, Prod.mk.injEq] at h
      exact ⟨_, h.2.symm⟩

theorem distinct_setSeat_fresh (sys : BusReservationSystem) (k row col : Nat)
    (name t : String) (hD : ticketIDsDistinct sys) (hfresh : idUnused sys t) :
    ticketIDsDistinct { sys with bus := setSeat sys.bus k row col ⟨name, t⟩ } := by
  intro p p' cell cell' h h' hne heq
  simp only [seatAt_setSeat] at h h'
  split_ifs at h h' with c1 c2 c2
  · exact Prod.ext (c1.1.trans c2.1.symm)
      (Prod.ext (c1.2.1.trans c2.2.1.symm) (c1.2.2.1.trans c2.2.2.1.symm))
  · cases h
    exact absurd heq.symm (hfresh _ _ _ cell' h')
  · cases h'
    exact absurd heq (hfresh _ _ _ cell h)
  · exact hD p p' cell cell' h h' hne heq

theorem distinct_setSeat_empty (sys : BusReservationSystem) (k row col : Nat)
    (hD : ticketIDsDistinct sys) :
    ticketIDsDistinct { sys with bus := setSeat sys.bus k row col ⟨"", ""⟩ } := by
  intro p p' cell cell' h h' hne heq
  simp only [seatAt_setSeat] at h h'
  split_ifs at h h' with c1 c2 c2
  · cases h
    exact absurd rfl hne
  · cases h
    exact absurd rfl hne
  · cases h'
    exact absurd heq hne
  · exact hD p p' cell cell' h h' hne heq

theorem seatAt_append_fresh (bus : List Bus) (b : Bus) (hb : b.seat = emptyGrid)
    (i row col : Nat) (cell : SeatInfo) (h : seatAt (bus ++ [b]) i row col = some cell) :
    seatAt bus i row col = some cell ∨ cell.ticketID = "" := by
  by_cases hi : i < bus.length
  · left
    rw [seatAt_eq] at h ⊢
    rw [List.getElem?_append_left hi] at h
    exact h
  · right
    obtain ⟨b0, hb0⟩ := bus_of_seatAt _ _ _ _ _ h
    rw [List.getElem?_append_right (by omega)] at hb0
    have hmem : b0 ∈ [b] := List.mem_iff_getElem?.mpr ⟨_, hb0⟩
    simp only [List.mem_singleton] at hmem
    subst hmem
    rw [seatAt_eq, List.getElem?_append_right (by omega), hb0] at h
    simp only [Option.some_bind] at h
    cases hr : b0.seat[row]? with
    | none => simp [hr] at h
    | some r =>
      simp only [hr, Option.some_bind] at h
      have hrmem : r ∈ emptyGrid := by
        rw [← hb]; exact List.mem_iff_getElem?.mpr ⟨row, hr⟩
      exact ((emptyGrid_rows r hrmem).2 cell (List.mem_iff_getElem?.mpr ⟨col, h⟩)).2

theorem distinct_append_fresh (sys : BusReservationSystem) (b : Bus) (n : Int)
    (hb : b.seat = emptyGrid) (hD : ticketIDsDistinct sys) :
    ticketIDsDistinct { bus := sys.bus ++ [b], busCount := n } := by
  intro p p' cell cell' h h' hne heq
  rcases seatAt_append_fresh sys.bus b hb _ _ _ cell h with h1 | h1
  · rcases seatAt_append_fresh sys.bus b hb _ _ _ cell' h' with h2 | h2
    · exact hD p p' cell cell' h1 h2 hne heq
    · exact absurd (heq.trans h2) hne
  · exact absurd h1 hne

theorem seatAt_eraseIdx (bus : List Bus) (k i row col : Nat) :
    seatAt (bus.eraseIdx k) i row col =
      seatAt bus (if i < k then i else i + 1) row col := by
  rw [seatAt_eq, seatAt_eq, List.getElem?_eraseIdx]
  split_ifs <;> rfl

theorem distinct_eraseIdx (sys : BusReservationSystem) (k : Nat) (n : Int)
    (hD : ticketIDsDistinct sys) :
    ticketIDsDistinct { bus := sys.bus.eraseIdx k, busCount := n } := by
  rintro ⟨i, row, col⟩ ⟨i', row', col'⟩ cell cell' h h' hne heq
  simp only [seatAt_eraseIdx] at h h'
  have hpos : ((if i < k then i else i + 1), row, col) =
      ((if i' < k then i' else i' + 1), row', col') :=
    hD (_, row, col) (_, row', col') cell cell' h h' hne heq
  rw [Prod.mk.injEq, Prod.mk.injEq] at hpos
  obtain ⟨hi, hrow, hcol⟩ := hpos
  rw [Prod.mk.injEq, Prod.mk.injEq]
  refine ⟨?_, hrow, hcol⟩
  split_ifs at hi <;> omega

theorem reachableFresh_distinct (sys : BusReservationSystem) (h : ReachableFresh sys) :
    Reachable sys ∧ ticketIDsDistinct sys := by
  induction h with
  | init =>
    refine ⟨Reachable.init, ?_⟩
    intro p p' cell cell' h
    simp [initial, seatAt] at h
  | @addNewBus sys sys' out newBus _ hstep ih =>
    refine ⟨Reachable.addNewBus newBus ih.1 hstep, ?_⟩
    have hc := (reachable_inv sys ih.1).1
    rw [addNewBus_eq sys newBus hc] at hstep
    have hstep' := Option.some.inj hstep
    split_ifs at hstep'
    all_goals try (cases hstep'; exact ih.2)
    cases hstep'
    exact distinct_append_fresh sys _ _ rfl ih.2
  | @allotmentOfSeatToPassenger sys sys' out busNumber seatInput name draws _ hstep hfresh ih =>
    refine ⟨Reachable.allotmentOfSeatToPassenger busNumber seatInput name draws ih.1 hstep, ?_⟩
    rcases allotment_state_ok sys sys' busNumber seatInput name draws out hstep with
      h | ⟨info, k, row, col, hout, h⟩
    · rw [h]; exact ih.2
    · rw [h]
      exact distinct_setSeat_fresh sys k row col name _ ih.2 (hfresh ⟨info, hout⟩)
  | @deleteBus sys sys' out busNumber confirmation _ hstep ih =>
    refine ⟨Reachable.deleteBus busNumber confirmation ih.1 hstep, ?_⟩
    rcases deleteBus_state sys sys' busNumber confirmation out hstep with h | ⟨k, h⟩
    · rw [h]; exact ih.2
    · rw [h]; exact distinct_eraseIdx sys k _ ih.2
  | @cancelTicket sys sys' out ticketID confirmation _ hstep ih =>
    refine ⟨Reachable.cancelTicket ticketID confirmation ih.1 hstep, ?_⟩
    rcases cancelTicket_state sys sys' ticketID confirmation out hstep with
      h | ⟨k, row, col, h⟩
    · rw [h]; exact ih.2
    · rw [h]; exact distinct_setSeat_empty sys k row col ih.2

/-- Uniqueness under fresh draws: in every state reached from the initial one by
`addNewBus`, `allotmentOfSeatToPassenger`, `cancelTicket` and `deleteBus` calls in
which each allotment that issues a ticket draws an ID stored in no cell at that
moment, no two different cells store the same non-empty ticket ID.  The
operations themselves never compare a new ID with the stored ones, so the
proviso is not something the code ensures. -/
theorem fresh_ticket_ids_distinct (sys : BusReservationSystem) (h : ReachableFresh sys) :
    Reachable sys ∧ ticketIDsDistinct sys ∧
    ∀ (p p' : Nat × Nat × Nat) (cell cell' : SeatInfo),
      seatAt sys.bus p.1 p.2.1 p.2.2 = some cell →
      seatAt sys.bus p'.1 p'.2.1 p'.2.2 = some cell' →
      cell.occupied → cell'.occupied → cell.ticketID = cell'.ticketID → p = p' := by
  obtain ⟨hr, hD⟩ := reachableFresh_distinct sys h
  exact ⟨hr, hD, fun p p' cell cell' hc hc' hocc _ heq => hD p p' cell cell' hc hc' hocc.2 heq⟩

theorem idUnused_of_mem (sys : BusReservationSystem) (t : String)
    (h : ∀ b ∈ sys.bus, ∀ r ∈ b.seat, ∀ cell ∈ r, cell.ticketID ≠ t) : idUnused sys t := by
  intro i row col cell hcell
  obtain ⟨b, hb, r, hr, hc⟩ := mem_of_seatAt sys.bus i row col cell hcell
  exact h b hb r hr cell hc

theorem reachableFresh_two_tickets :
    ReachableFresh (oneBusWithTwo ⟨"Alice", "aaaaaaaa"⟩ ⟨"Bob", "bbbbbbbb"⟩) :=
  ReachableFresh.allotmentOfSeatToPassenger "1234" (some 2) "Bob" drawsB
    (ReachableFresh.allotmentOfSeatToPassenger "1234" (some 1) "Alice" drawsA
      (ReachableFresh.addNewBus sampleRecord ReachableFresh.init
        (by decide : addNewBus initial sampleRecord = some (.ok (), oneBus)))
      (by decide : allotmentOfSeatToPassenger oneBus "1234" (some 1) "Alice" drawsA =
        some (.ok { passengerName := "Alice", ticketID := "aaaaaaaa", busNumber := "1234",
                    seatNumber := 1 }, oneBusWith "Alice" "aaaaaaaa"))
      (fun _ => idUnused_of_mem oneBus _ (by decide)))
    (by decide : allotmentOfSeatToPassenger (oneBusWith "Alice" "aaaaaaaa") "1234" (some 2)
        "Bob" drawsB =
      some (.ok { passengerName := "Bob", ticketID := "bbbbbbbb", busNumber := "1234",
                  seatNumber := 2 },
            oneBusWithTwo ⟨"Alice", "aaaaaaaa"⟩ ⟨"Bob", "bbbbbbbb"⟩))
    (fun _ => idUnused_of_mem (oneBusWith "Alice" "aaaaaaaa") _ (by decide))

theorem fresh_ticket_ids_distinct_witness :
    ReachableFresh (oneBusWithTwo ⟨"Alice", "aaaaaaaa"⟩ ⟨"Bob", "bbbbbbbb"⟩) ∧
    ticketIDsDistinct (oneBusWithTwo ⟨"Alice", "aaaaaaaa"⟩ ⟨"Bob", "bbbbbbbb"⟩) :=
  ⟨reachableFresh_two_tickets,
    (fresh_ticket_ids_distinct _ reachableFresh_two_tickets).2.1⟩

/-- The precondition `ticketsNamed` holds in the initial state and is kept by
every operation, an allotment being given a non-empty passenger name. -/
theorem ticketsNamed_kept :
    ticketsNamed initial ∧
    (∀ (sys sys' : BusReservationSystem) (r : BusRecord) (out : Outcome Unit),
      sys.busCount = (sys.bus.length : Int) → ticketsNamed sys →
      addNewBus sys r = some (out, sys') → ticketsNamed sys') ∧
    (∀ (sys sys' : BusReservationSystem) (busNumber : String) (seatInput : Option Int)
      (name : String) (draws : Nat → Fin 62) (out : Outcome TicketInfo),
      name ≠ "" → ticketsNamed sys →
      allotmentOfSeatToPassenger sys busNumber seatInput name draws = some (out, sys') →
      ticketsNamed sys') ∧
    (∀ (sys sys' : BusReservationSystem) (q : String) (confirmation : Char)
      (out : Outcome TicketInfo), ticketsNamed sys →
      cancelTicket sys q confirmation = some (out, sys') → ticketsNamed sys') ∧
    (∀ (sys sys' : BusReservationSystem) (busNumber : String) (confirmation : Char)
      (out : Outcome Unit), ticketsNamed sys →
      deleteBus sys busNumber confirmation = some (out, sys') → ticketsNamed sys') := by
  refine ⟨?_, ?_, ?_, ?_, ?_⟩
  · intro i row col cell h
    simp [initial, seatAt] at h
  · intro sys sys' r out hc hN hstep
    rw [addNewBus_eq sys r hc] at hstep
    have hstep' := Option.some.inj hstep
    split_ifs at hstep'
    all_goals try (cases hstep'; exact hN)
    cases hstep'
    intro i row col cell hcell hid
    rcases seatAt_append_fresh sys.bus _ rfl i row col cell hcell with h1 | h1
    · exact hN i row col cell h1 hid
    · exact absurd h1 hid
  · intro sys sys' busNumber seatInput name draws out hname hN hstep
    rcases allotment_state sys sys' busNumber seatInput name draws out hstep with
      h | ⟨k, row, col, h⟩
    · rw [h]; exact hN
    · rw [h]
      intro i row' col' cell hcell hid
      simp only [seatAt_setSeat] at hcell
      split_ifs at hcell
      · cases hcell; exact hname
      · exact hN i row' col' cell hcell hid
  · intro sys sys' q confirmation out hN hstep
    rcases cancelTicket_state sys sys' q confirmation out hstep with h | ⟨k, row, col, h⟩
    · rw [h]; exact hN
    · rw [h]
      intro i row' col' cell hcell hid
      simp only [seatAt_setSeat] at hcell
      split_ifs at hcell
      · cases hcell; exact absurd rfl hid
      · exact hN i row' col' cell hcell hid
  · intro sys sys' busNumber confirmation out hN hstep
    rcases deleteBus_state sys sys' busNumber confirmation out hstep with h | ⟨k, h⟩
    · rw [h]; exact hN
    · rw [h]
      intro i row col cell hcell hid
      simp only [seatAt_eraseIdx] at hcell
      exact hN _ row col cell hcell hid

/-- C19 (failing input): starting from the empty collection, adding bus "1234"
and booking seat 1 for "Alice" and seat 2 for "Bob", with the random draws giving
index 10 of the character set every time, issues the ticket ID "aaaaaaaa" both
times: both calls succeed, the state reached is reachable, and in it two
different occupied cells hold the same ticket ID, so stored ticket IDs are not
distinct. -/
theorem reachable_duplicate_ticket :
    generateTicketID drawsA = "aaaaaaaa" ∧
    addNewBus initial sampleRecord = some (.ok (), oneBus) ∧
    allotmentOfSeatToPassenger oneBus "1234" (some 1) "Alice" drawsA =
      some (.ok { passengerName := "Alice", ticketID := "aaaaaaaa", busNumber := "1234",
                  seatNumber := 1 }, oneBusWith "Alice" "aaaaaaaa") ∧
    allotmentOfSeatToPassenger (oneBusWith "Alice" "aaaaaaaa") "1234" (some 2) "Bob" drawsA =
      some (.ok { passengerName := "Bob", ticketID := "aaaaaaaa", busNumber := "1234",
                  seatNumber := 2 },
            oneBusWithTwo ⟨"Alice", "aaaaaaaa"⟩ ⟨"Bob", "aaaaaaaa"⟩) ∧
    Reachable (oneBusWithTwo ⟨"Alice", "aaaaaaaa"⟩ ⟨"Bob", "aaaaaaaa"⟩) ∧
    (∃ cell cell',
      seatAt (oneBusWithTwo ⟨"Alice", "aaaaaaaa"⟩ ⟨"Bob", "aaaaaaaa"⟩).bus 0 0 0 = some cell ∧
      seatAt (oneBusWithTwo ⟨"Alice", "aaaaaaaa"⟩ ⟨"Bob", "aaaaaaaa"⟩).bus 0 0 1 = some cell' ∧
      cell.occupied ∧ cell'.occupied ∧ cell.ticketID = cell'.ticketID) ∧
    ¬ ticketIDsDistinct (oneBusWithTwo ⟨"Alice", "aaaaaaaa"⟩ ⟨"Bob", "aaaaaaaa"⟩) :=
  have hadd : addNewBus initial sampleRecord = some (.ok (), oneBus) := by decide
  have h1 : allotmentOfSeatToPassenger oneBus "1234" (some 1) "Alice" drawsA =
      some (.ok { passengerName := "Alice", ticketID := "aaaaaaaa", busNumber := "1234",
                  seatNumber := 1 }, oneBusWith "Alice" "aaaaaaaa") := by decide
  have h2 : allotmentOfSeatToPassenger (oneBusWith "Alice" "aaaaaaaa") "1234" (some 2)
        "Bob" drawsA =
      some (.ok { passengerName := "Bob", ticketID := "aaaaaaaa", busNumber := "1234",
                  seatNumber := 2 },
            oneBusWithTwo ⟨"Alice", "aaaaaaaa"⟩ ⟨"Bob", "aaaaaaaa"⟩) := by decide
  ⟨by decide, hadd, h1, h2,
    Reachable.allotmentOfSeatToPassenger "1234" (some 2) "Bob" drawsA
      (Reachable.allotmentOfSeatToPassenger "1234" (some 1) "Alice" drawsA
        (Reachable.addNewBus sampleRecord Reachable.init hadd) h1) h2,
    ⟨⟨"Alice", "aaaaaaaa"⟩, ⟨"Bob", "aaaaaaaa"⟩, by decide, by decide, by decide, by decide,
      rfl⟩,
    fun hD => absurd
      (hD (0, 0, 0) (0, 0, 1) ⟨"Alice", "aaaaaaaa"⟩ ⟨"Bob", "aaaaaaaa"⟩ (by decide) (by decide)
        (by decide) rfl)
      (by decide)⟩

/-! ## Extensionality of the collection -/

theorem row_ext (r1 r2 : List SeatInfo) (h : ∀ c : Nat, r1[c]? = r2[c]?) : r1 = r2 :=
  List.ext_getElem? h

theorem grid_ext (s1 s2 : List (List SeatInfo))
    (hshape : s1.map List.length = s2.map List.length)
    (hcells : ∀ row col : Nat,
      (s1[row]?).bind (fun r => r[col]?) = (s2[row]?).bind (fun r => r[col]?)) :
    s1 = s2 := by
  apply List.ext_getElem?
  intro row
  have hrow : (s1.map List.length)[row]? = (s2.map List.length)[row]? := by rw [hshape]
  simp only [List.getElem?_map] at hrow
  cases h1 : s1[row]? with
  | none =>
    cases h2 : s2[row]? with
    | none => rfl
    | some r2 => simp [h1, h2] at hrow
  | some r1 =>
    cases h2 : s2[row]? with
    | none => simp [h1, h2] at hrow
    | some r2 =>
      have hlen : r1.length = r2.length := by simpa [h1, h2] using hrow
      congr 1
      apply List.ext_getElem?
      intro col
      have := hcells row col
      simpa [h1, h2] using this

/-- Two collections with the same descriptive fields, the same grid shapes and
the same cell at every position are equal. -/
theorem bus_ext (l1 l2 : List Bus) (hrec : l1.map Bus.record = l2.map Bus.record)
    (hshape : l1.map Bus.shape = l2.map Bus.shape)
    (hcells : ∀ i row col : Nat, seatAt l1 i row col = seatAt l2 i row col) : l1 = l2 := by
  apply List.ext_getElem?
  intro i
  have hr : (l1.map Bus.record)[i]? = (l2.map Bus.record)[i]? := by rw [hrec]
  have hs : (l1.map Bus.shape)[i]? = (l2.map Bus.shape)[i]? := by rw [hshape]
  simp only [List.getElem?_map] at hr hs
  cases h1 : l1[i]? with
  | none =>
    cases h2 : l2[i]? with
    | none => rfl
    | some b2 => simp [h1, h2] at hr
  | some b1 =>
    cases h2 : l2[i]? with
    | none => simp [h1, h2] at hr
    | some b2 =>
      have hr' : b1.record = b2.record := by simpa [h1, h2] using hr
      have hs' : b1.shape = b2.shape := by simpa [h1, h2] using hs
      have hseat : b1.seat = b2.seat := by
        apply grid_ext b1.seat b2.seat hs'
        intro row col
        have := hcells i row col
        simpa [seatAt_eq, h1, h2] using this
      congr 1
      cases b1
      cases b2
      simp only [Bus.record, BusRecord.mk.injEq] at hr'
      simp only at hseat
      simp only [Bus.mk.injEq]
      exact ⟨hr'.1, hr'.2.1, hr'.2.2.1, hr'.2.2.2.1, hr'.2.2.2.2.1, hr'.2.2.2.2.2, hseat⟩

/-- Writing a cell and then writing back what it held restores the collection. -/
theorem setSeat_restore (bus : List Bus) (k row col : Nat) (old new : SeatInfo)
    (hold : seatAt bus k row col = some old) :
    setSeat (setSeat bus k row col new) k row col old = bus := by
  apply bus_ext
  · rw [setSeat_record, setSeat_record]
  · rw [setSeat_shape, setSeat_shape]
  · intro i r c
    rw [seatAt_setSeat, seatAt_setSeat]
    by_cases hpos : i = k ∧ r = row ∧ c = col
    · obtain ⟨rfl, rfl, rfl⟩ := hpos
      simp [hold]
    · have h1 : ¬ (i = k ∧ r = row ∧ c = col ∧ (seatAt bus k row col).isSome = true) :=
        fun h => hpos ⟨h.1, h.2.1, h.2.2.1⟩
      have h2 : ¬ (i = k ∧ r = row ∧ c = col ∧
          (if k = k ∧ row = row ∧ col = col ∧ (seatAt bus k row col).isSome = true
            then some new else seatAt bus k row col).isSome = true) :=
        fun h => hpos ⟨h.1, h.2.1, h.2.2.1⟩
      rw [if_neg h2, seatAt_setSeat, if_neg h1]

/-! ## Round trips -/

theorem charset_lower_fixed (k : Fin 62) :
    Char.toLower (Char.toLower (charset.getD k.val '0')) =
      Char.toLower (charset.getD k.val '0') := by
  revert k
  decide

theorem tolower_generateTicketID (draws : Nat → Fin 62) :
    tolower (generateTicketID draws) = generateTicketID draws := by
  apply String.ext
  simp only [generateTicketID, tolower, List.map_map]
  apply List.map_congr_left
  intro i _
  exact charset_lower_fixed (draws i)

theorem reachable_ids_lowercase (sys : BusReservationSystem) (h : Reachable sys) :
    storedIDsLowercase sys := by
  intro i row col cell hcell
  obtain ⟨b, hb, r, hr, hc⟩ := mem_of_seatAt sys.bus i row col cell hcell
  exact reachable_cells (fun cell => tolower cell.ticketID = cell.ticketID) rfl
    (fun _ d => tolower_generateTicketID d) sys h b hb r hr cell hc

theorem storedIDsLowercase_of_mem (sys : BusReservationSystem)
    (h : ∀ b ∈ sys.bus, ∀ r ∈ b.seat, ∀ cell ∈ r, tolower cell.ticketID = cell.ticketID) :
    storedIDsLowercase sys := by
  intro i row col cell hcell
  obtain ⟨b, hb, r, hr, hc⟩ := mem_of_seatAt sys.bus i row col cell hcell
  exact h b hb r hr cell hc

theorem busn_after_setSeat (bus : List Bus) (k row col : Nat) (new : SeatInfo) (i : Nat)
    (b b' : Bus) (hb : bus[i]? = some b) (hb' : (setSeat bus k row col new)[i]? = some b') :
    b'.busn = b.busn := by
  have h : ((setSeat bus k row col new).map fun x => x.busn)[i]? =
      (bus.map fun x => x.busn)[i]? := by rw [setSeat_busn]
  simpa [List.getElem?_map, hb, hb'] using h

theorem gridOK_after_setSeat (bus : List Bus) (k row col : Nat) (new : SeatInfo)
    (hgrid : ∀ b ∈ bus, b.gridOK) : ∀ b ∈ setSeat bus k row col new, b.gridOK := by
  intro b hb
  have hmem : b.shape ∈ (setSeat bus k row col new).map Bus.shape := List.mem_map_of_mem _ hb
  rw [setSeat_shape] at hmem
  obtain ⟨b0, hb0, hshape⟩ := List.mem_map.mp hmem
  have := hgrid b0 hb0
  unfold Bus.gridOK at this ⊢
  rw [← hshape]; exact this

theorem scansBefore_irrefl (p : Nat × Nat × Nat) : ¬ scansBefore p p := by
  unfold scansBefore
  omega

/-- After a ticket with a lowercase ID that no cell stored is written into a
cell, that cell is the first match of every query equal to the ID up to case. -/
theorem firstMatch_after_write (sys : BusReservationSystem) (k row col : Nat)
    (name t q : String) (cell : SeatInfo) (hcell : seatAt sys.bus k row col = some cell)
    (hcanon : storedIDsLowercase sys) (hunused : idUnused sys t) (ht : tolower t = t)
    (hq : tolower q = tolower t) :
    firstMatchAt (setSeat sys.bus k row col ⟨name, t⟩) q (k, row, col) := by
  constructor
  · refine ⟨⟨name, t⟩, by simp [seatAt_setSeat, hcell], ?_⟩
    exact hq.symm
  · intro p cell' hbefore hcell' hm
    rw [seatAt_setSeat] at hcell'
    split_ifs at hcell' with hpos
    · have hp : p = (k, row, col) :=
        Prod.ext hpos.1 (Prod.ext hpos.2.1 hpos.2.2.1)
      rw [hp] at hbefore
      exact scansBefore_irrefl _ hbefore
    · have h1 : tolower cell'.ticketID = t := by
        have : tolower cell'.ticketID = tolower q := hm
        rw [this, hq, ht]
      rw [hcanon _ _ _ cell' hcell'] at h1
      exact hunused _ _ _ cell' hcell' h1

theorem ticketInfo_after_allotment (b : Bus) (busNumber name t : String) (s : Int)
    (hbn : b.busn = busNumber) (ht : tolower t = t) (hs : 1 ≤ s ∧ s ≤ 32) :
    ticketInfoAt b ⟨name, t⟩ ((s - 1) / 4).toNat ((s - 1) % 4).toNat =
      { passengerName := name, ticketID := t, busNumber := busNumber, seatNumber := s } := by
  have hseat : seatNumberAt ((s - 1) / 4).toNat ((s - 1) % 4).toNat = s := by
    rw [seatNumberAt_eq]
    have e1 : (((s - 1) / 4).toNat : Int) = (s - 1) / 4 := Int.toNat_of_nonneg (by omega)
    have e2 : (((s - 1) % 4).toNat : Int) = (s - 1) % 4 := Int.toNat_of_nonneg (by omega)
    rw [e1, e2]
    omega
  have hseat' : (ticketInfoAt b ⟨name, t⟩ ((s - 1) / 4).toNat ((s - 1) % 4).toNat).seatNumber
      = s := hseat
  simp only [ticketInfoAt, TicketInfo.mk.injEq, ht, hbn, true_and]
  exact hseat'

/-- C22: when the stored ticket IDs are lowercase, as they are in every
reachable state, and `allotmentOfSeatToPassenger` succeeds with a generated ID
that no cell stored beforehand, the seat number is in [1,32], the ticket issued
is `{name, ID, bus number, seat number}`, and `showTicketInfo` on the new state,
for every query equal to the ID up to letter case, reports exactly that
passenger name, bus number and seat number. -/
theorem allotment_then_showTicketInfo (sys sys' : BusReservationSystem)
    (busNumber name q : String) (s : Int) (draws : Nat → Fin 62) (info : TicketInfo)
    (hcanon : storedIDsLowercase sys) (hunused : idUnused sys (generateTicketID draws))
    (hallot : allotmentOfSeatToPassenger sys busNumber (some s) name draws =
      some (.ok info, sys'))
    (hq : tolower q = tolower (generateTicketID draws)) :
    (1 ≤ s ∧ s ≤ 32) ∧
    info = { passengerName := name, ticketID := generateTicketID draws,
             busNumber := busNumber, seatNumber := s } ∧
    showTicketInfo sys' q = some (.ok
      { passengerName := name, ticketID := generateTicketID draws,
        busNumber := busNumber, seatNumber := s }) := by
  obtain ⟨k, b, cell, hfind, hb, hs, hcell, hname, hsys'⟩ :=
    allotment_ok_inv sys sys' busNumber s name draws info hallot
  obtain ⟨b0, hb0, hbn0⟩ := findBus_lt_length busNumber sys.bus k hfind
  have hbn : b.busn = busNumber := by
    rw [hb] at hb0; cases hb0; exact hbn0
  have hsucc := allotment_success sys busNumber s name draws k b cell hfind hb hs hcell hname
  have hinfo : info = ⟨name, generateTicketID draws, busNumber, s⟩ := by
    rw [hallot, hbn] at hsucc
    simp only [Option.some.injEq, Prod.mk.injEq, Outcome.ok.injEq] at hsucc
    exact hsucc.1
  refine ⟨hs, hinfo, ?_⟩
  have ht := tolower_generateTicketID draws
  have hfirst := firstMatch_after_write sys k _ _ name _ q cell hcell hcanon hunused ht hq
  have hnew : seatAt sys'.bus k ((s - 1) / 4).toNat ((s - 1) % 4).toNat =
      some ⟨name, generateTicketID draws⟩ := by
    rw [hsys']; simp [seatAt_setSeat, hcell]
  rcases showTicketInfo_cases sys' q with ⟨p, b', cell', hp, hb', hcell', _, hres⟩ | ⟨hnone, _⟩
  · have hpp : p = (k, ((s - 1) / 4).toNat, ((s - 1) % 4).toNat) := by
      apply firstMatchAt_unique sys'.bus q p _ hp
      rw [hsys']; exact hfirst
    subst hpp
    simp only at hb' hcell' hres
    rw [hnew] at hcell'
    cases hcell'
    have hbn' : b'.busn = busNumber := by
      rw [hsys'] at hb'
      rw [busn_after_setSeat sys.bus k _ _ _ k b b' hb hb', hbn]
    rw [hres, ticketInfo_after_allotment b' busNumber name _ s hbn' ht hs]
  · exact absurd hq.symm (hnone _ _ _ _ hnew)

theorem allotment_then_showTicketInfo_witness :
    storedIDsLowercase oneBus ∧ idUnused oneBus (generateTicketID drawsA) ∧
    allotmentOfSeatToPassenger oneBus "1234" (some 1) "Alice" drawsA =
      some (.ok { passengerName := "Alice", ticketID := "aaaaaaaa", busNumber := "1234",
                  seatNumber := 1 }, oneBusWith "Alice" "aaaaaaaa") ∧
    tolower "AaAaAaAa" = tolower (generateTicketID drawsA) ∧
    showTicketInfo (oneBusWith "Alice" "aaaaaaaa") "AaAaAaAa" = some (.ok
      { passengerName := "Alice", ticketID := generateTicketID drawsA,
        busNumber := "1234", seatNumber := 1 }) :=
  have hcanon : storedIDsLowercase oneBus := storedIDsLowercase_of_mem oneBus (by decide)
  have hunused : idUnused oneBus (generateTicketID drawsA) :=
    idUnused_of_mem oneBus _ (by decide)
  have hallot : allotmentOfSeatToPassenger oneBus "1234" (some 1) "Alice" drawsA =
      some (.ok { passengerName := "Alice", ticketID := "aaaaaaaa", busNumber := "1234",
                  seatNumber := 1 }, oneBusWith "Alice" "aaaaaaaa") := by decide
  ⟨hcanon, hunused, hallot, by decide,
    (allotment_then_showTicketInfo oneBus (oneBusWith "Alice" "aaaaaaaa") "1234" "Alice"
      "AaAaAaAa" 1 drawsA _ hcanon hunused hallot (by decide)).2.2⟩

/-- C23: on a ledger with 8 by 4 grids and lowercase stored ticket IDs (both
hold in every reachable state), when the first bus with the given number is at
index `k`, the cell of seat `s` in [1,32] has both fields empty and no cell
stores the generated ID, `allotmentOfSeatToPassenger` succeeds, and a confirmed
`cancelTicket` of that ID (in any casing) on the new state succeeds, reports the
ticket just issued and returns exactly the state before the allotment; so the
seat can be allotted again. -/
theorem allotment_then_cancelTicket (sys : BusReservationSystem) (busNumber name : String)
    (s : Int) (draws : Nat → Fin 62) (confirmation : Char) (k : Nat) (b : Bus)
    (cell : SeatInfo)
    (hgrid : ∀ b ∈ sys.bus, b.gridOK) (hcanon : storedIDsLowercase sys)
    (hunused : idUnused sys (generateTicketID draws))
    (hb : sys.bus[k]? = some b) (hbn : b.busn = busNumber)
    (hfirst : ∀ (j : Nat) (b' : Bus), j < k → sys.bus[j]? = some b' → b'.busn ≠ busNumber)
    (hs : 1 ≤ s ∧ s ≤ 32)
    (hcell : seatAt sys.bus k ((s - 1) / 4).toNat ((s - 1) % 4).toNat = some cell)
    (hvac : cell.vacant) (hyes : confirmed confirmation = true) :
    ∃ sys', allotmentOfSeatToPassenger sys busNumber (some s) name draws =
        some (.ok { passengerName := name, ticketID := generateTicketID draws,
                    busNumber := busNumber, seatNumber := s }, sys') ∧
      (∀ q, tolower q = tolower (generateTicketID draws) →
        cancelTicket sys' q confirmation =
          some (.ok { passengerName := name, ticketID := generateTicketID draws,
                      busNumber := busNumber, seatNumber := s }, sys)) ∧
      cancelTicket sys' (generateTicketID draws) confirmation =
        some (.ok { passengerName := name, ticketID := generateTicketID draws,
                    busNumber := busNumber, seatNumber := s }, sys) ∧
      (∀ (name' : String) (draws' : Nat → Fin 62),
        ∃ info sys'', allotmentOfSeatToPassenger sys busNumber (some s) name' draws' =
          some (.ok info, sys'')) := by
  have hfind := findBus_first busNumber sys.bus k b hb hbn hfirst
  have hsucc := allotment_success sys busNumber s name draws k b cell hfind hb hs hcell hvac.1
  rw [hbn] at hsucc
  have ht := tolower_generateTicketID draws
  have hcellv : cell = ⟨"", ""⟩ := by
    cases cell
    simp only [SeatInfo.vacant] at hvac
    simp [hvac.1, hvac.2]
  have hcancel : ∀ q, tolower q = tolower (generateTicketID draws) →
      cancelTicket
        { sys with bus := setSeat sys.bus k ((s - 1) / 4).toNat ((s - 1) % 4).toNat
                            ⟨name, generateTicketID draws⟩ } q confirmation =
        some (.ok ⟨name, generateTicketID draws, busNumber, s⟩, sys) := by
    intro q hq
    have hfirstm := firstMatch_after_write sys k _ _ name _ q cell hcell hcanon hunused ht hq
    have hgrid' := gridOK_after_setSeat sys.bus k ((s - 1) / 4).toNat ((s - 1) % 4).toNat
      ⟨name, generateTicketID draws⟩ hgrid
    have hnew : seatAt (setSeat sys.bus k ((s - 1) / 4).toNat ((s - 1) % 4).toNat
        ⟨name, generateTicketID draws⟩) k ((s - 1) / 4).toNat ((s - 1) % 4).toNat =
        some ⟨name, generateTicketID draws⟩ := by
      simp [seatAt_setSeat, hcell]
    rcases cancelTicket_cases
        { sys with bus := setSeat sys.bus k ((s - 1) / 4).toNat ((s - 1) % 4).toNat
                            ⟨name, generateTicketID draws⟩ } q confirmation hgrid' with
      ⟨p, b', cell', hp, hb', hcell', _, hres⟩ | ⟨hnone, _⟩
    · have hpp : p = (k, ((s - 1) / 4).toNat, ((s - 1) % 4).toNat) :=
        firstMatchAt_unique _ q p _ hp hfirstm
      subst hpp
      simp only at hb' hcell' hres
      rw [hnew] at hcell'
      cases hcell'
      have hbn' : b'.busn = busNumber := by
        rw [busn_after_setSeat sys.bus k _ _ _ k b b' hb hb', hbn]
      rw [hres, hyes, ticketInfo_after_allotment b' busNumber name _ s hbn' ht hs]
      simp only [Bool.true_eq_false, if_false, Option.some.injEq, Prod.mk.injEq, true_and]
      rw [setSeat_restore sys.bus k _ _ ⟨"", ""⟩ _ (by rw [hcell, hcellv])]
    · exact absurd hq.symm (hnone _ _ _ _ hnew)
  refine ⟨_, hsucc, hcancel, hcancel _ rfl, ?_⟩
  intro name' draws'
  exact ⟨_, _, allotment_success sys busNumber s name' draws' k b cell hfind hb hs hcell hvac.1⟩

theorem allotment_then_cancelTicket_witness :
    (∀ b ∈ oneBus.bus, b.gridOK) ∧ storedIDsLowercase oneBus ∧
    idUnused oneBus (generateTicketID drawsA) ∧ confirmed 'Y' = true ∧
    allotmentOfSeatToPassenger oneBus "1234" (some 6) "Alice" drawsA =
      some (.ok { passengerName := "Alice", ticketID := "aaaaaaaa", busNumber := "1234",
                  seatNumber := 6 },
            { bus := setSeat oneBus.bus 0 1 1 ⟨"Alice", "aaaaaaaa"⟩, busCount := 1 }) ∧
    cancelTicket { bus := setSeat oneBus.bus 0 1 1 ⟨"Alice", "aaaaaaaa"⟩, busCount := 1 }
        "aaaaaaaa" 'Y' =
      some (.ok { passengerName := "Alice", ticketID := "aaaaaaaa", busNumber := "1234",
                  seatNumber := 6 }, oneBus) ∧
    ∃ sys', allotmentOfSeatToPassenger oneBus "1234" (some 6) "Alice" drawsA =
        some (.ok { passengerName := "Alice", ticketID := generateTicketID drawsA,
                    busNumber := "1234", seatNumber := 6 }, sys') ∧
      cancelTicket sys' (generateTicketID drawsA) 'Y' =
        some (.ok { passengerName := "Alice", ticketID := generateTicketID drawsA,
                    busNumber := "1234", seatNumber := 6 }, oneBus) :=
  have hgrid : ∀ b ∈ oneBus.bus, b.gridOK := by decide
  have hcanon : storedIDsLowercase oneBus := storedIDsLowercase_of_mem oneBus (by decide)
  have hunused : idUnused oneBus (generateTicketID drawsA) :=
    idUnused_of_mem oneBus _ (by decide)
  ⟨hgrid, hcanon, hunused, by decide, by decide, by decide,
    match allotment_then_cancelTicket oneBus "1234" "Alice" 6 drawsA 'Y' 0 sampleBus
        { passengerName := "", ticketID := "" } hgrid hcanon hunused (by decide) (by decide)
        (fun j _ hj => absurd hj (Nat.not_lt_zero j)) (by decide) (by decide) (by decide)
        (by decide) with
    | ⟨sys', h⟩ => ⟨sys', h.1, h.2.2.1⟩⟩

/-! ## Index safety -/

theorem gridPositions_bounds : ∀ p ∈ gridPositions, p.1 < 8 ∧ p.2 < 4 := by decide

theorem readCells_some (b : Bus) (hgrid : b.gridOK) (ps : List (Nat × Nat))
    (hps : ∀ p ∈ ps, p.1 < 8 ∧ p.2 < 4) :
    ∃ cells, readCells b ps = some cells ∧ cells.length = ps.length := by
  induction ps with
  | nil => exact ⟨[], rfl, rfl⟩
  | cons p rest ih =>
    obtain ⟨i, j⟩ := p
    obtain ⟨hi, hj⟩ := hps (i, j) (List.mem_cons_self _ _)
    obtain ⟨cells, hcells, hlen⟩ := ih (fun p hp => hps p (List.mem_cons_of_mem _ hp))
    obtain ⟨hrows, hcols⟩ := Bus.gridOK_rows b hgrid
    have hi' : i < b.seat.length := by rw [hrows]; exact hi
    have hr : b.seat[i]? = some b.seat[i] := List.getElem?_eq_getElem hi'
    have hj' : j < (b.seat[i]).length := by
      rw [hcols _ (List.getElem_mem hi')]; exact hj
    have hc : (b.seat[i])[j]? = some (b.seat[i])[j] := List.getElem?_eq_getElem hj'
    refine ⟨(b.seat[i])[j] :: cells, ?_, by simp [hlen]⟩
    simp only [readCells, hr, hc, hcells]

theorem listBusesFrom_some (l pre : List Bus) (hgrid : ∀ b ∈ l, b.gridOK) :
    ∃ out, listBusesFrom (pre ++ l) l.length pre.length = some out ∧
      out.map (fun x => x.details) = l.map Bus.record := by
  induction l generalizing pre with
  | nil => exact ⟨[], by simp [listBusesFrom], rfl⟩
  | cons b rest ih =>
    have hget : (pre ++ b :: rest)[pre.length]? = some b := by
      rw [List.getElem?_append_right (Nat.le_refl _)]; simp
    obtain ⟨cells, hcells, _⟩ := readCells_some b (hgrid b (List.mem_cons_self _ _))
      gridPositions gridPositions_bounds
    obtain ⟨out, hout, hdet⟩ := ih (pre ++ [b])
      (fun b' hb' => hgrid b' (List.mem_cons_of_mem _ hb'))
    simp only [List.append_assoc, List.singleton_append, List.length_append,
      List.length_singleton] at hout
    refine ⟨{ details := b.record, emptySeats := countEmpty cells } :: out, ?_, by simp [hdet]⟩
    simp only [List.length_cons, listBusesFrom, hget, hcells, hout]

/-- With the counter equal to the size and 8 by 4 grids, `showAvailableBusSeats`
reports `NotFound` when no bus has the number and otherwise the details and the
32 seats of the first bus with the number. -/
theorem showAvailableBusSeats_cases (sys : BusReservationSystem) (number : String)
    (hc : sys.busCount = (sys.bus.length : Int)) (hgrid : ∀ b ∈ sys.bus, b.gridOK) :
    ((∀ b ∈ sys.bus, b.busn ≠ number) ∧
      showAvailableBusSeats sys number = some (.error .NotFound)) ∨
    (∃ k b report, findBus number sys.bus 0 = some k ∧ sys.bus[k]? = some b ∧
      showAvailableBusSeats sys number = some (.ok report) ∧
      report.details = b.record ∧ report.names.length = 32) := by
  cases hf : findBus number sys.bus 0 with
  | none =>
    left
    have habsent := (findBus_eq_none number sys.bus 0).mp hf
    exact ⟨habsent, showAvailableBusSeats_absent sys number hc habsent⟩
  | some k =>
    right
    obtain ⟨b, hb, _⟩ := findBus_lt_length number sys.bus k hf
    have hk : k < sys.bus.length := by
      by_contra hcon
      rw [List.getElem?_eq_none (by omega)] at hb
      cases hb
    obtain ⟨cells, hcells, hlen⟩ := readCells_some b
      (hgrid b (List.mem_iff_getElem?.mpr ⟨k, hb⟩)) gridPositions gridPositions_bounds
    have hcount : sys.busCount.toNat = sys.bus.length := by rw [hc]; simp
    have hne : ¬ ((k : Int) = sys.busCount) := by rw [hc]; omega
    refine ⟨k, b, ⟨b.record, cells.map (fun x => x.passengerName), countEmpty cells⟩,
      rfl, hb, ?_, rfl, ?_⟩
    · unfold showAvailableBusSeats
      rw [hcount, findBusCounted_length, hf]
      simp only [Option.getD_some, hne, if_false, hb, hcells]
    · simp only [List.length_map, hlen]
      rfl

theorem allotment_returns (sys : BusReservationSystem) (busNumber : String)
    (seatInput : Option Int) (name : String) (draws : Nat → Fin 62)
    (hgrid : ∀ b ∈ sys.bus, b.gridOK) :
    ∃ out sys', allotmentOfSeatToPassenger sys busNumber seatInput name draws =
      some (out, sys') := by
  cases hf : findBus busNumber sys.bus 0 with
  | none =>
    refine ⟨.error .NotFound, sys, ?_⟩
    unfold allotmentOfSeatToPassenger
    rw [hf]
  | some k =>
    cases seatInput with
    | none =>
      refine ⟨.error (.InvalidInput .notAnInteger), sys, ?_⟩
      unfold allotmentOfSeatToPassenger
      simp only [hf]
    | some s =>
      by_cases hs : 1 ≤ s ∧ s ≤ 32
      · obtain ⟨b, hb, _⟩ := findBus_lt_length busNumber sys.bus k hf
        obtain ⟨cell, hcell⟩ := seatAt_of_gridOK sys.bus k ((s - 1) / 4).toNat
          ((s - 1) % 4).toNat b hb (hgrid b (List.mem_iff_getElem?.mpr ⟨k, hb⟩))
          (by omega) (by omega)
        by_cases hname : cell.passengerName = ""
        · exact ⟨_, _, allotment_success sys busNumber s name draws k b cell hf hb hs hcell
            hname⟩
        · exact ⟨_, _, allotment_taken sys busNumber s name draws k b cell hf hb hs hcell
            hname⟩
      · have hrange : s < 1 ∨ s > ((MAX_SEATS : Nat) : Int) := by
          have : ((MAX_SEATS : Nat) : Int) = 32 := rfl
          rw [this]; omega
        refine ⟨.error (.InvalidInput .outOfRange), sys, ?_⟩
        unfold allotmentOfSeatToPassenger
        simp only [hf, hrange, if_true]

theorem cancelTicket_returns (sys : BusReservationSystem) (q : String) (confirmation : Char)
    (hgrid : ∀ b ∈ sys.bus, b.gridOK) :
    ∃ out sys', cancelTicket sys q confirmation = some (out, sys') := by
  rcases cancelTicket_cases sys q confirmation hgrid with ⟨_, _, _, _, _, _, _, hres⟩ | ⟨_, hres⟩
  · exact ⟨_, _, hres⟩
  · exact ⟨_, _, hres⟩

theorem addNewBus_state (sys sys' : BusReservationSystem) (r : BusRecord) (out : Outcome Unit)
    (hc : sys.busCount = (sys.bus.length : Int)) (h : addNewBus sys r = some (out, sys')) :
    sys' = sys ∨
      sys' = { bus := sys.bus ++ [freshBus r], busCount := sys.busCount + 1 } := by
  rw [addNewBus_eq sys r hc] at h
  have h' := Option.some.inj h
  split_ifs at h'
  all_goals try (left; cases h'; rfl)
  right
  cases h'
  rfl

/-- C21: in every reachable state every seat grid has exactly 8 rows of
exactly 4 cells, so every cell with row below 8 and column below 4 of every bus
exists, and the cell accesses of `allotmentOfSeatToPassenger` (whatever the seat
input), `cancelTicket`, `showAvailableBusSeats` and `showAvailableBuses` are all
in range: these functions return.  No operation resizes a grid: an allotment or a
cancellation leaves every grid shape as it was, `addNewBus` leaves the collection
alone or appends one bus with an 8 by 4 grid, and `deleteBus` only leaves buses
that were there. -/
theorem reachable_grid_in_bounds (sys : BusReservationSystem) (h : Reachable sys) :
    (∀ b ∈ sys.bus, b.seat.length = 8 ∧ ∀ r ∈ b.seat, r.length = 4) ∧
    (∀ (i row col : Nat) (b : Bus), sys.bus[i]? = some b → row < 8 → col < 4 →
      ∃ cell, seatAt sys.bus i row col = some cell) ∧
    (∀ busNumber seatInput name draws,
      ∃ out sys', allotmentOfSeatToPassenger sys busNumber seatInput name draws =
          some (out, sys') ∧
        sys'.bus.map Bus.shape = sys.bus.map Bus.shape) ∧
    (∀ q confirmation,
      ∃ out sys', cancelTicket sys q confirmation = some (out, sys') ∧
        sys'.bus.map Bus.shape = sys.bus.map Bus.shape) ∧
    (∀ number, ∃ out, showAvailableBusSeats sys number = some out) ∧
    (∃ out, showAvailableBuses sys = some out) ∧
    (∀ r out sys', addNewBus sys r = some (out, sys') →
      sys'.bus = sys.bus ∨ ∃ b, sys'.bus = sys.bus ++ [b] ∧ b.gridOK) ∧
    (∀ number confirmation out sys', deleteBus sys number confirmation = some (out, sys') →
      ∀ b ∈ sys'.bus, b ∈ sys.bus) := by
  obtain ⟨hc, _, _, hgrid⟩ := reachable_inv sys h
  refine ⟨fun b hb => Bus.gridOK_rows b (hgrid b hb), ?_, ?_, ?_, ?_, ?_, ?_, ?_⟩
  · intro i row col b hb hrow hcol
    exact seatAt_of_gridOK sys.bus i row col b hb
      (hgrid b (List.mem_iff_getElem?.mpr ⟨i, hb⟩)) hrow hcol
  · intro busNumber seatInput name draws
    obtain ⟨out, sys', hres⟩ := allotment_returns sys busNumber seatInput name draws hgrid
    refine ⟨out, sys', hres, ?_⟩
    rcases allotment_state sys sys' busNumber seatInput name draws out hres with
      h1 | ⟨k, row, col, h1⟩
    · rw [h1]
    · rw [h1]; exact setSeat_shape _ _ _ _ _
  · intro q confirmation
    obtain ⟨out, sys', hres⟩ := cancelTicket_returns sys q confirmation hgrid
    refine ⟨out, sys', hres, ?_⟩
    rcases cancelTicket_state sys sys' q confirmation out hres with h1 | ⟨k, row, col, h1⟩
    · rw [h1]
    · rw [h1]; exact setSeat_shape _ _ _ _ _
  · intro number
    rcases showAvailableBusSeats_cases sys number hc hgrid with
      ⟨_, hres⟩ | ⟨_, _, _, _, _, hres, _⟩
    · exact ⟨_, hres⟩
    · exact ⟨_, hres⟩
  · unfold showAvailableBuses
    by_cases h0 : sys.busCount = 0
    · exact ⟨_, by rw [if_pos h0]⟩
    · obtain ⟨l, hl, _⟩ := listBusesFrom_some sys.bus [] hgrid
      have hcount : sys.busCount.toNat = sys.bus.length := by rw [hc]; simp
      simp only [List.nil_append, List.length_nil] at hl
      exact ⟨_, by rw [if_neg h0, hcount, hl]; rfl⟩
  · intro r out sys' hres
    rcases addNewBus_state sys sys' r out hc hres with h1 | h1
    · left; rw [h1]
    · right; rw [h1]; exact ⟨freshBus r, rfl, rfl⟩
  · intro number confirmation out sys' hres b hb
    rcases deleteBus_state sys sys' number confirmation out hres with h1 | ⟨k, h1⟩
    · rw [h1] at hb; exact hb
    · rw [h1] at hb
      exact (List.eraseIdx_sublist _ _).subset hb

theorem reachable_grid_in_bounds_witness :
    Reachable twoBuses ∧
    (∀ b ∈ twoBuses.bus, b.seat.length = 8 ∧ ∀ r ∈ b.seat, r.length = 4) ∧
    ∃ out, showAvailableBusSeats twoBuses "5678" = some out :=
  ⟨reachable_twoBuses, (reachable_grid_in_bounds twoBuses reachable_twoBuses).1,
    (reachable_grid_in_bounds twoBuses reachable_twoBuses).2.2.2.2.1 "5678"⟩

/-! ## The counter -/

/-- C24: in every reachable state the counter `busCount` equals the size of
the vector `bus`.  Hence the loops bounded by `busCount` never index past the
end and see the same buses as the loops bounded by `bus.size()`: the counted
search of `addNewBus` and `showAvailableBusSeats` ends where the search of
`allotmentOfSeatToPassenger` and `deleteBus` ends, `showAvailableBusSeats`
reports `NotFound` exactly when no bus has the number and otherwise the first bus
with it, `showAvailableBuses` lists every bus once in order, and `addNewBus`
returns. -/
theorem reachable_counter_consistent (sys : BusReservationSystem) (h : Reachable sys) :
    sys.busCount = (sys.bus.length : Int) ∧
    (∀ number, findBusCounted sys.bus number sys.busCount.toNat 0 =
      some (findBus number sys.bus 0)) ∧
    (∀ number,
      (showAvailableBusSeats sys number = some (.error .NotFound) ↔
        ∀ b ∈ sys.bus, b.busn ≠ number) ∧
      (∀ k, findBus number sys.bus 0 = some k →
        ∃ b report, sys.bus[k]? = some b ∧
          showAvailableBusSeats sys number = some (.ok report) ∧
          report.details = b.record)) ∧
    (∃ l, listBusesFrom sys.bus sys.busCount.toNat 0 = some l ∧
      l.map (fun x => x.details) = sys.bus.map Bus.record) ∧
    (∀ r, ∃ out sys', addNewBus sys r = some (out, sys')) := by
  obtain ⟨hc, _, _, hgrid⟩ := reachable_inv sys h
  have hcount : sys.busCount.toNat = sys.bus.length := by rw [hc]; simp
  refine ⟨hc, ?_, ?_, ?_, ?_⟩
  · intro number
    rw [hcount, findBusCounted_length]
  · intro number
    rcases showAvailableBusSeats_cases sys number hc hgrid with
      ⟨habsent, hres⟩ | ⟨k, b, report, hf, hb, hres, hdet, _⟩
    · refine ⟨⟨fun _ => habsent, fun _ => hres⟩, ?_⟩
      intro k hk
      rw [(findBus_eq_none number sys.bus 0).mpr habsent] at hk
      cases hk
    · obtain ⟨b0, hb0, hbn0⟩ := findBus_lt_length number sys.bus k hf
      refine ⟨⟨?_, ?_⟩, ?_⟩
      · intro hnf
        rw [hres] at hnf
        cases hnf
      · intro habsent
        exact absurd hbn0 (habsent b0 (List.mem_iff_getElem?.mpr ⟨k, hb0⟩))
      · intro k' hk'
        rw [hf] at hk'
        cases hk'
        exact ⟨b, report, hb, hres, hdet⟩
  · obtain ⟨l, hl, hdet⟩ := listBusesFrom_some sys.bus [] hgrid
    simp only [List.nil_append, List.length_nil] at hl
    exact ⟨l, by rw [hcount]; exact hl, hdet⟩
  · intro r
    exact ⟨_, _, addNewBus_eq sys r hc⟩

theorem reachable_counter_consistent_witness :
    Reachable twoBuses ∧ twoBuses.busCount = (twoBuses.bus.length : Int) ∧
    findBusCounted twoBuses.bus "5678" twoBuses.busCount.toNat 0 = some (some 1) :=
  ⟨reachable_twoBuses, (reachable_counter_consistent twoBuses reachable_twoBuses).1,
    ((reachable_counter_consistent twoBuses reachable_twoBuses).2.1 "5678").trans
      (by decide)⟩

end BusReservationSystem
